import Mathlib

/-!
# Orders, products and their association table (Demo7/postgres-crud)

A shallow embedding of the service layer of `Demo7/postgres-crud`
(`service/product_service.go`, `service/order_service.go`), of the
repository layer it calls (`repository/product_repository.go`) and of the
listing and order handlers above it (`internal/handler`), over an explicit
model of the relational store the repositories talk to.  Two pieces of the
earlier demos are embedded beside it: the `GetOrder` handler of
`Demo6/postgres-crud/internal/handler/order_handler.go` and `MagnifySlice`
of `Demo3/main.go`.

Modelling conventions.

* The store is a value of type `DB`: the three tables `products`, `orders`
  and `order_products` as lists of rows in insertion order, plus the two
  identifier sequences.  Timestamps (`CreatedAt`, `UpdatedAt`) are not
  modelled; the soft-delete column `DeletedAt` is the Boolean `Deleted`.
* Go `uint` identifiers are `Nat`, the Go `int` stock and quantity are `Int`
  (the only arithmetic on them is the guarded subtraction
  `product.Stock -= quantity`, which cannot overflow), and the `float64`
  price is a rational number (finite values only).
* Every repository method is one statement against the store.  A statement
  may fail for reasons of the store itself; which methods do so during one
  service call is given by a `Faults` plan.  A failed statement leaves the
  tables as they were.
* `Store` pairs the tables with the log of repository methods called so far,
  so that "no repository call was made" can be stated.
* A listing returns rows in list order, and a row that is updated keeps its
  place in the list.  PostgreSQL promises no order for a `SELECT` without
  `ORDER BY`, and none of the listing queries has one: the general
  statements below say which rows a listing holds and compare the listings of
  one store with each other; none of them says where in a listing a row
  stands.
* Errors built with `fmt.Errorf` are constructors of `ServiceError`; a
  wrapped cause (`%w`) is the constructor's argument.
-/

namespace PostgresCrud

/-! ## Data model (`model/Product.go`, `model/Order.go`) -/

/-- Row of table `products`. -/
structure Product where
  ID : Nat
  Name : String
  Description : String
  Price : Rat
  Stock : Int
  Deleted : Bool
deriving DecidableEq, Repr

/-- Row of table `orders`. -/
structure Order where
  ID : Nat
  Description : String
  Deleted : Bool
deriving DecidableEq, Repr

/-- Row of the join table `order_products`; its primary key is the pair
`(OrderID, ProductID)`. -/
structure OrderProduct where
  OrderID : Nat
  ProductID : Nat
  Quantity : Int
  Price : Rat
deriving DecidableEq, Repr

/-- The relational store: three tables and the two identifier sequences. -/
structure DB where
  products : List Product
  orders : List Order
  orderProducts : List OrderProduct
  productSeq : Nat
  orderSeq : Nat
deriving DecidableEq, Repr

/-- The methods of the two repositories. -/
inductive RepoMethod where
  | orderCreate
  | orderGetByID
  | orderUpdate
  | orderUpdateField
  | orderDelete
  | productCreate
  | productGetByID
  | productUpdate
  | productDelete
  | productAddProductToOrder
  | productRemoveProductFromOrder
  | productGetAll
  | productGetByCondition
  | productGetProductsByOrderID
  | productFilterProducts
  | orderGetAll
  | orderGetByCondition
  | orderGetOrdersByProductID
  | orderGetOrdersWithProducts
  | productGetProductsWithOrders
  | orderGetByIDWithProducts
deriving DecidableEq, Repr

/-- Errors a repository method returns. -/
inductive StoreError where
  | recordNotFound
  | duplicateKey
  | failure
deriving DecidableEq, Repr

/-- Errors of the service layer, one constructor per `fmt.Errorf` message. -/
inductive ServiceError where
  | invalidOrderID
  | invalidProductID
  | quantityNotPositive
  | descriptionEmpty
  | productNameEmpty
  | productPriceNegative
  | productStockNegative
  | orderNotFound (cause : StoreError)
  | productNotFound (cause : StoreError)
  | insufficientStock (available requested : Int)
  | failedToAddProductToOrder (cause : StoreError)
  | failedToUpdateProductStock (cause : StoreError)
  | failedToRemoveProductFromOrder (cause : StoreError)
  | failedToCreateProduct (cause : StoreError)
  | failedToUpdateProduct (cause : StoreError)
  | failedToDeleteProduct (cause : StoreError)
  | failedToCreateOrder (cause : StoreError)
  | failedToUpdateOrder (cause : StoreError)
  | failedToUpdateOrderDescription (cause : StoreError)
  | failedToDeleteOrder (cause : StoreError)
  | failedToGetAllProducts (cause : StoreError)
  | failedToGetProductsByName (cause : StoreError)
  | failedToGetOrderProducts (cause : StoreError)
  | failedToFilterProducts (cause : StoreError)
  | failedToGetAllOrders (cause : StoreError)
  | failedToGetOrdersByDescription (cause : StoreError)
  | failedToGetOrdersByProductID (cause : StoreError)
  | failedToGetOrdersWithProducts (cause : StoreError)
  | failedToGetProduct (cause : StoreError)
  | failedToGetProductsWithOrders (cause : StoreError)
  | failedToGetOrder (cause : StoreError)
  | failedToGetOrderWithProducts (cause : StoreError)
deriving DecidableEq, Repr

/-- The errors raised by the input checks at the head of a service method,
before any repository call. -/
def ServiceError.isValidation : ServiceError → Bool
  | .invalidOrderID => true
  | .invalidProductID => true
  | .quantityNotPositive => true
  | .descriptionEmpty => true
  | .productNameEmpty => true
  | .productPriceNegative => true
  | .productStockNegative => true
  | _ => false

/-- The errors that report a missing order or product. -/
def ServiceError.isNotFound : ServiceError → Bool
  | .orderNotFound _ => true
  | .productNotFound _ => true
  | _ => false

/-- The message of a service error: the text of its `fmt.Errorf` up to the
wrapped cause or the formatted numbers. -/
def ServiceError.text : ServiceError → String
  | .invalidOrderID => "invalid order ID"
  | .invalidProductID => "invalid product ID"
  | .quantityNotPositive => "quantity must be greater than 0"
  | .descriptionEmpty => "description cannot be empty"
  | .productNameEmpty => "product name cannot be empty"
  | .productPriceNegative => "product price cannot be negative"
  | .productStockNegative => "product stock cannot be negative"
  | .orderNotFound _ => "order not found"
  | .productNotFound _ => "product not found"
  | .insufficientStock _ _ => "insufficient stock"
  | .failedToAddProductToOrder _ => "failed to add product to order"
  | .failedToUpdateProductStock _ => "failed to update product stock"
  | .failedToRemoveProductFromOrder _ => "failed to remove product from order"
  | .failedToCreateProduct _ => "failed to create product"
  | .failedToUpdateProduct _ => "failed to update product"
  | .failedToDeleteProduct _ => "failed to delete product"
  | .failedToCreateOrder _ => "failed to create order"
  | .failedToUpdateOrder _ => "failed to update order"
  | .failedToUpdateOrderDescription _ => "failed to update order description"
  | .failedToDeleteOrder _ => "failed to delete order"
  | .failedToGetAllProducts _ => "failed to get all products"
  | .failedToGetProductsByName _ => "failed to get products by name"
  | .failedToGetOrderProducts _ => "failed to get order products"
  | .failedToFilterProducts _ => "failed to filter products"
  | .failedToGetAllOrders _ => "failed to get all orders"
  | .failedToGetOrdersByDescription _ => "failed to get orders by description"
  | .failedToGetOrdersByProductID _ => "failed to get orders by product ID"
  | .failedToGetOrdersWithProducts _ => "failed to get orders with products"
  | .failedToGetProduct _ => "failed to get product"
  | .failedToGetProductsWithOrders _ => "failed to get products with orders"
  | .failedToGetOrder _ => "failed to get order"
  | .failedToGetOrderWithProducts _ => "failed to get order with products"

/-- Which repository methods meet a failing store during one service call. -/
abbrev Faults := RepoMethod → Bool

/-- The store never fails. -/
def noFaults : Faults := fun _ => false

/-- The tables together with the log of repository methods called so far
(most recent last). -/
structure Store where
  db : DB
  calls : List RepoMethod
deriving DecidableEq, Repr

/-- The store before anything was created. -/
def DB.empty : DB :=
  { products := [], orders := [], orderProducts := [], productSeq := 0, orderSeq := 0 }

/-- The empty store with an empty call log. -/
def Store.empty : Store := { db := DB.empty, calls := [] }

/-- Log one repository call. -/
def Store.record (s : Store) (m : RepoMethod) : Store :=
  { s with calls := s.calls ++ [m] }

/-- Replace the tables, keeping the log. -/
def Store.withDB (s : Store) (d : DB) : Store := { s with db := d }

/-! ## Product repository (`repository/product_repository.go`) -/

namespace productRepository

/-- `Create`: `db.Create(product)`.  A zero `ID` is filled from the sequence;
the insert is rejected when the primary key is already taken. -/
def Create (f : Faults) (s : Store) (product : Product) : Except StoreError Product × Store :=
  let s1 := s.record .productCreate
  if f .productCreate then (.error .failure, s1)
  else
    let seq := if product.ID = 0 then s.db.productSeq + 1 else s.db.productSeq
    let row := { product with ID := if product.ID = 0 then seq else product.ID }
    if s.db.products.any (fun p => p.ID == row.ID) then
      (.error .duplicateKey, s1.withDB { s.db with productSeq := seq })
    else
      (.ok row, s1.withDB { s.db with products := s.db.products ++ [row], productSeq := seq })

/-- `GetByID`: `db.First(&product, id)`, the row with that key that is not
soft-deleted, or the record-not-found error. -/
def GetByID (f : Faults) (s : Store) (id : Nat) : Except StoreError Product × Store :=
  let s1 := s.record .productGetByID
  if f .productGetByID then (.error .failure, s1)
  else
    match s.db.products.find? (fun p => p.ID == id && !p.Deleted) with
    | some p => (.ok p, s1)
    | none => (.error .recordNotFound, s1)

/-- `Update`: `db.Save(product)`, which writes every column of the row with
the product's key and inserts the row when the key is not in the table.  The
services save only products they have just read, whose key is in the table
and is not 0 (for a key 0 `Save` would insert under a fresh key instead). -/
def Update (f : Faults) (s : Store) (product : Product) : Except StoreError Unit × Store :=
  let s1 := s.record .productUpdate
  if f .productUpdate then (.error .failure, s1)
  else if s.db.products.any (fun p => p.ID == product.ID) then
    (.ok (), s1.withDB { s.db with
      products := s.db.products.map (fun p => if p.ID = product.ID then product else p) })
  else
    (.ok (), s1.withDB { s.db with products := s.db.products ++ [product] })

/-- `Delete`: `db.Delete(&model.Product{}, id)`.  The model has a `DeletedAt`
column, so the row is marked deleted and kept; no row affected is no error. -/
def Delete (f : Faults) (s : Store) (id : Nat) : Except StoreError Unit × Store :=
  let s1 := s.record .productDelete
  if f .productDelete then (.error .failure, s1)
  else
    (.ok (), s1.withDB { s.db with
      products := s.db.products.map
        (fun p => if p.ID = id ∧ p.Deleted = false then { p with Deleted := true } else p) })

/-- `AddProductToOrder`: `db.Create(&orderProduct)`, an insert into
`order_products` that the primary key `(order_id, product_id)` rejects when
the pair is already there.  The service passes only quantities above 0 (for
the quantity 0 the column default 1 would be stored instead). -/
def AddProductToOrder (f : Faults) (s : Store) (orderID productID : Nat) (quantity : Int)
    (price : Rat) : Except StoreError Unit × Store :=
  let s1 := s.record .productAddProductToOrder
  if f .productAddProductToOrder then (.error .failure, s1)
  else if s.db.orderProducts.any (fun a => a.OrderID == orderID && a.ProductID == productID) then
    (.error .duplicateKey, s1)
  else
    (.ok (), s1.withDB { s.db with
      orderProducts := s.db.orderProducts ++
        [{ OrderID := orderID, ProductID := productID, Quantity := quantity, Price := price }] })

/-- `RemoveProductFromOrder`:
`db.Where("order_id = ? AND product_id = ?", ...).Delete(&model.OrderProduct{})`.
The join row has no `DeletedAt`, so matching rows are removed; no row
affected is no error. -/
def RemoveProductFromOrder (f : Faults) (s : Store) (orderID productID : Nat) :
    Except StoreError Unit × Store :=
  let s1 := s.record .productRemoveProductFromOrder
  if f .productRemoveProductFromOrder then (.error .failure, s1)
  else
    (.ok (), s1.withDB { s.db with
      orderProducts := s.db.orderProducts.filter
        (fun a => !(a.OrderID == orderID && a.ProductID == productID)) })

end productRepository

/-! ## Order repository

`repository/order_repository.go` of Demo7 is not among the sources; the
service calls `Create`, `GetByID`, `Update`, `UpdateField` and `Delete` on
it. -/

namespace orderRepository

/-- Modelled from the spec: the order repository of Demo7 is missing from the
sources.  `Create` is the order ledger's `create(description)`, an insert that
assigns the identifier (as `db.Create(order)` does in Demo5's repository). -/
def Create (f : Faults) (s : Store) (order : Order) : Except StoreError Order × Store :=
  let s1 := s.record .orderCreate
  if f .orderCreate then (.error .failure, s1)
  else
    let seq := if order.ID = 0 then s.db.orderSeq + 1 else s.db.orderSeq
    let row := { order with ID := if order.ID = 0 then seq else order.ID }
    if s.db.orders.any (fun o => o.ID == row.ID) then
      (.error .duplicateKey, s1.withDB { s.db with orderSeq := seq })
    else
      (.ok row, s1.withDB { s.db with orders := s.db.orders ++ [row], orderSeq := seq })

/-- Modelled from the spec: the order repository of Demo7 is missing from the
sources.  `GetByID` is the order ledger's `get(id)`: the order, or the
not-found error when absent or tombstoned (`db.First(&order, id)` in Demo5's
repository). -/
def GetByID (f : Faults) (s : Store) (id : Nat) : Except StoreError Order × Store :=
  let s1 := s.record .orderGetByID
  if f .orderGetByID then (.error .failure, s1)
  else
    match s.db.orders.find? (fun o => o.ID == id && !o.Deleted) with
    | some o => (.ok o, s1)
    | none => (.error .recordNotFound, s1)

/-- Modelled from the spec: the order repository of Demo7 is missing from the
sources.  `Update` is the write of the order ledger's `update(id, description)`
(`db.Save(order)` in Demo5's repository). -/
def Update (f : Faults) (s : Store) (order : Order) : Except StoreError Unit × Store :=
  let s1 := s.record .orderUpdate
  if f .orderUpdate then (.error .failure, s1)
  else if s.db.orders.any (fun o => o.ID == order.ID) then
    (.ok (), s1.withDB { s.db with
      orders := s.db.orders.map (fun o => if o.ID = order.ID then order else o) })
  else
    (.ok (), s1.withDB { s.db with orders := s.db.orders ++ [order] })

/-- Modelled from the spec: the order repository of Demo7 is missing from the
sources.  `UpdateField` on column `description`, a direct description update
of the order with that key
(`db.Model(&model.Order{}).Where("id = ?", id).Update(field, value)` in
Demo5's repository: no row affected is no error). -/
def UpdateField (f : Faults) (s : Store) (id : Nat) (description : String) :
    Except StoreError Unit × Store :=
  let s1 := s.record .orderUpdateField
  if f .orderUpdateField then (.error .failure, s1)
  else
    (.ok (), s1.withDB { s.db with
      orders := s.db.orders.map
        (fun o => if o.ID = id ∧ o.Deleted = false then { o with Description := description }
          else o) })

/-- Modelled from the spec: the order repository of Demo7 is missing from the
sources.  `Delete` is the order ledger's `delete(id)`, which tombstones the
order (`db.Delete(&model.Order{}, id)` in Demo5's repository: no row affected
is no error). -/
def Delete (f : Faults) (s : Store) (id : Nat) : Except StoreError Unit × Store :=
  let s1 := s.record .orderDelete
  if f .orderDelete then (.error .failure, s1)
  else
    (.ok (), s1.withDB { s.db with
      orders := s.db.orders.map
        (fun o => if o.ID = id ∧ o.Deleted = false then { o with Deleted := true } else o) })

end orderRepository

/-! ## Product service (`service/product_service.go`) -/

namespace productService

/-- `CreateProduct`. -/
def CreateProduct (f : Faults) (s : Store) (name description : String) (price : Rat)
    (stock : Int) : Except ServiceError Product × Store :=
  if name = "" then (.error .productNameEmpty, s)
  else if price < 0 then (.error .productPriceNegative, s)
  else if stock < 0 then (.error .productStockNegative, s)
  else
    match productRepository.Create f s
        { ID := 0, Name := name, Description := description, Price := price, Stock := stock,
          Deleted := false } with
    | (.error e, s1) => (.error (.failedToCreateProduct e), s1)
    | (.ok product, s1) => (.ok product, s1)

/-- `UpdateProduct`. -/
def UpdateProduct (f : Faults) (s : Store) (id : Nat) (name description : String) (price : Rat)
    (stock : Int) : Except ServiceError Product × Store :=
  if id = 0 then (.error .invalidProductID, s)
  else if name = "" then (.error .productNameEmpty, s)
  else if price < 0 then (.error .productPriceNegative, s)
  else if stock < 0 then (.error .productStockNegative, s)
  else
    match productRepository.GetByID f s id with
    | (.error e, s1) => (.error (.productNotFound e), s1)
    | (.ok product, s1) =>
      let product := { product with
        Name := name, Description := description, Price := price, Stock := stock }
      match productRepository.Update f s1 product with
      | (.error e, s2) => (.error (.failedToUpdateProduct e), s2)
      | (.ok _, s2) => (.ok product, s2)

/-- `DeleteProduct`. -/
def DeleteProduct (f : Faults) (s : Store) (id : Nat) : Except ServiceError Unit × Store :=
  if id = 0 then (.error .invalidProductID, s)
  else
    match productRepository.Delete f s id with
    | (.error e, s1) => (.error (.failedToDeleteProduct e), s1)
    | (.ok _, s1) => (.ok (), s1)

/-- `AddProductToOrder`: input checks, the two existence checks, the stock
check, the insert of the join row at the product's current price, then the
write of the decremented stock. -/
def AddProductToOrder (f : Faults) (s : Store) (orderID productID : Nat) (quantity : Int) :
    Except ServiceError Unit × Store :=
  if orderID = 0 then (.error .invalidOrderID, s)
  else if productID = 0 then (.error .invalidProductID, s)
  else if quantity ≤ 0 then (.error .quantityNotPositive, s)
  else
    match orderRepository.GetByID f s orderID with
    | (.error e, s1) => (.error (.orderNotFound e), s1)
    | (.ok _, s1) =>
      match productRepository.GetByID f s1 productID with
      | (.error e, s2) => (.error (.productNotFound e), s2)
      | (.ok product, s2) =>
        if product.Stock < quantity then
          (.error (.insufficientStock product.Stock quantity), s2)
        else
          match productRepository.AddProductToOrder f s2 orderID productID quantity
              product.Price with
          | (.error e, s3) => (.error (.failedToAddProductToOrder e), s3)
          | (.ok _, s3) =>
            match productRepository.Update f s3
                { product with Stock := product.Stock - quantity } with
            | (.error e, s4) => (.error (.failedToUpdateProductStock e), s4)
            | (.ok _, s4) => (.ok (), s4)

/-- `RemoveProductFromOrder`. -/
def RemoveProductFromOrder (f : Faults) (s : Store) (orderID productID : Nat) :
    Except ServiceError Unit × Store :=
  if orderID = 0 then (.error .invalidOrderID, s)
  else if productID = 0 then (.error .invalidProductID, s)
  else
    match productRepository.RemoveProductFromOrder f s orderID productID with
    | (.error e, s1) => (.error (.failedToRemoveProductFromOrder e), s1)
    | (.ok _, s1) => (.ok (), s1)

end productService

/-! ## Order service (`service/order_service.go`) -/

namespace orderService

/-- `CreateOrder`. -/
def CreateOrder (f : Faults) (s : Store) (description : String) :
    Except ServiceError Order × Store :=
  if description = "" then (.error .descriptionEmpty, s)
  else
    match orderRepository.Create f s { ID := 0, Description := description, Deleted := false } with
    | (.error e, s1) => (.error (.failedToCreateOrder e), s1)
    | (.ok order, s1) => (.ok order, s1)

/-- `UpdateOrder`. -/
def UpdateOrder (f : Faults) (s : Store) (id : Nat) (description : String) :
    Except ServiceError Order × Store :=
  if id = 0 then (.error .invalidOrderID, s)
  else if description = "" then (.error .descriptionEmpty, s)
  else
    match orderRepository.GetByID f s id with
    | (.error e, s1) => (.error (.orderNotFound e), s1)
    | (.ok order, s1) =>
      let order := { order with Description := description }
      match orderRepository.Update f s1 order with
      | (.error e, s2) => (.error (.failedToUpdateOrder e), s2)
      | (.ok _, s2) => (.ok order, s2)

/-- `UpdateOrderDescription`. -/
def UpdateOrderDescription (f : Faults) (s : Store) (id : Nat) (description : String) :
    Except ServiceError Unit × Store :=
  if id = 0 then (.error .invalidOrderID, s)
  else if description = "" then (.error .descriptionEmpty, s)
  else
    match orderRepository.UpdateField f s id description with
    | (.error e, s1) => (.error (.failedToUpdateOrderDescription e), s1)
    | (.ok _, s1) => (.ok (), s1)

/-- `DeleteOrder`. -/
def DeleteOrder (f : Faults) (s : Store) (id : Nat) : Except ServiceError Unit × Store :=
  if id = 0 then (.error .invalidOrderID, s)
  else
    match orderRepository.Delete f s id with
    | (.error e, s1) => (.error (.failedToDeleteOrder e), s1)
    | (.ok _, s1) => (.ok (), s1)

end orderService

/-! ## Sequential executions -/

/-- One call of a mutating service method, with its arguments. -/
inductive Op where
  | createProduct (name description : String) (price : Rat) (stock : Int)
  | updateProduct (id : Nat) (name description : String) (price : Rat) (stock : Int)
  | deleteProduct (id : Nat)
  | addProductToOrder (orderID productID : Nat) (quantity : Int)
  | removeProductFromOrder (orderID productID : Nat)
  | createOrder (description : String)
  | updateOrder (id : Nat) (description : String)
  | updateOrderDescription (id : Nat) (description : String)
  | deleteOrder (id : Nat)

/-- The store after one service call, run to completion under fault plan `f`. -/
def Op.exec (f : Faults) (s : Store) : Op → Store
  | .createProduct n d p k => (productService.CreateProduct f s n d p k).2
  | .updateProduct i n d p k => (productService.UpdateProduct f s i n d p k).2
  | .deleteProduct i => (productService.DeleteProduct f s i).2
  | .addProductToOrder o p q => (productService.AddProductToOrder f s o p q).2
  | .removeProductFromOrder o p => (productService.RemoveProductFromOrder f s o p).2
  | .createOrder d => (orderService.CreateOrder f s d).2
  | .updateOrder i d => (orderService.UpdateOrder f s i d).2
  | .updateOrderDescription i d => (orderService.UpdateOrderDescription f s i d).2
  | .deleteOrder i => (orderService.DeleteOrder f s i).2

/-- The store after a sequence of service calls executed one at a time, each
under its own fault plan. -/
def run (s : Store) : List (Faults × Op) → Store
  | [] => s
  | (f, op) :: rest => run (op.exec f s) rest

/-- The states the services can bring an empty store to. -/
def Reachable (s : Store) : Prop := ∃ trace, run Store.empty trace = s

/-! ## Derived notions used in the statements -/

/-- What every reachable store satisfies: no stock counter is negative and
no row carries the identifier `0`. -/
def DB.Inv (d : DB) : Prop :=
  (∀ p ∈ d.products, 0 ≤ p.Stock ∧ p.ID ≠ 0) ∧ (∀ o ∈ d.orders, o.ID ≠ 0) ∧
    (∀ a ∈ d.orderProducts, a.OrderID ≠ 0 ∧ a.ProductID ≠ 0)

/-- The tables after the insert of a join row. -/
def DB.link (d : DB) (orderID productID : Nat) (quantity : Int) (price : Rat) : DB :=
  { d with orderProducts := d.orderProducts ++
      [{ OrderID := orderID, ProductID := productID, Quantity := quantity, Price := price }] }

/-- The tables after every row with the product's key is overwritten. -/
def DB.put (d : DB) (product : Product) : DB :=
  { d with products := d.products.map (fun p => if p.ID = product.ID then product else p) }

/-- The tables after the join rows with key `(orderID, productID)` are removed. -/
def DB.unlink (d : DB) (orderID productID : Nat) : DB :=
  { d with orderProducts :=
      d.orderProducts.filter (fun a => !(a.OrderID == orderID && a.ProductID == productID)) }

/-- Whether the pair `(orderID, productID)` has a row in `order_products`. -/
def DB.linked (d : DB) (orderID productID : Nat) : Prop :=
  ∃ a ∈ d.orderProducts, a.OrderID = orderID ∧ a.ProductID = productID

/-- The result is an error of the given kind. -/
def failsWith {α : Type} (kind : ServiceError → Bool) : Except ServiceError α → Bool
  | .error e => kind e
  | .ok _ => false

/-! ## Several `AddProductToOrder` calls, one after the other -/

/-- Arguments of one `AddProductToOrder` call. -/
structure AddCall where
  orderID : Nat
  productID : Nat
  quantity : Int
deriving DecidableEq, Repr

/-- The store after the calls ran one at a time, in list order. -/
def runAdds (f : Faults) (s : Store) : List AddCall → Store
  | [] => s
  | c :: rest =>
    runAdds f (productService.AddProductToOrder f s c.orderID c.productID c.quantity).2 rest

/-- The sum of the quantities of the calls that returned no error, when the
calls ran one at a time, in list order. -/
def succeededQuantity (f : Faults) (s : Store) : List AddCall → Int
  | [] => 0
  | c :: rest =>
    let r := productService.AddProductToOrder f s c.orderID c.productID c.quantity
    (match r.1 with
      | .ok _ => c.quantity
      | .error _ => 0) + succeededQuantity f r.2 rest

/-! ## Interleaved `AddProductToOrder` calls

`AddProductToOrder` issues four statements against the store, each on its
own: nothing in the service or the repository opens a transaction or takes a
lock.  Between two statements a running call holds only its local variable
`product`.  Calls served at the same time therefore interleave statement by
statement. -/

/-- Where a running `AddProductToOrder` call stands. -/
inductive AddPhase where
  | start
  | orderFound
  | productFound (product : Product)
  | linked (product : Product)
  | returned (result : Except ServiceError Unit)

/-- The code of `AddProductToOrder` from one phase up to and including its
next repository statement. -/
def AddCall.step (f : Faults) (c : AddCall) (s : Store) : AddPhase → AddPhase × Store
  | .start =>
    if c.orderID = 0 then (.returned (.error .invalidOrderID), s)
    else if c.productID = 0 then (.returned (.error .invalidProductID), s)
    else if c.quantity ≤ 0 then (.returned (.error .quantityNotPositive), s)
    else
      match orderRepository.GetByID f s c.orderID with
      | (.error e, s1) => (.returned (.error (.orderNotFound e)), s1)
      | (.ok _, s1) => (.orderFound, s1)
  | .orderFound =>
    match productRepository.GetByID f s c.productID with
    | (.error e, s2) => (.returned (.error (.productNotFound e)), s2)
    | (.ok product, s2) =>
      if product.Stock < c.quantity then
        (.returned (.error (.insufficientStock product.Stock c.quantity)), s2)
      else (.productFound product, s2)
  | .productFound product =>
    match productRepository.AddProductToOrder f s c.orderID c.productID c.quantity
        product.Price with
    | (.error e, s3) => (.returned (.error (.failedToAddProductToOrder e)), s3)
    | (.ok _, s3) => (.linked product, s3)
  | .linked product =>
    match productRepository.Update f s { product with Stock := product.Stock - c.quantity } with
    | (.error e, s4) => (.returned (.error (.failedToUpdateProductStock e)), s4)
    | (.ok _, s4) => (.returned (.ok ()), s4)
  | .returned r => (.returned r, s)

/-- One call running alone: its four statements back to back. -/
def AddCall.runAlone (f : Faults) (c : AddCall) (s : Store) : AddPhase × Store :=
  let r1 := c.step f s .start
  let r2 := c.step f r1.2 r1.1
  let r3 := c.step f r2.2 r2.1
  c.step f r3.2 r3.1

/-- The store and the phases of the calls in flight. -/
structure Flight where
  store : Store
  phases : List AddPhase

/-- Call number `i` executes its next statement. -/
def Flight.stepAt (f : Faults) (calls : List AddCall) (i : Nat) (t : Flight) : Flight :=
  match calls.get? i, t.phases.get? i with
  | some c, some ph =>
    let r := c.step f t.store ph
    { store := r.2, phases := t.phases.set i r.1 }
  | _, _ => t

/-- The calls start together on store `s` and take their statements in the
order the schedule gives. -/
def interleave (f : Faults) (calls : List AddCall) (s : Store) (schedule : List Nat) : Flight :=
  schedule.foldl (fun t i => t.stepAt f calls i)
    { store := s, phases := calls.map (fun _ => AddPhase.start) }

/-- The sum of the quantities of the calls in flight that returned no error. -/
def Flight.succeededQuantity : List AddCall → List AddPhase → Int
  | c :: cs, .returned (.ok _) :: ps => c.quantity + Flight.succeededQuantity cs ps
  | _ :: cs, _ :: ps => Flight.succeededQuantity cs ps
  | _, _ => 0

/-- The stock `GetByID` reads for a product, if the product is there. -/
def stockOf (s : Store) (productID : Nat) : Option Int :=
  match (productRepository.GetByID noFaults s productID).1 with
  | .ok p => some p.Stock
  | .error _ => none

/-! ## Stores used in the examples -/

/-- One order and one product `P` with stock 10 and price 5. -/
def exampleStore : Store :=
  run Store.empty
    [(noFaults, .createOrder "first order"), (noFaults, .createProduct "P" "" 5 10)]

/-- The example store after `AddProductToOrder(1, 1, 4)`. -/
def exampleLinked : Store :=
  run Store.empty
    [(noFaults, .createOrder "first order"), (noFaults, .createProduct "P" "" 5 10),
     (noFaults, .addProductToOrder 1 1 4)]

/-- Two orders and one product `P` with stock 10 and price 5. -/
def exampleTwoOrders : Store :=
  run Store.empty
    [(noFaults, .createOrder "order two"), (noFaults, .createOrder "order three"),
     (noFaults, .createProduct "P" "" 5 10)]

/-- Only the write of the stock fails. -/
def stockWriteFails : Faults := fun m => decide (m = .productUpdate)

/-- Only the insert of the join row fails. -/
def insertFails : Faults := fun m => decide (m = .productAddProductToOrder)


/-! ## Queries

The read side of the repositories.  A query is the list of conditions added
with `Where`; `Find` returns, in table order, the rows that are not
soft-deleted and satisfy every condition. -/

/-- The escape character of a `LIKE` pattern, the backslash. -/
def likeEscape : Char := Char.ofNat 92

/-- What a position of a `LIKE` pattern stands for. -/
inductive LikeToken where
  | anyRun
  | anyOne
  | literal (c : Char)
deriving DecidableEq, Repr

/-- Reading of a `LIKE` pattern: `%` stands for any run of characters, `_` for
any one character, the escape character makes the next character literal, and
every other character stands for itself.  (A pattern that ends in a lone
escape character does not arise from `"%" + s + "%"`; it is read as that
character.) -/
def likeTokens : List Char → List LikeToken
  | [] => []
  | [c] =>
    if c = '%' then [.anyRun]
    else if c = '_' then [.anyOne]
    else [.literal c]
  | c :: e :: rest =>
    if c = '%' then .anyRun :: likeTokens (e :: rest)
    else if c = '_' then .anyOne :: likeTokens (e :: rest)
    else if c = likeEscape then .literal e :: likeTokens rest
    else .literal c :: likeTokens (e :: rest)

/-- Whether the whole text matches the read pattern. -/
def tokensMatch : List LikeToken → List Char → Bool
  | [], text => text.isEmpty
  | .anyRun :: ts, text => text.tails.any (fun rest => tokensMatch ts rest)
  | .anyOne :: _, [] => false
  | .anyOne :: ts, _ :: rest => tokensMatch ts rest
  | .literal _ :: _, [] => false
  | .literal c :: ts, d :: rest => c == d && tokensMatch ts rest

/-- SQL `text LIKE pattern`. -/
def likeMatch (pattern text : List Char) : Bool := tokensMatch (likeTokens pattern) text

/-- The condition `column LIKE ?` with the argument `"%" + pattern + "%"`. -/
def likeContains (pattern column : String) : Bool :=
  likeMatch ('%' :: (pattern.data ++ ['%'])) column.data

/-- `query.Where(condition)`: the query with one more condition. -/
def Where {α : Type} (query : List (α → Bool)) (condition : α → Bool) : List (α → Bool) :=
  query ++ [condition]

/-- `query.Find(&products)`: the rows that are not soft-deleted and satisfy
every condition of the query. -/
def DB.findProducts (d : DB) (query : List (Product → Bool)) : List Product :=
  d.products.filter (fun p => !p.Deleted && query.all (fun condition => condition p))

namespace productRepository

/-- `GetAll`: `db.Find(&products)`. -/
def GetAll (f : Faults) (s : Store) : Except StoreError (List Product) × Store :=
  let s1 := s.record .productGetAll
  if f .productGetAll then (.error .failure, s1)
  else (.ok (s.db.findProducts []), s1)

/-- `GetByCondition`: `db.Where(condition, args...).Find(&products)`. -/
def GetByCondition (f : Faults) (s : Store) (condition : Product → Bool) :
    Except StoreError (List Product) × Store :=
  let s1 := s.record .productGetByCondition
  if f .productGetByCondition then (.error .failure, s1)
  else (.ok (s.db.findProducts (Where [] condition)), s1)

/-- `GetProductsByOrderID`: the join of `products` with `order_products` on
the product key, restricted to the rows of the order; one product row per
matching join row, no check that the order exists. -/
def GetProductsByOrderID (f : Faults) (s : Store) (orderID : Nat) :
    Except StoreError (List Product) × Store :=
  let s1 := s.record .productGetProductsByOrderID
  if f .productGetProductsByOrderID then (.error .failure, s1)
  else
    (.ok ((s.db.findProducts []).flatMap (fun p =>
      (s.db.orderProducts.filter
        (fun a => a.ProductID == p.ID && a.OrderID == orderID)).map (fun _ => p))), s1)

/-- `FilterProducts`: one `Where` per supplied field, then `Find`. -/
def FilterProducts (f : Faults) (s : Store) (name description : String)
    (minPrice maxPrice : Option Rat) (minStock maxStock : Option Int) :
    Except StoreError (List Product) × Store :=
  let s1 := s.record .productFilterProducts
  let query : List (Product → Bool) := []
  let query := if name ≠ "" then Where query (fun p => likeContains name p.Name) else query
  let query :=
    if description ≠ "" then Where query (fun p => likeContains description p.Description)
    else query
  let query :=
    match minPrice with
    | some m => Where query (fun p => decide (p.Price ≥ m))
    | none => query
  let query :=
    match maxPrice with
    | some m => Where query (fun p => decide (p.Price ≤ m))
    | none => query
  let query :=
    match minStock with
    | some m => Where query (fun p => decide (p.Stock ≥ m))
    | none => query
  let query :=
    match maxStock with
    | some m => Where query (fun p => decide (p.Stock ≤ m))
    | none => query
  if f .productFilterProducts then (.error .failure, s1)
  else (.ok (s.db.findProducts query), s1)

end productRepository

namespace productService

/-- `GetAllProducts`. -/
def GetAllProducts (f : Faults) (s : Store) : Except ServiceError (List Product) × Store :=
  match productRepository.GetAll f s with
  | (.error e, s1) => (.error (.failedToGetAllProducts e), s1)
  | (.ok products, s1) => (.ok products, s1)

/-- `GetProductsByName`: the condition is `name LIKE ?` with the argument
`"%" + pattern + "%"`. -/
def GetProductsByName (f : Faults) (s : Store) (pattern : String) :
    Except ServiceError (List Product) × Store :=
  match productRepository.GetByCondition f s (fun p => likeContains pattern p.Name) with
  | (.error e, s1) => (.error (.failedToGetProductsByName e), s1)
  | (.ok products, s1) => (.ok products, s1)

/-- `GetOrderProducts`. -/
def GetOrderProducts (f : Faults) (s : Store) (orderID : Nat) :
    Except ServiceError (List Product) × Store :=
  if orderID = 0 then (.error .invalidOrderID, s)
  else
    match productRepository.GetProductsByOrderID f s orderID with
    | (.error e, s1) => (.error (.failedToGetOrderProducts e), s1)
    | (.ok products, s1) => (.ok products, s1)

/-- `FilterProducts`. -/
def FilterProducts (f : Faults) (s : Store) (name description : String)
    (minPrice maxPrice : Option Rat) (minStock maxStock : Option Int) :
    Except ServiceError (List Product) × Store :=
  match productRepository.FilterProducts f s name description minPrice maxPrice minStock
      maxStock with
  | (.error e, s1) => (.error (.failedToFilterProducts e), s1)
  | (.ok products, s1) => (.ok products, s1)

end productService

/-- `query.Find(&orders)`: the rows that are not soft-deleted and satisfy
every condition of the query. -/
def DB.findOrders (d : DB) (query : List (Order → Bool)) : List Order :=
  d.orders.filter (fun o => !o.Deleted && query.all (fun condition => condition o))

/-- The products of an order, one per join row of the order in the order the
join rows were inserted. -/
def DB.productsOf (d : DB) (orderID : Nat) : List Product :=
  (d.orderProducts.filter (fun a => a.OrderID == orderID)).filterMap
    (fun a => d.products.find? (fun p => p.ID == a.ProductID && !p.Deleted))

/-- The orders of a product, one per join row of the product in the order
the join rows were inserted. -/
def DB.ordersOf (d : DB) (productID : Nat) : List Order :=
  (d.orderProducts.filter (fun a => a.ProductID == productID)).filterMap
    (fun a => d.orders.find? (fun o => o.ID == a.OrderID && !o.Deleted))

namespace orderRepository

/-- Modelled from the spec: the order repository of Demo7 is missing from the
sources.  `GetAll` is `listOrders()` with no filter: every order that is not
tombstoned (`db.Find(&orders)` in Demo5's repository). -/
def GetAll (f : Faults) (s : Store) : Except StoreError (List Order) × Store :=
  let s1 := s.record .orderGetAll
  if f .orderGetAll then (.error .failure, s1)
  else (.ok (s.db.findOrders []), s1)

/-- Modelled from the spec: the order repository of Demo7 is missing from the
sources.  `GetByCondition` is `listOrders(filter)` with one predicate
(`db.Where(condition, args...).Find(&orders)` in Demo5's repository). -/
def GetByCondition (f : Faults) (s : Store) (condition : Order → Bool) :
    Except StoreError (List Order) × Store :=
  let s1 := s.record .orderGetByCondition
  if f .orderGetByCondition then (.error .failure, s1)
  else (.ok (s.db.findOrders (Where [] condition)), s1)

/-- Modelled from the spec: the order repository of Demo7 is missing from the
sources.  `GetOrdersByProductID` is `ordersForProduct(productID)`: a join
query returning the orders of the product in link order, the empty sequence
when the product has no associations, and the not-found error when the
product does not exist. -/
def GetOrdersByProductID (f : Faults) (s : Store) (productID : Nat) :
    Except StoreError (List Order) × Store :=
  let s1 := s.record .orderGetOrdersByProductID
  if f .orderGetOrdersByProductID then (.error .failure, s1)
  else
    match s.db.products.find? (fun p => p.ID == productID && !p.Deleted) with
    | none => (.error .recordNotFound, s1)
    | some _ => (.ok (s.db.ordersOf productID), s1)

/-- Modelled from the spec: the order repository of Demo7 is missing from the
sources.  `GetOrdersWithProducts` is the order listing with "include
associated products in result": every order that is not tombstoned, each with
its products in association-insertion order. -/
def GetOrdersWithProducts (f : Faults) (s : Store) :
    Except StoreError (List (Order × List Product)) × Store :=
  let s1 := s.record .orderGetOrdersWithProducts
  if f .orderGetOrdersWithProducts then (.error .failure, s1)
  else (.ok ((s.db.findOrders []).map (fun o => (o, s.db.productsOf o.ID))), s1)

end orderRepository

namespace orderService

/-- `GetAllOrders`. -/
def GetAllOrders (f : Faults) (s : Store) : Except ServiceError (List Order) × Store :=
  match orderRepository.GetAll f s with
  | (.error e, s1) => (.error (.failedToGetAllOrders e), s1)
  | (.ok orders, s1) => (.ok orders, s1)

/-- `GetOrdersByDescription`: the condition is `description LIKE ?` with the
argument `"%" + pattern + "%"`. -/
def GetOrdersByDescription (f : Faults) (s : Store) (pattern : String) :
    Except ServiceError (List Order) × Store :=
  match orderRepository.GetByCondition f s (fun o => likeContains pattern o.Description) with
  | (.error e, s1) => (.error (.failedToGetOrdersByDescription e), s1)
  | (.ok orders, s1) => (.ok orders, s1)

/-- `GetOrdersByProductID`. -/
def GetOrdersByProductID (f : Faults) (s : Store) (productID : Nat) :
    Except ServiceError (List Order) × Store :=
  if productID = 0 then (.error .invalidProductID, s)
  else
    match orderRepository.GetOrdersByProductID f s productID with
    | (.error e, s1) => (.error (.failedToGetOrdersByProductID e), s1)
    | (.ok orders, s1) => (.ok orders, s1)

/-- `GetOrdersWithProducts`. -/
def GetOrdersWithProducts (f : Faults) (s : Store) :
    Except ServiceError (List (Order × List Product)) × Store :=
  match orderRepository.GetOrdersWithProducts f s with
  | (.error e, s1) => (.error (.failedToGetOrdersWithProducts e), s1)
  | (.ok orders, s1) => (.ok orders, s1)

end orderService

/-! ## Requests, responses and handlers (`internal/dto`, `internal/handler`)

A handler takes the request as gin hands it over: a path parameter is
`none` when `strconv.ParseUint` rejects it, a body or query is `none` when it
cannot be decoded.  It returns the JSON reply and the store. -/

/-- `dto.FilterProductsRequest`. -/
structure FilterProductsRequest where
  Name : String
  Description : String
  MinPrice : Option Rat
  MaxPrice : Option Rat
  MinStock : Option Int
  MaxStock : Option Int
deriving DecidableEq, Repr

/-- `dto.FilterOrdersRequest`. -/
structure FilterOrdersRequest where
  Description : String
  ProductID : Option Nat
  WithProducts : Bool
deriving DecidableEq, Repr

/-- `dto.CreateOrderRequest` and `dto.UpdateOrderRequest`, which have the same
field and binding rule. -/
structure OrderRequest where
  Description : String
deriving DecidableEq, Repr

/-- The binding rule `required,min=3,max=255` of the order requests. -/
def OrderRequest.valid (r : OrderRequest) : Bool :=
  r.Description ≠ "" && decide (3 ≤ r.Description.length) &&
    decide (r.Description.length ≤ 255)

/-- `c.ShouldBindJSON(&req)`: the decoded body if there is one and it passes
the binding rules. -/
def shouldBind {α : Type} (valid : α → Bool) (body : Option α) : Option α :=
  match body with
  | some r => if valid r then some r else none
  | none => none

/-- `dto.ProductResponse`. -/
structure ProductResponse where
  ID : Nat
  Name : String
  Description : String
  Price : Rat
  Stock : Int
deriving DecidableEq, Repr

/-- `dto.OrderResponse`. -/
structure OrderResponse where
  ID : Nat
  Description : String
  Products : List ProductResponse
deriving DecidableEq, Repr

/-- `dto.ListProductsResponse`. -/
structure ListProductsResponse where
  Products : List ProductResponse
  Count : Nat
deriving DecidableEq, Repr

/-- `dto.ListOrdersResponse`. -/
structure ListOrdersResponse where
  Orders : List OrderResponse
  Count : Nat
deriving DecidableEq, Repr

/-- What a handler writes with `c.JSON`: a status with a body, or a status
with a `dto.ErrorResponse` (its message and, as details, the service error). -/
inductive Reply (α : Type) where
  | json (status : Nat) (body : α)
  | error (status : Nat) (message : String) (details : Option ServiceError)
deriving DecidableEq, Repr

/-- The conversion loop of the handlers from a product to its response. -/
def productResponse (p : Product) : ProductResponse :=
  { ID := p.ID, Name := p.Name, Description := p.Description, Price := p.Price,
    Stock := p.Stock }

/-- The conversion of an order with the products loaded on it. -/
def orderResponse (o : Order) (products : List Product) : OrderResponse :=
  { ID := o.ID, Description := o.Description, Products := products.map productResponse }

/-- The body of a product listing. -/
def listProductsResponse (products : List Product) : ListProductsResponse :=
  { Products := products.map productResponse, Count := (products.map productResponse).length }

/-- The body of an order listing. -/
def listOrdersResponse (orders : List OrderResponse) : ListOrdersResponse :=
  { Orders := orders, Count := orders.length }

namespace errors

/-- `errors.As(err, &apiErr)` in `internal/errors/errors.go`: the status code
of the first `*APIError` in the chain of the error.  The errors of the
services are `fmt.Errorf` values around store errors; none of them is an
`*APIError`. -/
def asAPIError (_ : ServiceError) : Option Nat := none

/-- `IsNotFound`. -/
def IsNotFound (err : ServiceError) : Bool :=
  match asAPIError err with
  | some code => code == 404
  | none => false

end errors

namespace ProductHandler

/-- `ListProducts`: the filter branch when the query binds and supplies a
field, the listing of all products otherwise. -/
def ListProducts (f : Faults) (s : Store) (query : Option FilterProductsRequest) :
    Reply ListProductsResponse × Store :=
  let all : Reply ListProductsResponse × Store :=
    match productService.GetAllProducts f s with
    | (.error e, s1) => (.error 500 "Failed to fetch products" (some e), s1)
    | (.ok products, s1) => (.json 200 (listProductsResponse products), s1)
  match query with
  | some filterReq =>
    if filterReq.Name ≠ "" ∨ filterReq.Description ≠ "" ∨ filterReq.MinPrice ≠ none ∨
        filterReq.MaxPrice ≠ none ∨ filterReq.MinStock ≠ none ∨ filterReq.MaxStock ≠ none then
      match productService.FilterProducts f s filterReq.Name filterReq.Description
          filterReq.MinPrice filterReq.MaxPrice filterReq.MinStock filterReq.MaxStock with
      | (.error e, s1) => (.error 500 "Failed to filter products" (some e), s1)
      | (.ok products, s1) => (.json 200 (listProductsResponse products), s1)
    else all
  | none => all

end ProductHandler

namespace OrderHandler

/-- `CreateOrder`.  The order the service returns has no products loaded. -/
def CreateOrder (f : Faults) (s : Store) (body : Option OrderRequest) :
    Reply OrderResponse × Store :=
  match shouldBind OrderRequest.valid body with
  | none => (.error 400 "Invalid request body" none, s)
  | some req =>
    match orderService.CreateOrder f s req.Description with
    | (.error e, s1) => (.error 500 "Failed to create order" (some e), s1)
    | (.ok order, s1) => (.json 201 (orderResponse order []), s1)

/-- `UpdateOrder`. -/
def UpdateOrder (f : Faults) (s : Store) (id : Option Nat) (body : Option OrderRequest) :
    Reply OrderResponse × Store :=
  match id with
  | none => (.error 400 "Invalid order ID" none, s)
  | some id =>
    match shouldBind OrderRequest.valid body with
    | none => (.error 400 "Invalid request body" none, s)
    | some req =>
      match orderService.UpdateOrder f s id req.Description with
      | (.error e, s1) =>
        if errors.IsNotFound e then (.error 404 "Order not found" none, s1)
        else (.error 500 "Failed to update order" (some e), s1)
      | (.ok order, s1) => (.json 200 (orderResponse order []), s1)

/-- `ListOrders`: the first of the three branches whose field is supplied
answers the request: product id, then description, then `with_products`;
without any, or when the query does not bind, all orders.  The orders the
first two service calls return have no products loaded. -/
def ListOrders (f : Faults) (s : Store) (query : Option FilterOrdersRequest) :
    Reply ListOrdersResponse × Store :=
  let all : Reply ListOrdersResponse × Store :=
    match orderService.GetAllOrders f s with
    | (.error e, s1) => (.error 500 "Failed to fetch orders" (some e), s1)
    | (.ok orders, s1) =>
      (.json 200 (listOrdersResponse (orders.map (fun o => orderResponse o []))), s1)
  match query with
  | some filterReq =>
    match filterReq.ProductID.filter (fun id => decide (id > 0)) with
    | some productID =>
      match orderService.GetOrdersByProductID f s productID with
      | (.error e, s1) => (.error 500 "Failed to fetch orders" (some e), s1)
      | (.ok orders, s1) =>
        (.json 200 (listOrdersResponse (orders.map (fun o => orderResponse o []))), s1)
    | none =>
      if filterReq.Description ≠ "" then
        match orderService.GetOrdersByDescription f s filterReq.Description with
        | (.error e, s1) => (.error 500 "Failed to fetch orders" (some e), s1)
        | (.ok orders, s1) =>
          (.json 200 (listOrdersResponse (orders.map (fun o => orderResponse o []))), s1)
      else if filterReq.WithProducts then
        match orderService.GetOrdersWithProducts f s with
        | (.error e, s1) => (.error 500 "Failed to fetch orders" (some e), s1)
        | (.ok orders, s1) =>
          (.json 200 (listOrdersResponse (orders.map (fun o => orderResponse o.1 o.2))), s1)
      else all
  | none => all

end OrderHandler

/-! ## Further notions used in the statements -/

/-- What every reachable store satisfies besides `DB.Inv`: the identifiers of
a table increase strictly in table order, and none is above the last value
its sequence handed out. -/
def DB.Fresh (d : DB) : Prop :=
  (d.products.map (fun p => p.ID)).Pairwise (fun a b => a < b) ∧
  (∀ p ∈ d.products, p.ID ≤ d.productSeq) ∧
  (d.orders.map (fun o => o.ID)).Pairwise (fun a b => a < b) ∧
  (∀ o ∈ d.orders, o.ID ≤ d.orderSeq)

/-- The tables after a product row is inserted under the next identifier. -/
def DB.addProduct (d : DB) (row : Product) : DB :=
  { d with products := d.products ++ [row], productSeq := d.productSeq + 1 }

/-- The tables after an order row is inserted under the next identifier. -/
def DB.addOrder (d : DB) (row : Order) : DB :=
  { d with orders := d.orders ++ [row], orderSeq := d.orderSeq + 1 }

/-- The tables after the live product rows with the key are marked deleted. -/
def DB.tombstoneProduct (d : DB) (id : Nat) : DB :=
  { d with
    products := d.products.map
      (fun p => if p.ID = id ∧ p.Deleted = false then { p with Deleted := true } else p) }

/-- The error of a result, if it is one. -/
def errorOf {α : Type} : Except ServiceError α → Option ServiceError
  | .error e => some e
  | .ok _ => none

/-- The error one service call returns, if any. -/
def Op.err (f : Faults) (s : Store) : Op → Option ServiceError
  | .createProduct n d p k => errorOf (productService.CreateProduct f s n d p k).1
  | .updateProduct i n d p k => errorOf (productService.UpdateProduct f s i n d p k).1
  | .deleteProduct i => errorOf (productService.DeleteProduct f s i).1
  | .addProductToOrder o p q => errorOf (productService.AddProductToOrder f s o p q).1
  | .removeProductFromOrder o p => errorOf (productService.RemoveProductFromOrder f s o p).1
  | .createOrder d => errorOf (orderService.CreateOrder f s d).1
  | .updateOrder i d => errorOf (orderService.UpdateOrder f s i d).1
  | .updateOrderDescription i d => errorOf (orderService.UpdateOrderDescription f s i d).1
  | .deleteOrder i => errorOf (orderService.DeleteOrder f s i).1

/-- Malformed input of a service call: an empty product name or order
description, a negative price or stock, a non-positive quantity, an id 0. -/
def Op.malformed : Op → Prop
  | .createProduct n _ p k => n = "" ∨ p < 0 ∨ k < 0
  | .updateProduct i n _ p k => i = 0 ∨ n = "" ∨ p < 0 ∨ k < 0
  | .deleteProduct i => i = 0
  | .addProductToOrder o p q => o = 0 ∨ p = 0 ∨ q ≤ 0
  | .removeProductFromOrder o p => o = 0 ∨ p = 0
  | .createOrder d => d = ""
  | .updateOrder i d => i = 0 ∨ d = ""
  | .updateOrderDescription i d => i = 0 ∨ d = ""
  | .deleteOrder i => i = 0

/-- Products `A` (price 2, stock 5), `B` (price 5, stock 0) and `C` (price 7,
stock 3). -/
def exampleThreeProducts : Store :=
  run Store.empty
    [(noFaults, .createProduct "A" "" 2 5), (noFaults, .createProduct "B" "" 5 0),
     (noFaults, .createProduct "C" "" 7 3)]

/-- Orders `alpha` and `beta`, both holding one unit of product `P`. -/
def exampleTwoLinked : Store :=
  run Store.empty
    [(noFaults, .createOrder "alpha"), (noFaults, .createOrder "beta"),
     (noFaults, .createProduct "P" "" 5 10), (noFaults, .addProductToOrder 1 1 1),
     (noFaults, .addProductToOrder 2 1 1)]

/-- One product named `abc`. -/
def exampleNamed : Store :=
  run Store.empty [(noFaults, .createProduct "abc" "" 1 1)]

/-! ## The remaining read operations of the services -/

namespace productRepository

/-- `GetProductsWithOrders`: `db.Preload("Orders").Find(&products)`, every
product that is not soft-deleted, each with the orders its join rows point
to. -/
def GetProductsWithOrders (f : Faults) (s : Store) :
    Except StoreError (List (Product × List Order)) × Store :=
  let s1 := s.record .productGetProductsWithOrders
  if f .productGetProductsWithOrders then (.error .failure, s1)
  else (.ok ((s.db.findProducts []).map (fun p => (p, s.db.ordersOf p.ID))), s1)

end productRepository

namespace productService

/-- `GetProductByID`. -/
def GetProductByID (f : Faults) (s : Store) (id : Nat) : Except ServiceError Product × Store :=
  if id = 0 then (.error .invalidProductID, s)
  else
    match productRepository.GetByID f s id with
    | (.error e, s1) => (.error (.failedToGetProduct e), s1)
    | (.ok product, s1) => (.ok product, s1)

/-- `GetProductsWithOrders`. -/
def GetProductsWithOrders (f : Faults) (s : Store) :
    Except ServiceError (List (Product × List Order)) × Store :=
  match productRepository.GetProductsWithOrders f s with
  | (.error e, s1) => (.error (.failedToGetProductsWithOrders e), s1)
  | (.ok products, s1) => (.ok products, s1)

end productService

namespace orderRepository

/-- Modelled from the spec: the order repository of Demo7 is missing from the
sources.  `GetByIDWithProducts` is the order ledger's `get(id)` with the
associated products included: the order that is not tombstoned with its
products in association-insertion order, or the not-found error. -/
def GetByIDWithProducts (f : Faults) (s : Store) (id : Nat) :
    Except StoreError (Order × List Product) × Store :=
  let s1 := s.record .orderGetByIDWithProducts
  if f .orderGetByIDWithProducts then (.error .failure, s1)
  else
    match s.db.orders.find? (fun o => o.ID == id && !o.Deleted) with
    | some o => (.ok (o, s.db.productsOf o.ID), s1)
    | none => (.error .recordNotFound, s1)

end orderRepository

namespace orderService

/-- `GetOrderByID`. -/
def GetOrderByID (f : Faults) (s : Store) (id : Nat) : Except ServiceError Order × Store :=
  if id = 0 then (.error .invalidOrderID, s)
  else
    match orderRepository.GetByID f s id with
    | (.error e, s1) => (.error (.failedToGetOrder e), s1)
    | (.ok order, s1) => (.ok order, s1)

/-- `GetOrderByIDWithProducts`. -/
def GetOrderByIDWithProducts (f : Faults) (s : Store) (id : Nat) :
    Except ServiceError (Order × List Product) × Store :=
  if id = 0 then (.error .invalidOrderID, s)
  else
    match orderRepository.GetByIDWithProducts f s id with
    | (.error e, s1) => (.error (.failedToGetOrderWithProducts e), s1)
    | (.ok order, s1) => (.ok order, s1)

end orderService

namespace OrderHandler

/-- `GetOrder` of `Demo6/postgres-crud/internal/handler/order_handler.go`: the
id is parsed, the order is fetched with `orderService.GetOrderByID`, an error
that `errors.IsNotFound` accepts is answered with 404 "Order not found", any
other error with 500 "Failed to fetch order", and the order found with 200.
The response is built from the order's id and description; no products are
set on it. -/
def GetOrder (f : Faults) (s : Store) (id : Option Nat) : Reply OrderResponse × Store :=
  match id with
  | none => (.error 400 "Invalid order ID" none, s)
  | some id =>
    match orderService.GetOrderByID f s id with
    | (.error e, s1) =>
      if errors.IsNotFound e then (.error 404 "Order not found" none, s1)
      else (.error 500 "Failed to fetch order" (some e), s1)
    | (.ok order, s1) => (.json 200 (orderResponse order []), s1)

end OrderHandler

/-! ## Slices (`Demo3/main.go`) -/

namespace Demo3

set_option linter.unusedVariables false in
/-- `MagnifySlice`: the body is `result := []int{}` followed by
`return result`; the loop its comment announces is not written. -/
def MagnifySlice (slice : List Int) (multiplier : Int) : List Int :=
  let result : List Int := []
  result

end Demo3

/-! ## Errors of the repositories and what the services make of them -/

/-- The store error a service error wraps with `%w`, if it wraps one. -/
def ServiceError.cause : ServiceError → Option StoreError
  | .invalidOrderID => none
  | .invalidProductID => none
  | .quantityNotPositive => none
  | .descriptionEmpty => none
  | .productNameEmpty => none
  | .productPriceNegative => none
  | .productStockNegative => none
  | .insufficientStock _ _ => none
  | .orderNotFound c => some c
  | .productNotFound c => some c
  | .failedToAddProductToOrder c => some c
  | .failedToUpdateProductStock c => some c
  | .failedToRemoveProductFromOrder c => some c
  | .failedToCreateProduct c => some c
  | .failedToUpdateProduct c => some c
  | .failedToDeleteProduct c => some c
  | .failedToCreateOrder c => some c
  | .failedToUpdateOrder c => some c
  | .failedToUpdateOrderDescription c => some c
  | .failedToDeleteOrder c => some c
  | .failedToGetAllProducts c => some c
  | .failedToGetProductsByName c => some c
  | .failedToGetOrderProducts c => some c
  | .failedToFilterProducts c => some c
  | .failedToGetAllOrders c => some c
  | .failedToGetOrdersByDescription c => some c
  | .failedToGetOrdersByProductID c => some c
  | .failedToGetOrdersWithProducts c => some c
  | .failedToGetProduct c => some c
  | .failedToGetProductsWithOrders c => some c
  | .failedToGetOrder c => some c
  | .failedToGetOrderWithProducts c => some c

/-- The error of a repository call, if it returned one. -/
def storeErrorOf {α : Type} : Except StoreError α → Option StoreError
  | .error e => some e
  | .ok _ => none

/-- One call of a reading service method, with its arguments. -/
inductive Query where
  | getProductByID (id : Nat)
  | getAllProducts
  | getProductsByName (pattern : String)
  | getOrderProducts (orderID : Nat)
  | filterProducts (name description : String) (minPrice maxPrice : Option Rat)
      (minStock maxStock : Option Int)
  | getProductsWithOrders
  | getOrderByID (id : Nat)
  | getAllOrders
  | getOrdersByDescription (pattern : String)
  | getOrdersByProductID (productID : Nat)
  | getOrdersWithProducts
  | getOrderByIDWithProducts (id : Nat)

/-- The error one reading service call returns, if any. -/
def Query.err (f : Faults) (s : Store) : Query → Option ServiceError
  | .getProductByID i => errorOf (productService.GetProductByID f s i).1
  | .getAllProducts => errorOf (productService.GetAllProducts f s).1
  | .getProductsByName n => errorOf (productService.GetProductsByName f s n).1
  | .getOrderProducts o => errorOf (productService.GetOrderProducts f s o).1
  | .filterProducts n d a b c e => errorOf (productService.FilterProducts f s n d a b c e).1
  | .getProductsWithOrders => errorOf (productService.GetProductsWithOrders f s).1
  | .getOrderByID i => errorOf (orderService.GetOrderByID f s i).1
  | .getAllOrders => errorOf (orderService.GetAllOrders f s).1
  | .getOrdersByDescription n => errorOf (orderService.GetOrdersByDescription f s n).1
  | .getOrdersByProductID p => errorOf (orderService.GetOrdersByProductID f s p).1
  | .getOrdersWithProducts => errorOf (orderService.GetOrdersWithProducts f s).1
  | .getOrderByIDWithProducts i => errorOf (orderService.GetOrderByIDWithProducts f s i).1

/-- The repository calls of a mutating service method, in the order the method
makes them, up to the first that returns an error: that error.  It is `none`
when an input check or the stock check ends the method before its next call,
and when every call returns without error. -/
def Op.repoError (f : Faults) (s : Store) : Op → Option StoreError
  | .createProduct n d p k =>
    if n = "" ∨ p < 0 ∨ k < 0 then none
    else storeErrorOf (productRepository.Create f s ⟨0, n, d, p, k, false⟩).1
  | .updateProduct i n d p k =>
    if i = 0 ∨ n = "" ∨ p < 0 ∨ k < 0 then none
    else
      match productRepository.GetByID f s i with
      | (.error e, _) => some e
      | (.ok product, s1) =>
        storeErrorOf (productRepository.Update f s1
          { product with Name := n, Description := d, Price := p, Stock := k }).1
  | .deleteProduct i =>
    if i = 0 then none else storeErrorOf (productRepository.Delete f s i).1
  | .addProductToOrder o p q =>
    if o = 0 ∨ p = 0 ∨ q ≤ 0 then none
    else
      match orderRepository.GetByID f s o with
      | (.error e, _) => some e
      | (.ok _, s1) =>
        match productRepository.GetByID f s1 p with
        | (.error e, _) => some e
        | (.ok product, s2) =>
          if product.Stock < q then none
          else
            match productRepository.AddProductToOrder f s2 o p q product.Price with
            | (.error e, _) => some e
            | (.ok _, s3) =>
              storeErrorOf
                (productRepository.Update f s3 { product with Stock := product.Stock - q }).1
  | .removeProductFromOrder o p =>
    if o = 0 ∨ p = 0 then none
    else storeErrorOf (productRepository.RemoveProductFromOrder f s o p).1
  | .createOrder d =>
    if d = "" then none else storeErrorOf (orderRepository.Create f s ⟨0, d, false⟩).1
  | .updateOrder i d =>
    if i = 0 ∨ d = "" then none
    else
      match orderRepository.GetByID f s i with
      | (.error e, _) => some e
      | (.ok order, s1) =>
        storeErrorOf (orderRepository.Update f s1 { order with Description := d }).1
  | .updateOrderDescription i d =>
    if i = 0 ∨ d = "" then none else storeErrorOf (orderRepository.UpdateField f s i d).1
  | .deleteOrder i =>
    if i = 0 then none else storeErrorOf (orderRepository.Delete f s i).1

/-- The repository call of a reading service method: its error, if it is made
and returns one. -/
def Query.repoError (f : Faults) (s : Store) : Query → Option StoreError
  | .getProductByID i =>
    if i = 0 then none else storeErrorOf (productRepository.GetByID f s i).1
  | .getAllProducts => storeErrorOf (productRepository.GetAll f s).1
  | .getProductsByName n =>
    storeErrorOf (productRepository.GetByCondition f s (fun p => likeContains n p.Name)).1
  | .getOrderProducts o =>
    if o = 0 then none else storeErrorOf (productRepository.GetProductsByOrderID f s o).1
  | .filterProducts n d a b c e =>
    storeErrorOf (productRepository.FilterProducts f s n d a b c e).1
  | .getProductsWithOrders => storeErrorOf (productRepository.GetProductsWithOrders f s).1
  | .getOrderByID i =>
    if i = 0 then none else storeErrorOf (orderRepository.GetByID f s i).1
  | .getAllOrders => storeErrorOf (orderRepository.GetAll f s).1
  | .getOrdersByDescription n =>
    storeErrorOf (orderRepository.GetByCondition f s (fun o => likeContains n o.Description)).1
  | .getOrdersByProductID p =>
    if p = 0 then none else storeErrorOf (orderRepository.GetOrdersByProductID f s p).1
  | .getOrdersWithProducts => storeErrorOf (orderRepository.GetOrdersWithProducts f s).1
  | .getOrderByIDWithProducts i =>
    if i = 0 then none else storeErrorOf (orderRepository.GetByIDWithProducts f s i).1

/-- One call of a service method of either service. -/
inductive Call where
  | write (op : Op)
  | read (query : Query)

/-- The error the service call returns, if any. -/
def Call.err (f : Faults) (s : Store) : Call → Option ServiceError
  | .write op => op.err f s
  | .read q => q.err f s

/-- The error of the first repository call of the service call that returns
one, if any does. -/
def Call.repoError (f : Faults) (s : Store) : Call → Option StoreError
  | .write op => op.repoError f s
  | .read q => q.repoError f s

/-! ## Notions for the frame, conservation and ordering statements -/

/-- Whether the call is one of the two that write the association table. -/
def Op.isLinkCall : Op → Bool
  | .addProductToOrder _ _ _ => true
  | .removeProductFromOrder _ _ => true
  | _ => false

/-- The calls run one at a time on a store that never fails. -/
def runAll (s : Store) (ops : List Op) : Store := run s (ops.map (fun op => (noFaults, op)))

/-- The sum of the quantities of the `AddProductToOrder` calls on the product
that returned no error, when the calls ran one at a time on a store that never
fails. -/
def addedQuantity (s : Store) (productID : Nat) : List Op → Int
  | [] => 0
  | op :: rest =>
    (match op with
      | .addProductToOrder _ p q =>
        if p = productID ∧ op.err noFaults s = none then q else 0
      | _ => 0) + addedQuantity (op.exec noFaults s) productID rest

/-- Whether filter `g` supplies every field that filter `f` supplies, with the
same value. -/
def FilterProductsRequest.refines (g f : FilterProductsRequest) : Prop :=
  (f.Name ≠ "" → g.Name = f.Name) ∧ (f.Description ≠ "" → g.Description = f.Description) ∧
  (f.MinPrice ≠ none → g.MinPrice = f.MinPrice) ∧ (f.MaxPrice ≠ none → g.MaxPrice = f.MaxPrice) ∧
  (f.MinStock ≠ none → g.MinStock = f.MinStock) ∧ (f.MaxStock ≠ none → g.MaxStock = f.MaxStock)

/-- The products the service returns for a filter, the store not failing. -/
def filtered (s : Store) (r : FilterProductsRequest) : Except ServiceError (List Product) :=
  (productService.FilterProducts noFaults s r.Name r.Description r.MinPrice r.MaxPrice r.MinStock
    r.MaxStock).1

/-- The tables after every row with the order's key is overwritten. -/
def DB.putOrder (d : DB) (order : Order) : DB :=
  { d with orders := d.orders.map (fun o => if o.ID = order.ID then order else o) }

/-- The tables after the live order rows with the key get the description. -/
def DB.describeOrder (d : DB) (id : Nat) (description : String) : DB :=
  { d with
    orders := d.orders.map
      (fun o => if o.ID = id ∧ o.Deleted = false then { o with Description := description }
        else o) }

/-! ## Repository lookups and the paths through `AddProductToOrder` -/

theorem find_mem {α : Type} {q : α → Bool} {l : List α} {a : α} (h : l.find? q = some a) :
    a ∈ l ∧ q a = true := ⟨List.mem_of_find?_eq_some h, List.find?_some h⟩

theorem productGetByID_eq (f : Faults) (s : Store) (id : Nat) :
    productRepository.GetByID f s id =
      ((if f .productGetByID then .error .failure else
        match s.db.products.find? (fun p => p.ID == id && !p.Deleted) with
        | some p => .ok p
        | none => .error .recordNotFound), s.record .productGetByID) := by
  unfold productRepository.GetByID
  dsimp only
  split_ifs
  · rfl
  · split <;> rfl

theorem orderGetByID_eq (f : Faults) (s : Store) (id : Nat) :
    orderRepository.GetByID f s id =
      ((if f .orderGetByID then .error .failure else
        match s.db.orders.find? (fun o => o.ID == id && !o.Deleted) with
        | some o => .ok o
        | none => .error .recordNotFound), s.record .orderGetByID) := by
  unfold orderRepository.GetByID
  dsimp only
  split_ifs
  · rfl
  · split <;> rfl

theorem AddProductToOrder_cases (f : Faults) (s : Store) (orderID productID : Nat)
    (quantity : Int) (r : Except ServiceError Unit × Store)
    (hr : productService.AddProductToOrder f s orderID productID quantity = r) :
    (∃ e, r.1 = .error e ∧ r.2.db = s.db) ∨
    (∃ product, s.db.products.find? (fun p => p.ID == productID && !p.Deleted) = some product ∧
        orderID ≠ 0 ∧ productID ≠ 0 ∧ 0 < quantity ∧ quantity ≤ product.Stock ∧
        (s.db.orderProducts.any (fun a => a.OrderID == orderID && a.ProductID == productID))
          = false ∧
        ((f .productUpdate = false ∧ r.1 = .ok () ∧
          r.2.db = (s.db.link orderID productID quantity product.Price).put
              { product with Stock := product.Stock - quantity }) ∨
         (f .productUpdate = true ∧
          r.1 = .error (.failedToUpdateProductStock .failure) ∧
          r.2.db = s.db.link orderID productID quantity product.Price))) := by
  unfold productService.AddProductToOrder at hr
  by_cases hO : orderID = 0
  · simp only [hO, if_true] at hr; subst hr; exact .inl ⟨_, rfl, rfl⟩
  by_cases hP : productID = 0
  · simp only [hO, hP, if_true, if_false] at hr; subst hr; exact .inl ⟨_, rfl, rfl⟩
  by_cases hq : quantity ≤ 0
  · simp only [hO, hP, hq, if_true, if_false] at hr; subst hr; exact .inl ⟨_, rfl, rfl⟩
  simp only [hO, hP, hq, if_false, orderGetByID_eq, productGetByID_eq] at hr
  cases hfo : f .orderGetByID
  swap
  · simp only [hfo, if_true] at hr; subst hr; exact .inl ⟨_, rfl, rfl⟩
  simp only [hfo, Bool.false_eq_true, if_false] at hr
  cases hfindo : s.db.orders.find? (fun o => o.ID == orderID && !o.Deleted)
  · simp only [hfindo] at hr; subst hr; exact .inl ⟨_, rfl, rfl⟩
  simp only [hfindo] at hr
  cases hfp : f .productGetByID
  swap
  · simp only [hfp, if_true] at hr; subst hr; exact .inl ⟨_, rfl, rfl⟩
  simp only [hfp, Bool.false_eq_true, if_false] at hr
  have hrec : (s.record .orderGetByID).db = s.db := rfl
  rw [hrec] at hr
  cases hfindp : s.db.products.find? (fun p => p.ID == productID && !p.Deleted) with
  | none => simp only [hfindp] at hr; subst hr; exact .inl ⟨_, rfl, rfl⟩
  | some product =>
    simp only [hfindp] at hr
    by_cases hst : product.Stock < quantity
    · simp only [hst, if_true] at hr; subst hr; exact .inl ⟨_, rfl, rfl⟩
    simp only [hst, if_false] at hr
    unfold productRepository.AddProductToOrder at hr
    dsimp only at hr
    cases hfi : f .productAddProductToOrder
    swap
    · simp only [hfi, if_true] at hr; subst hr; exact .inl ⟨_, rfl, rfl⟩
    simp only [hfi, Bool.false_eq_true, if_false] at hr
    have hrec2 : ((s.record .orderGetByID).record .productGetByID).db = s.db := rfl
    simp only [hrec2] at hr
    cases hdup : s.db.orderProducts.any (fun a => a.OrderID == orderID && a.ProductID == productID)
    swap
    · simp only [hdup, if_true] at hr; subst hr; exact .inl ⟨_, rfl, rfl⟩
    simp only [hdup, Bool.false_eq_true, if_false] at hr
    unfold productRepository.Update at hr
    dsimp only at hr
    have hmem := find_mem hfindp
    have hany : s.db.products.any (fun p => p.ID == product.ID) = true := by
      rw [List.any_eq_true]
      exact ⟨product, hmem.1, by simp⟩
    refine .inr ⟨product, rfl, hO, hP, by omega, by omega, rfl, ?_⟩
    cases hfu : f .productUpdate
    · left
      simp only [hfu, Bool.false_eq_true, if_false, Store.withDB, Store.record, hany, if_true] at hr
      subst hr
      exact ⟨rfl, rfl, rfl⟩
    · right
      simp only [hfu, if_true] at hr
      subst hr
      exact ⟨rfl, rfl, rfl⟩

theorem productGetByID_ok {f : Faults} {s : Store} {id : Nat} {p : Product}
    (h : (productRepository.GetByID f s id).1 = .ok p) :
    f .productGetByID = false ∧
      s.db.products.find? (fun p => p.ID == id && !p.Deleted) = some p := by
  rw [productGetByID_eq] at h
  cases hf : f .productGetByID
  · cases hfind : s.db.products.find? (fun p => p.ID == id && !p.Deleted) with
    | none => simp [hf, hfind] at h
    | some a => simp [hf, hfind] at h; simp [h]
  · simp [hf] at h

theorem orderGetByID_ok {f : Faults} {s : Store} {id : Nat} {o : Order}
    (h : (orderRepository.GetByID f s id).1 = .ok o) :
    f .orderGetByID = false ∧
      s.db.orders.find? (fun o => o.ID == id && !o.Deleted) = some o := by
  rw [orderGetByID_eq] at h
  cases hf : f .orderGetByID
  · cases hfind : s.db.orders.find? (fun o => o.ID == id && !o.Deleted) with
    | none => simp [hf, hfind] at h
    | some a => simp [hf, hfind] at h; simp [h]
  · simp [hf] at h

theorem productGetByID_missing {f : Faults} {s : Store} {id : Nat} {e : StoreError}
    (hf : f .productGetByID = false) (h : (productRepository.GetByID f s id).1 = .error e) :
    e = .recordNotFound ∧
      s.db.products.find? (fun p => p.ID == id && !p.Deleted) = none := by
  rw [productGetByID_eq] at h
  cases hfind : s.db.products.find? (fun p => p.ID == id && !p.Deleted) with
  | none => simp [hf, hfind] at h; simp [h]
  | some a => simp [hf, hfind] at h

theorem orderGetByID_missing {f : Faults} {s : Store} {id : Nat} {e : StoreError}
    (hf : f .orderGetByID = false) (h : (orderRepository.GetByID f s id).1 = .error e) :
    e = .recordNotFound ∧
      s.db.orders.find? (fun o => o.ID == id && !o.Deleted) = none := by
  rw [orderGetByID_eq] at h
  cases hfind : s.db.orders.find? (fun o => o.ID == id && !o.Deleted) with
  | none => simp [hf, hfind] at h; simp [h]
  | some a => simp [hf, hfind] at h

theorem add_invalid (f : Faults) (s : Store) (orderID productID : Nat) (quantity : Int)
    (h : orderID = 0 ∨ productID = 0 ∨ quantity ≤ 0) :
    ∃ e, e.isValidation = true ∧
      productService.AddProductToOrder f s orderID productID quantity = (.error e, s) := by
  unfold productService.AddProductToOrder
  by_cases hO : orderID = 0
  · exact ⟨.invalidOrderID, rfl, by simp [hO]⟩
  by_cases hP : productID = 0
  · exact ⟨.invalidProductID, rfl, by simp [hO, hP]⟩
  have hq : quantity ≤ 0 := by tauto
  exact ⟨.quantityNotPositive, rfl, by simp [hO, hP, hq]⟩

theorem add_order_missing {f : Faults} {s : Store} {orderID productID : Nat} {quantity : Int}
    (hO : orderID ≠ 0) (hP : productID ≠ 0) (hq : 0 < quantity)
    (hfo : f .orderGetByID = false)
    (hfind : s.db.orders.find? (fun o => o.ID == orderID && !o.Deleted) = none) :
    productService.AddProductToOrder f s orderID productID quantity =
      (.error (.orderNotFound .recordNotFound), s.record .orderGetByID) := by
  have hq' : ¬ quantity ≤ 0 := by omega
  simp [productService.AddProductToOrder, orderGetByID_eq, hO, hP, hq', hfo, hfind]

theorem add_product_missing {f : Faults} {s : Store} {orderID productID : Nat} {quantity : Int}
    {o : Order} (hO : orderID ≠ 0) (hP : productID ≠ 0) (hq : 0 < quantity)
    (hfo : f .orderGetByID = false)
    (hfindo : s.db.orders.find? (fun o => o.ID == orderID && !o.Deleted) = some o)
    (hfp : f .productGetByID = false)
    (hfind : s.db.products.find? (fun p => p.ID == productID && !p.Deleted) = none) :
    productService.AddProductToOrder f s orderID productID quantity =
      (.error (.productNotFound .recordNotFound),
        (s.record .orderGetByID).record .productGetByID) := by
  have hq' : ¬ quantity ≤ 0 := by omega
  have hrec : (s.record .orderGetByID).db = s.db := rfl
  simp [productService.AddProductToOrder, orderGetByID_eq,
    productGetByID_eq, hO, hP, hq', hfo, hfindo, hfp, hrec, hfind]

theorem add_insufficient {f : Faults} {s : Store} {orderID productID : Nat} {quantity : Int}
    {o : Order} {product : Product} (hO : orderID ≠ 0) (hP : productID ≠ 0) (hq : 0 < quantity)
    (hfo : f .orderGetByID = false)
    (hfindo : s.db.orders.find? (fun o => o.ID == orderID && !o.Deleted) = some o)
    (hfp : f .productGetByID = false)
    (hfind : s.db.products.find? (fun p => p.ID == productID && !p.Deleted) = some product)
    (hst : product.Stock < quantity) :
    productService.AddProductToOrder f s orderID productID quantity =
      (.error (.insufficientStock product.Stock quantity),
        (s.record .orderGetByID).record .productGetByID) := by
  have hq' : ¬ quantity ≤ 0 := by omega
  have hrec : (s.record .orderGetByID).db = s.db := rfl
  simp [productService.AddProductToOrder, orderGetByID_eq,
    productGetByID_eq, hO, hP, hq', hfo, hfindo, hfp, hrec, hfind, hst]

theorem add_reaches_insert {f : Faults} {s : Store} {orderID productID : Nat} {quantity : Int}
    {o : Order} {product : Product} (hO : orderID ≠ 0) (hP : productID ≠ 0) (hq : 0 < quantity)
    (hfo : f .orderGetByID = false)
    (hfindo : s.db.orders.find? (fun o => o.ID == orderID && !o.Deleted) = some o)
    (hfp : f .productGetByID = false)
    (hfind : s.db.products.find? (fun p => p.ID == productID && !p.Deleted) = some product)
    (hst : quantity ≤ product.Stock) :
    productService.AddProductToOrder f s orderID productID quantity =
      match productRepository.AddProductToOrder f
          ((s.record .orderGetByID).record .productGetByID) orderID productID quantity
          product.Price with
      | (.error e, s3) => (.error (.failedToAddProductToOrder e), s3)
      | (.ok _, s3) =>
        match productRepository.Update f s3
            { product with Stock := product.Stock - quantity } with
        | (.error e, s4) => (.error (.failedToUpdateProductStock e), s4)
        | (.ok _, s4) => (.ok (), s4) := by
  have hq' : ¬ quantity ≤ 0 := by omega
  have hst' : ¬ product.Stock < quantity := by omega
  have hrec : (s.record .orderGetByID).db = s.db := rfl
  simp [productService.AddProductToOrder, orderGetByID_eq,
    productGetByID_eq, hO, hP, hq', hfo, hfindo, hfp, hrec, hfind, hst']

theorem add_duplicate {f : Faults} {s : Store} {orderID productID : Nat} {quantity : Int}
    {o : Order} {product : Product} (hO : orderID ≠ 0) (hP : productID ≠ 0) (hq : 0 < quantity)
    (hfo : f .orderGetByID = false)
    (hfindo : s.db.orders.find? (fun o => o.ID == orderID && !o.Deleted) = some o)
    (hfp : f .productGetByID = false)
    (hfind : s.db.products.find? (fun p => p.ID == productID && !p.Deleted) = some product)
    (hst : quantity ≤ product.Stock)
    (hfi : f .productAddProductToOrder = false)
    (hdup : s.db.orderProducts.any
      (fun a => a.OrderID == orderID && a.ProductID == productID) = true) :
    productService.AddProductToOrder f s orderID productID quantity =
      (.error (.failedToAddProductToOrder .duplicateKey),
        ((s.record .orderGetByID).record .productGetByID).record .productAddProductToOrder) := by
  rw [add_reaches_insert hO hP hq hfo hfindo hfp hfind hst]
  have hrec : ((s.record .orderGetByID).record .productGetByID).db = s.db := rfl
  unfold productRepository.AddProductToOrder
  simp only [hfi, hrec, hdup, Bool.false_eq_true, if_false, if_true]

theorem add_ok {f : Faults} {s : Store} {orderID productID : Nat} {quantity : Int}
    {o : Order} {product : Product} (hO : orderID ≠ 0) (hP : productID ≠ 0) (hq : 0 < quantity)
    (hfo : f .orderGetByID = false)
    (hfindo : s.db.orders.find? (fun o => o.ID == orderID && !o.Deleted) = some o)
    (hfp : f .productGetByID = false)
    (hfind : s.db.products.find? (fun p => p.ID == productID && !p.Deleted) = some product)
    (hst : quantity ≤ product.Stock)
    (hfi : f .productAddProductToOrder = false)
    (hdup : s.db.orderProducts.any
      (fun a => a.OrderID == orderID && a.ProductID == productID) = false)
    (hfu : f .productUpdate = false) :
    productService.AddProductToOrder f s orderID productID quantity =
      (.ok (),
        { db := (s.db.link orderID productID quantity product.Price).put
            { product with Stock := product.Stock - quantity },
          calls := s.calls ++ [.orderGetByID] ++ [.productGetByID] ++
            [.productAddProductToOrder] ++ [.productUpdate] }) := by
  rw [add_reaches_insert hO hP hq hfo hfindo hfp hfind hst]
  have hrec : ((s.record .orderGetByID).record .productGetByID).db = s.db := rfl
  have hany : s.db.products.any (fun p => p.ID == product.ID) = true := by
    rw [List.any_eq_true]
    exact ⟨product, (find_mem hfind).1, by simp⟩
  unfold productRepository.AddProductToOrder productRepository.Update
  simp only [hfi, hrec, hdup, hfu, Bool.false_eq_true, if_false, Store.withDB, Store.record,
    hany, if_true, DB.link, DB.put]

/-! ## Preservation of the invariant -/

theorem Inv_link {d : DB} (h : d.Inv) {o p : Nat} (ho : o ≠ 0) (hp : p ≠ 0) (q : Int)
    (c : Rat) : (d.link o p q c).Inv := by
  refine ⟨h.1, h.2.1, ?_⟩
  intro a ha
  simp only [DB.link, List.mem_append, List.mem_singleton] at ha
  rcases ha with ha | ha
  · exact h.2.2 a ha
  · subst ha; exact ⟨ho, hp⟩

theorem Inv_put {d : DB} (h : d.Inv) (product : Product) (hs : 0 ≤ product.Stock)
    (hid : product.ID ≠ 0) : (d.put product).Inv := by
  refine ⟨?_, h.2.1, h.2.2⟩
  intro a ha
  simp only [DB.put, List.mem_map] at ha
  obtain ⟨b, hb, rfl⟩ := ha
  split_ifs
  · exact ⟨hs, hid⟩
  · exact h.1 b hb

theorem Inv_addProductToOrder (f : Faults) (s : Store) (o p : Nat) (q : Int)
    (h : s.db.Inv) : (productService.AddProductToOrder f s o p q).2.db.Inv := by
  rcases AddProductToOrder_cases f s o p q _ rfl with ⟨e, -, hdb⟩ | ⟨product, hfind, ho, hp, hq,
    hst, -, hcase⟩
  · rw [hdb]; exact h
  · have hmem := (find_mem hfind).1
    rcases hcase with ⟨-, -, hdb⟩ | ⟨-, -, hdb⟩
    · rw [hdb]
      exact Inv_put (Inv_link h ho hp q _) { product with Stock := product.Stock - q }
        (show (0:Int) ≤ product.Stock - q by omega)
        (h.1 product hmem).2
    · rw [hdb]
      exact Inv_link h ho hp q _

theorem Inv_createProduct (f : Faults) (s : Store) (n d : String) (p : Rat) (k : Int)
    (h : s.db.Inv) : (productService.CreateProduct f s n d p k).2.db.Inv := by
  unfold productService.CreateProduct productRepository.Create
  dsimp only [Store.record, Store.withDB]
  split_ifs <;> simp_all [DB.Inv]
  · intro q hq
    rcases hq with hq | hq
    · exact h.1 q hq
    · subst hq; simp; omega

theorem Inv_updateProduct (f : Faults) (s : Store) (i : Nat) (n d : String) (p : Rat) (k : Int)
    (h : s.db.Inv) : (productService.UpdateProduct f s i n d p k).2.db.Inv := by
  unfold productService.UpdateProduct
  by_cases h1 : i = 0
  · simpa [h1] using h
  by_cases h2 : n = ""
  · simpa [h1, h2] using h
  by_cases h3 : p < 0
  · simpa [h1, h2, h3] using h
  by_cases h4 : k < 0
  · simpa [h1, h2, h3, h4] using h
  simp only [h1, h2, h3, h4, if_false, productGetByID_eq]
  cases hf : f .productGetByID
  swap
  · simpa [Store.record] using h
  cases hfind : s.db.products.find? (fun p => p.ID == i && !p.Deleted) with
  | none => simpa [Store.record] using h
  | some product =>
    simp only [Bool.false_eq_true, if_false]
    have hmem := find_mem hfind
    have hany : s.db.products.any (fun p => p.ID == product.ID) = true := by
      rw [List.any_eq_true]
      exact ⟨product, hmem.1, by simp⟩
    unfold productRepository.Update
    cases hfu : f .productUpdate
    · simp only [Bool.false_eq_true, if_false, Store.withDB, Store.record, hany, if_true]
      exact Inv_put h { product with Name := n, Description := d, Price := p, Stock := k }
        (show (0:Int) ≤ k by omega) (h.1 product hmem.1).2
    · simpa [Store.record] using h

theorem Inv_deleteProduct (f : Faults) (s : Store) (i : Nat)
    (h : s.db.Inv) : (productService.DeleteProduct f s i).2.db.Inv := by
  unfold productService.DeleteProduct productRepository.Delete
  dsimp only [Store.record, Store.withDB]
  split_ifs
  · exact h
  · exact h
  · refine ⟨?_, h.2.1, h.2.2⟩
    intro a ha
    simp only [List.mem_map] at ha
    obtain ⟨b, hb, rfl⟩ := ha
    split_ifs
    · exact h.1 b hb
    · exact h.1 b hb

theorem Inv_removeProductFromOrder (f : Faults) (s : Store) (o p : Nat)
    (h : s.db.Inv) : (productService.RemoveProductFromOrder f s o p).2.db.Inv := by
  unfold productService.RemoveProductFromOrder productRepository.RemoveProductFromOrder
  dsimp only [Store.record, Store.withDB]
  split_ifs
  · exact h
  · exact h
  · exact h
  · refine ⟨h.1, h.2.1, ?_⟩
    intro a ha
    exact h.2.2 a (List.mem_of_mem_filter ha)

theorem Inv_createOrder (f : Faults) (s : Store) (d : String)
    (h : s.db.Inv) : (orderService.CreateOrder f s d).2.db.Inv := by
  unfold orderService.CreateOrder orderRepository.Create
  dsimp only [Store.record, Store.withDB]
  split_ifs <;> simp_all [DB.Inv]
  · intro q hq
    rcases hq with hq | hq
    · exact h.2.1 q hq
    · subst hq; simp

theorem Inv_updateOrder (f : Faults) (s : Store) (i : Nat) (d : String)
    (h : s.db.Inv) : (orderService.UpdateOrder f s i d).2.db.Inv := by
  unfold orderService.UpdateOrder
  by_cases h1 : i = 0
  · simpa [h1] using h
  by_cases h2 : d = ""
  · simpa [h1, h2] using h
  simp only [h1, h2, if_false, orderGetByID_eq]
  cases hf : f .orderGetByID
  swap
  · simpa [Store.record] using h
  cases hfind : s.db.orders.find? (fun o => o.ID == i && !o.Deleted) with
  | none => simpa [Store.record] using h
  | some order =>
    simp only [Bool.false_eq_true, if_false]
    have hmem := find_mem hfind
    have hany : s.db.orders.any (fun o => o.ID == order.ID) = true := by
      rw [List.any_eq_true]
      exact ⟨order, hmem.1, by simp⟩
    unfold orderRepository.Update
    cases hfu : f .orderUpdate
    · simp only [Bool.false_eq_true, if_false, Store.withDB, Store.record, hany, if_true]
      refine ⟨h.1, ?_, h.2.2⟩
      intro a ha
      simp only [List.mem_map] at ha
      obtain ⟨b, hb, rfl⟩ := ha
      split_ifs
      · exact h.2.1 order hmem.1
      · exact h.2.1 b hb
    · simpa [Store.record] using h

theorem Inv_updateOrderDescription (f : Faults) (s : Store) (i : Nat) (d : String)
    (h : s.db.Inv) : (orderService.UpdateOrderDescription f s i d).2.db.Inv := by
  unfold orderService.UpdateOrderDescription orderRepository.UpdateField
  dsimp only [Store.record, Store.withDB]
  split_ifs
  · exact h
  · exact h
  · exact h
  · refine ⟨h.1, ?_, h.2.2⟩
    intro a ha
    simp only [List.mem_map] at ha
    obtain ⟨b, hb, rfl⟩ := ha
    split_ifs
    · exact h.2.1 b hb
    · exact h.2.1 b hb

theorem Inv_deleteOrder (f : Faults) (s : Store) (i : Nat)
    (h : s.db.Inv) : (orderService.DeleteOrder f s i).2.db.Inv := by
  unfold orderService.DeleteOrder orderRepository.Delete
  dsimp only [Store.record, Store.withDB]
  split_ifs
  · exact h
  · exact h
  · refine ⟨h.1, ?_, h.2.2⟩
    intro a ha
    simp only [List.mem_map] at ha
    obtain ⟨b, hb, rfl⟩ := ha
    split_ifs
    · exact h.2.1 b hb
    · exact h.2.1 b hb

theorem Inv_exec (f : Faults) (s : Store) (op : Op) (h : s.db.Inv) : (op.exec f s).db.Inv := by
  cases op with
  | createProduct n d p k => exact Inv_createProduct f s n d p k h
  | updateProduct i n d p k => exact Inv_updateProduct f s i n d p k h
  | deleteProduct i => exact Inv_deleteProduct f s i h
  | addProductToOrder o p q => exact Inv_addProductToOrder f s o p q h
  | removeProductFromOrder o p => exact Inv_removeProductFromOrder f s o p h
  | createOrder d => exact Inv_createOrder f s d h
  | updateOrder i d => exact Inv_updateOrder f s i d h
  | updateOrderDescription i d => exact Inv_updateOrderDescription f s i d h
  | deleteOrder i => exact Inv_deleteOrder f s i h

theorem Inv_run (trace : List (Faults × Op)) (s : Store) (h : s.db.Inv) :
    (run s trace).db.Inv := by
  induction trace generalizing s with
  | nil => exact h
  | cons x rest ih =>
    obtain ⟨f, op⟩ := x
    exact ih _ (Inv_exec f s op h)

theorem Inv_empty : Store.empty.db.Inv := by
  refine ⟨?_, ?_, ?_⟩ <;> intro a ha <;> cases ha

theorem Inv_of_reachable {s : Store} (h : Reachable s) : s.db.Inv := by
  obtain ⟨trace, rfl⟩ := h
  exact Inv_run trace _ Inv_empty

/-! ## Lookups after a write -/

theorem find_put {l : List Product} {P : Nat} {p p' : Product}
    (h : l.find? (fun x => x.ID == P && !x.Deleted) = some p) (hid : p'.ID = p.ID)
    (hdel : p'.Deleted = false) :
    (l.map (fun x => if x.ID = p'.ID then p' else x)).find?
      (fun x => x.ID == P && !x.Deleted) = some p' := by
  have hP : p.ID = P := by
    have := (find_mem h).2
    simp only [Bool.and_eq_true, beq_iff_eq] at this
    exact this.1
  induction l with
  | nil => simp at h
  | cons x xs ih =>
    rw [List.map_cons, List.find?_cons]
    by_cases hx : x.ID = p'.ID
    · simp [hx, hid, hP, hdel]
    · have hx' : ¬ x.ID = P := by rw [← hP, ← hid]; exact hx
      have hb : (x.ID == P) = false := by simp [hx']
      rw [List.find?_cons] at h
      simp only [hx, if_false, hb, Bool.false_and] at h ⊢
      exact ih h

theorem stockOf_eq {s : Store} {P : Nat} {p : Product}
    (h : (productRepository.GetByID noFaults s P).1 = .ok p) : stockOf s P = some p.Stock := by
  simp [stockOf, h]

theorem getByID_of_find {f : Faults} {s : Store} {P : Nat} {p : Product}
    (hf : f .productGetByID = false)
    (h : s.db.products.find? (fun x => x.ID == P && !x.Deleted) = some p) :
    (productRepository.GetByID f s P).1 = .ok p := by
  simp [productGetByID_eq, hf, h]

theorem not_any_of_not_linked {d : DB} {O P : Nat} (h : ¬ d.linked O P) :
    d.orderProducts.any (fun a => a.OrderID == O && a.ProductID == P) = false := by
  rw [Bool.eq_false_iff]
  intro hany
  rw [List.any_eq_true] at hany
  obtain ⟨a, ha, hk⟩ := hany
  simp only [Bool.and_eq_true, beq_iff_eq] at hk
  exact h ⟨a, ha, hk⟩

theorem any_of_linked {d : DB} {O P : Nat} (h : d.linked O P) :
    d.orderProducts.any (fun a => a.OrderID == O && a.ProductID == P) = true := by
  obtain ⟨a, ha, hk⟩ := h
  rw [List.any_eq_true]
  exact ⟨a, ha, by simp [hk]⟩

/-! ## The claims -/

/-- C1 (stock invariant): in every state reached from the empty store by a
sequence of service calls executed one at a time (the five product-service
operations of the claim and the four order-service mutations, each under any
plan of store failures) every product row has a stock of at least 0. -/
theorem stock_nonneg_of_run (trace : List (Faults × Op)) (p : Product)
    (hp : p ∈ (run Store.empty trace).db.products) : 0 ≤ p.Stock :=
  ((Inv_run trace Store.empty Inv_empty).1 p hp).1

/-- Witness of C1: after creating an order and a product with stock 10 and
linking 4 units, the product row has stock 6. -/
theorem stock_nonneg_of_run_witness :
    (⟨1, "P", "", 5, 6, false⟩ : Product) ∈ exampleLinked.db.products ∧
      (0 : Int) ≤ (⟨1, "P", "", 5, 6, false⟩ : Product).Stock :=
  ⟨by decide,
   stock_nonneg_of_run
     [(noFaults, .createOrder "first order"), (noFaults, .createProduct "P" "" 5 10),
      (noFaults, .addProductToOrder 1 1 4)] ⟨1, "P", "", 5, 6, false⟩ (by decide)⟩

/-- C2: in a reachable store, for an existing order `O`, an existing product
`P` read as `p`, a quantity `q` with `0 < q ≤ p.Stock`, no join row for
`(O, P)` and a store that does not fail, `AddProductToOrder(O, P, q)` returns
no error, appends the join row `(O, P, q, p.Price)` to `order_products`, and
afterwards `GetByID(P)` reads `p` with stock `p.Stock - q`. -/
theorem addProductToOrder_success (s : Store) (O P : Nat) (q : Int) (o : Order) (p : Product)
    (hs : Reachable s)
    (ho : (orderRepository.GetByID noFaults s O).1 = .ok o)
    (hp : (productRepository.GetByID noFaults s P).1 = .ok p)
    (hq : 0 < q) (hqs : q ≤ p.Stock) (hno : ¬ s.db.linked O P) :
    (productService.AddProductToOrder noFaults s O P q).1 = .ok () ∧
    (productService.AddProductToOrder noFaults s O P q).2.db.orderProducts =
      s.db.orderProducts ++ [{ OrderID := O, ProductID := P, Quantity := q, Price := p.Price }] ∧
    (productRepository.GetByID noFaults
        (productService.AddProductToOrder noFaults s O P q).2 P).1 =
      .ok { p with Stock := p.Stock - q } := by
  have hinv := Inv_of_reachable hs
  obtain ⟨-, hfo⟩ := orderGetByID_ok ho
  obtain ⟨-, hfp⟩ := productGetByID_ok hp
  have hO : O ≠ 0 := by
    have hm := find_mem hfo
    have h1 := hinv.2.1 o hm.1
    have h2 := hm.2
    simp only [Bool.and_eq_true, beq_iff_eq] at h2
    rw [← h2.1]; exact h1
  have hP : P ≠ 0 := by
    have hm := find_mem hfp
    have h1 := (hinv.1 p hm.1).2
    have h2 := hm.2
    simp only [Bool.and_eq_true, beq_iff_eq] at h2
    rw [← h2.1]; exact h1
  have hdel : p.Deleted = false := by
    have h2 := (find_mem hfp).2
    simp only [Bool.and_eq_true, beq_iff_eq, Bool.not_eq_true'] at h2
    exact h2.2
  rw [add_ok hO hP hq rfl hfo rfl hfp hqs rfl (not_any_of_not_linked hno) rfl]
  refine ⟨rfl, rfl, ?_⟩
  apply getByID_of_find rfl
  exact find_put hfp rfl hdel

/-- Witness of C2 (scenario 1): product `P` with stock 10 and price 5, order
1, quantity 4: the join row `(1, 1, 4, 5)` is inserted and `P` is read back
with stock 6. -/
theorem addProductToOrder_success_witness :
    (productService.AddProductToOrder noFaults exampleStore 1 1 4).1 = .ok () ∧
    (productService.AddProductToOrder noFaults exampleStore 1 1 4).2.db.orderProducts =
      [{ OrderID := 1, ProductID := 1, Quantity := 4, Price := 5 }] ∧
    (productRepository.GetByID noFaults
        (productService.AddProductToOrder noFaults exampleStore 1 1 4).2 1).1 =
      .ok ⟨1, "P", "", 5, 6, false⟩ :=
  addProductToOrder_success exampleStore 1 1 4 ⟨1, "first order", false⟩
    ⟨1, "P", "", 5, 10, false⟩ ⟨_, rfl⟩ rfl rfl (by decide) (by decide)
    (by unfold DB.linked; decide)

/-- C3: in a reachable store, for an existing order and an existing product
read as `p`, every quantity `q` greater than `p.Stock` makes
`AddProductToOrder` return the error "insufficient stock: available
`p.Stock`, requested `q`" and leaves the tables (so the product's stock and
the join rows) as they were. -/
theorem addProductToOrder_insufficient_stock (f : Faults) (s : Store) (O P : Nat) (q : Int)
    (o : Order) (p : Product) (hs : Reachable s)
    (ho : (orderRepository.GetByID f s O).1 = .ok o)
    (hp : (productRepository.GetByID f s P).1 = .ok p)
    (hq : p.Stock < q) :
    (productService.AddProductToOrder f s O P q).1 = .error (.insufficientStock p.Stock q) ∧
    (productService.AddProductToOrder f s O P q).2.db = s.db := by
  have hinv := Inv_of_reachable hs
  obtain ⟨hfo, hfindo⟩ := orderGetByID_ok ho
  obtain ⟨hfp, hfindp⟩ := productGetByID_ok hp
  have hO : O ≠ 0 := by
    have hm := find_mem hfindo
    have h2 := hm.2
    simp only [Bool.and_eq_true, beq_iff_eq] at h2
    rw [← h2.1]; exact hinv.2.1 o hm.1
  have hm := find_mem hfindp
  have hP : P ≠ 0 := by
    have h2 := hm.2
    simp only [Bool.and_eq_true, beq_iff_eq] at h2
    rw [← h2.1]; exact (hinv.1 p hm.1).2
  have hpos : 0 < q := lt_of_le_of_lt (hinv.1 p hm.1).1 hq
  rw [add_insufficient hO hP hpos hfo hfindo hfp hfindp hq]
  exact ⟨rfl, rfl⟩

/-- Witness of C3: 11 units of a product with stock 10. -/
theorem addProductToOrder_insufficient_stock_witness :
    (productService.AddProductToOrder noFaults exampleStore 1 1 11).1 =
      .error (.insufficientStock 10 11) ∧
    (productService.AddProductToOrder noFaults exampleStore 1 1 11).2.db = exampleStore.db :=
  addProductToOrder_insufficient_stock noFaults exampleStore 1 1 11 ⟨1, "first order", false⟩
    ⟨1, "P", "", 5, 10, false⟩ ⟨_, rfl⟩ rfl rfl (by decide)

/-- C4, as stated, fails: when the insert of the join row succeeds and the
write of the stock fails, `AddProductToOrder` returns an error, the join row
`(1, 1, 4, 5)` is in the table and the product still has stock 10, so the
store is not in its pre-call state. -/
theorem addProductToOrder_partial_write :
    (productService.AddProductToOrder stockWriteFails exampleStore 1 1 4).1 =
      .error (.failedToUpdateProductStock .failure) ∧
    exampleStore.db.orderProducts = [] ∧
    (productService.AddProductToOrder stockWriteFails exampleStore 1 1 4).2.db.orderProducts =
      [{ OrderID := 1, ProductID := 1, Quantity := 4, Price := 5 }] ∧
    stockOf (productService.AddProductToOrder stockWriteFails exampleStore 1 1 4).2 1 =
      some 10 ∧
    (productService.AddProductToOrder stockWriteFails exampleStore 1 1 4).2.db ≠
      exampleStore.db :=
  ⟨rfl, by decide, by decide, by decide, by decide⟩

/-- C4, amended: every call of `AddProductToOrder`, under every plan of store
failures, ends in one of three ways.  Either it returns no error, the join
row is appended and the product is read back with its stock decremented; or
it returns an error and the tables are as before the call; or, only when the
write of the stock fails, it returns the error "failed to update product
stock" with the join row appended and the products table as before. -/
theorem addProductToOrder_outcomes (f : Faults) (s : Store) (O P : Nat) (q : Int) :
    ((productService.AddProductToOrder f s O P q).1 = .ok () ∧
      ∃ p, (productRepository.GetByID noFaults s P).1 = .ok p ∧
        (productService.AddProductToOrder f s O P q).2.db.orderProducts =
          s.db.orderProducts ++
            [{ OrderID := O, ProductID := P, Quantity := q, Price := p.Price }] ∧
        (productRepository.GetByID noFaults (productService.AddProductToOrder f s O P q).2 P).1 =
          .ok { p with Stock := p.Stock - q }) ∨
    ((∃ e, (productService.AddProductToOrder f s O P q).1 = .error e) ∧
      (productService.AddProductToOrder f s O P q).2.db = s.db) ∨
    (f .productUpdate = true ∧
      (productService.AddProductToOrder f s O P q).1 =
        .error (.failedToUpdateProductStock .failure) ∧
      ∃ p, (productRepository.GetByID noFaults s P).1 = .ok p ∧
        (productService.AddProductToOrder f s O P q).2.db.orderProducts =
          s.db.orderProducts ++
            [{ OrderID := O, ProductID := P, Quantity := q, Price := p.Price }] ∧
        (productService.AddProductToOrder f s O P q).2.db.products = s.db.products) := by
  rcases AddProductToOrder_cases f s O P q _ rfl with ⟨e, he, hdb⟩ |
    ⟨product, hfind, -, -, -, -, -, hcase⟩
  · exact .inr (.inl ⟨⟨e, he⟩, hdb⟩)
  · have hdel : product.Deleted = false := by
      have h2 := (find_mem hfind).2
      simp only [Bool.and_eq_true, beq_iff_eq, Bool.not_eq_true'] at h2
      exact h2.2
    rcases hcase with ⟨-, hok, hdb⟩ | ⟨hfu, herr, hdb⟩
    · refine .inl ⟨hok, product, getByID_of_find rfl hfind, by rw [hdb]; rfl, ?_⟩
      apply getByID_of_find rfl
      rw [hdb]
      exact find_put hfind rfl hdel
    · exact .inr (.inr ⟨hfu, herr, product, getByID_of_find rfl hfind, by rw [hdb]; rfl,
        by rw [hdb]; rfl⟩)

theorem text_not_already_linked (e : ServiceError) : e.text ≠ "already linked" := by
  cases e <;> simp only [ServiceError.text] <;> decide

theorem add_order_error {f : Faults} {s : Store} {O P : Nat} {q : Int} {c : StoreError}
    (hO : O ≠ 0) (hP : P ≠ 0) (hq : 0 < q)
    (h : (orderRepository.GetByID f s O).1 = .error c) :
    (productService.AddProductToOrder f s O P q).1 = .error (.orderNotFound c) := by
  have hq' : ¬ q ≤ 0 := by omega
  unfold productService.AddProductToOrder
  rw [if_neg hO, if_neg hP, if_neg hq']
  rcases hc : orderRepository.GetByID f s O with ⟨e | o, s1⟩
  · rw [hc] at h
    simp only [Except.error.injEq] at h
    subst h
    rfl
  · rw [hc] at h; cases h

theorem add_product_error {f : Faults} {s : Store} {O P : Nat} {q : Int} {o : Order}
    {c : StoreError} (hO : O ≠ 0) (hP : P ≠ 0) (hq : 0 < q)
    (ho : (orderRepository.GetByID f s O).1 = .ok o)
    (h : (productRepository.GetByID f s P).1 = .error c) :
    (productService.AddProductToOrder f s O P q).1 = .error (.productNotFound c) := by
  have hq' : ¬ q ≤ 0 := by omega
  obtain ⟨hfo, hfindo⟩ := orderGetByID_ok ho
  rw [productGetByID_eq] at h
  unfold productService.AddProductToOrder
  rw [if_neg hO, if_neg hP, if_neg hq', orderGetByID_eq, hfo, hfindo]
  simp only [Bool.false_eq_true, if_false]
  rw [productGetByID_eq]
  simp only [Store.record] at h ⊢
  rw [h]

theorem add_insert_fails {f : Faults} {s : Store} {O P : Nat} {q : Int}
    {o : Order} {product : Product} (hO : O ≠ 0) (hP : P ≠ 0) (hq : 0 < q)
    (ho : (orderRepository.GetByID f s O).1 = .ok o)
    (hp : (productRepository.GetByID f s P).1 = .ok product)
    (hst : q ≤ product.Stock) (hfi : f .productAddProductToOrder = true) :
    (productService.AddProductToOrder f s O P q).1 =
      .error (.failedToAddProductToOrder .failure) := by
  obtain ⟨hfo, hfindo⟩ := orderGetByID_ok ho
  obtain ⟨hfp, hfindp⟩ := productGetByID_ok hp
  rw [add_reaches_insert hO hP hq hfo hfindo hfp hfindp hst]
  unfold productRepository.AddProductToOrder
  simp only [hfi, if_true]

/-- C6, as stated, fails: with the pair `(1, 1)` linked and stock 6 left, the
well-formed call `AddProductToOrder(1, 1, 2)` returns "failed to add product
to order" around the store's duplicate-key error.  That is the error the
service returns for every insert that fails (an insert that meets a store
failure on a pair not yet linked gets the same message), not a conflict error
"already linked" of its own. -/
theorem addProductToOrder_linked_wrapped_error :
    exampleLinked.db.linked 1 1 ∧
    (productService.AddProductToOrder noFaults exampleLinked 1 1 2).1 =
      .error (.failedToAddProductToOrder .duplicateKey) ∧
    (ServiceError.failedToAddProductToOrder .duplicateKey).text =
      "failed to add product to order" ∧
    (ServiceError.failedToAddProductToOrder .duplicateKey).text ≠ "already linked" ∧
    (ServiceError.failedToAddProductToOrder .duplicateKey).cause = some .duplicateKey ∧
    ¬ exampleStore.db.linked 1 1 ∧
    (productService.AddProductToOrder insertFails exampleStore 1 1 2).1 =
      .error (.failedToAddProductToOrder .failure) :=
  ⟨by unfold DB.linked; decide, rfl, rfl, by decide, rfl, by unfold DB.linked; decide, rfl⟩

/-- C6, amended: in a reachable store, for every order and product that
already have a join row, every call of `AddProductToOrder`, under every plan
of store failures, returns an error and leaves the tables as they were (the
existing row keeps its quantity and price, the product its stock).  No error
of the service reads "already linked".  The call returns the error of the
first step that stops it: "quantity must be greater than 0" for `q ≤ 0`;
"order not found" or "product not found" around the error of a lookup that
fails; "insufficient stock" when the stock is below `q`; and, when the call
reaches the insert, "failed to add product to order" around the error of the
insert, which is the duplicate-key error of the key `(order_id, product_id)`,
or the store's failure when the insert meets one. -/
theorem addProductToOrder_linked (f : Faults) (s : Store) (O P : Nat) (q : Int)
    (hs : Reachable s) (h : s.db.linked O P) :
    (∃ e, (productService.AddProductToOrder f s O P q).1 = .error e ∧
      e.text ≠ "already linked") ∧
    (productService.AddProductToOrder f s O P q).2.db = s.db ∧
    (q ≤ 0 → (productService.AddProductToOrder f s O P q).1 = .error .quantityNotPositive) ∧
    (∀ c, 0 < q → (orderRepository.GetByID f s O).1 = .error c →
      (productService.AddProductToOrder f s O P q).1 = .error (.orderNotFound c)) ∧
    (∀ o c, 0 < q → (orderRepository.GetByID f s O).1 = .ok o →
      (productRepository.GetByID f s P).1 = .error c →
      (productService.AddProductToOrder f s O P q).1 = .error (.productNotFound c)) ∧
    (∀ o p, 0 < q → (orderRepository.GetByID f s O).1 = .ok o →
      (productRepository.GetByID f s P).1 = .ok p → p.Stock < q →
      (productService.AddProductToOrder f s O P q).1 =
        .error (.insufficientStock p.Stock q)) ∧
    (∀ o p, 0 < q → (orderRepository.GetByID f s O).1 = .ok o →
      (productRepository.GetByID f s P).1 = .ok p → q ≤ p.Stock →
      (f .productAddProductToOrder = false →
        (productService.AddProductToOrder f s O P q).1 =
          .error (.failedToAddProductToOrder .duplicateKey)) ∧
      (f .productAddProductToOrder = true →
        (productService.AddProductToOrder f s O P q).1 =
          .error (.failedToAddProductToOrder .failure))) := by
  have hany := any_of_linked h
  have hinv := Inv_of_reachable hs
  obtain ⟨a, ha, hk1, hk2⟩ := h
  have hids := hinv.2.2 a ha
  have hO : O ≠ 0 := hk1 ▸ hids.1
  have hP : P ≠ 0 := hk2 ▸ hids.2
  refine ⟨?_, ?_, ?_, ?_, ?_, ?_, ?_⟩
  · rcases AddProductToOrder_cases f s O P q _ rfl with ⟨e, he, -⟩ |
      ⟨product, -, -, -, -, -, hno, -⟩
    · exact ⟨e, he, text_not_already_linked e⟩
    · rw [hany] at hno; cases hno
  · rcases AddProductToOrder_cases f s O P q _ rfl with ⟨e, -, hdb⟩ |
      ⟨product, -, -, -, -, -, hno, -⟩
    · exact hdb
    · rw [hany] at hno; cases hno
  · intro hq
    unfold productService.AddProductToOrder
    rw [if_neg hO, if_neg hP, if_pos hq]
  · intro c hq ho
    exact add_order_error hO hP hq ho
  · intro o c hq ho hp
    exact add_product_error hO hP hq ho hp
  · intro o p hq ho hp hst
    obtain ⟨hfo, hfindo⟩ := orderGetByID_ok ho
    obtain ⟨hfp, hfindp⟩ := productGetByID_ok hp
    rw [add_insufficient hO hP hq hfo hfindo hfp hfindp hst]
  · intro o p hq ho hp hst
    obtain ⟨hfo, hfindo⟩ := orderGetByID_ok ho
    obtain ⟨hfp, hfindp⟩ := productGetByID_ok hp
    constructor
    · intro hfi
      rw [add_duplicate hO hP hq hfo hfindo hfp hfindp hst hfi hany]
    · intro hfi
      exact add_insert_fails hO hP hq ho hp hst hfi

/-- Witness of C6: with `(1, 1)` linked at quantity 4 and stock 6 left, a
second `AddProductToOrder(1, 1, 2)` fails on the duplicate key and changes
nothing; with quantity 7 it fails on the stock, with quantity 0 on the
quantity. -/
theorem addProductToOrder_linked_witness :
    (productService.AddProductToOrder noFaults exampleLinked 1 1 2).1 =
      .error (.failedToAddProductToOrder .duplicateKey) ∧
    (productService.AddProductToOrder noFaults exampleLinked 1 1 2).2.db = exampleLinked.db ∧
    (productService.AddProductToOrder noFaults exampleLinked 1 1 7).1 =
      .error (.insufficientStock 6 7) ∧
    (productService.AddProductToOrder noFaults exampleLinked 1 1 0).1 =
      .error .quantityNotPositive :=
  ⟨((addProductToOrder_linked noFaults exampleLinked 1 1 2 ⟨_, rfl⟩
      (by unfold DB.linked; decide)).2.2.2.2.2.2 ⟨1, "first order", false⟩
      ⟨1, "P", "", 5, 6, false⟩ (by decide) rfl rfl (by decide)).1 rfl,
   (addProductToOrder_linked noFaults exampleLinked 1 1 2 ⟨_, rfl⟩
      (by unfold DB.linked; decide)).2.1,
   (addProductToOrder_linked noFaults exampleLinked 1 1 7 ⟨_, rfl⟩
      (by unfold DB.linked; decide)).2.2.2.2.2.1 ⟨1, "first order", false⟩
      ⟨1, "P", "", 5, 6, false⟩ (by decide) rfl rfl (by decide),
   (addProductToOrder_linked noFaults exampleLinked 1 1 0 ⟨_, rfl⟩
      (by unfold DB.linked; decide)).2.2.1 (by decide)⟩

/-- C7: for every order id, product id and quantity `q ≤ 0`, under every plan
of store failures, `AddProductToOrder` returns one of its input errors and
the store it leaves is the store it was given, call log included: no
repository method was called. -/
theorem addProductToOrder_nonpositive_quantity (f : Faults) (s : Store) (O P : Nat) (q : Int)
    (hq : q ≤ 0) :
    failsWith ServiceError.isValidation (productService.AddProductToOrder f s O P q).1 = true ∧
    (productService.AddProductToOrder f s O P q).2 = s := by
  obtain ⟨e, he, heq⟩ := add_invalid f s O P q (.inr (.inr hq))
  rw [heq]
  exact ⟨he, rfl⟩

/-- Witness of C7: quantity 0 on the example store. -/
theorem addProductToOrder_nonpositive_quantity_witness :
    failsWith ServiceError.isValidation
      (productService.AddProductToOrder noFaults exampleStore 1 1 0).1 = true ∧
    (productService.AddProductToOrder noFaults exampleStore 1 1 0).2 = exampleStore :=
  addProductToOrder_nonpositive_quantity noFaults exampleStore 1 1 0 (by decide)

/-- C8, as stated, fails for the id 0: no order has id 0 in the example store,
yet the call `AddProductToOrder(0, 1, 1)`, with an existing product and a
positive quantity, returns the input error "invalid order ID", which is not a
not-found error; `AddProductToOrder(1, 0, 1)` returns "invalid product ID". -/
theorem addProductToOrder_zero_id :
    (orderRepository.GetByID noFaults exampleStore 0).1 = .error .recordNotFound ∧
    (productService.AddProductToOrder noFaults exampleStore 0 1 1).1 = .error .invalidOrderID ∧
    failsWith ServiceError.isNotFound
      (productService.AddProductToOrder noFaults exampleStore 0 1 1).1 = false ∧
    (productRepository.GetByID noFaults exampleStore 0).1 = .error .recordNotFound ∧
    (productService.AddProductToOrder noFaults exampleStore 1 0 1).1 =
      .error .invalidProductID ∧
    failsWith ServiceError.isNotFound
      (productService.AddProductToOrder noFaults exampleStore 1 0 1).1 = false :=
  ⟨rfl, rfl, rfl, rfl, rfl, rfl⟩

/-- C8, amended: for every call of `AddProductToOrder` in which the order
does not exist or the product does not exist, under every plan of store
failures, the call returns an error and leaves the tables (every product's
stock and the join rows) as they were.  The error is that of the first check
that stops the call: "invalid order ID" for the order id 0, "invalid product
ID" for the product id 0, "quantity must be greater than 0" for `q ≤ 0`, and,
for non-zero ids and a positive quantity, an "order not found" or "product not
found" error. -/
theorem addProductToOrder_missing (f : Faults) (s : Store) (O P : Nat) (q : Int)
    (h : (orderRepository.GetByID noFaults s O).1 = .error .recordNotFound ∨
      (productRepository.GetByID noFaults s P).1 = .error .recordNotFound) :
    (∃ e, (productService.AddProductToOrder f s O P q).1 = .error e) ∧
    (productService.AddProductToOrder f s O P q).2.db = s.db ∧
    (O = 0 → productService.AddProductToOrder f s O P q = (.error .invalidOrderID, s)) ∧
    (O ≠ 0 → P = 0 →
      productService.AddProductToOrder f s O P q = (.error .invalidProductID, s)) ∧
    (O ≠ 0 → P ≠ 0 → q ≤ 0 →
      productService.AddProductToOrder f s O P q = (.error .quantityNotPositive, s)) ∧
    (O ≠ 0 → P ≠ 0 → 0 < q →
      failsWith ServiceError.isNotFound (productService.AddProductToOrder f s O P q).1
        = true) := by
  have hz : O = 0 → productService.AddProductToOrder f s O P q = (.error .invalidOrderID, s) := by
    intro hO
    unfold productService.AddProductToOrder
    rw [if_pos hO]
  have hzp : O ≠ 0 → P = 0 →
      productService.AddProductToOrder f s O P q = (.error .invalidProductID, s) := by
    intro hO hP
    unfold productService.AddProductToOrder
    rw [if_neg hO, if_pos hP]
  have hzq : O ≠ 0 → P ≠ 0 → q ≤ 0 →
      productService.AddProductToOrder f s O P q = (.error .quantityNotPositive, s) := by
    intro hO hP hq
    unfold productService.AddProductToOrder
    rw [if_neg hO, if_neg hP, if_pos hq]
  have hnf : O ≠ 0 → P ≠ 0 → 0 < q →
      failsWith ServiceError.isNotFound (productService.AddProductToOrder f s O P q).1 = true ∧
      (productService.AddProductToOrder f s O P q).2.db = s.db := by
    intro hO hP hq
    have hq' : ¬ q ≤ 0 := by omega
    cases hfo : f .orderGetByID
    swap
    · simp [productService.AddProductToOrder, orderGetByID_eq, hO, hP, hq', hfo,
        failsWith, ServiceError.isNotFound, Store.record]
    cases hfindo : s.db.orders.find? (fun o => o.ID == O && !o.Deleted) with
    | none =>
      rw [add_order_missing hO hP hq hfo hfindo]
      exact ⟨rfl, rfl⟩
    | some o =>
      have hpm : (productRepository.GetByID noFaults s P).1 = .error .recordNotFound := by
        rcases h with h | h
        · simp [orderGetByID_eq, noFaults, hfindo] at h
        · exact h
      have hfindp := (productGetByID_missing rfl hpm).2
      cases hfp : f .productGetByID
      · rw [add_product_missing hO hP hq hfo hfindo hfp hfindp]
        exact ⟨rfl, rfl⟩
      · simp [productService.AddProductToOrder, orderGetByID_eq,
          productGetByID_eq, hO, hP, hq', hfo, hfindo, hfp, failsWith,
          ServiceError.isNotFound, Store.record]
  have hall : (∃ e, (productService.AddProductToOrder f s O P q).1 = .error e) ∧
      (productService.AddProductToOrder f s O P q).2.db = s.db := by
    by_cases hO : O = 0
    · rw [hz hO]; exact ⟨⟨_, rfl⟩, rfl⟩
    · by_cases hP : P = 0
      · rw [hzp hO hP]; exact ⟨⟨_, rfl⟩, rfl⟩
      · by_cases hq : q ≤ 0
        · rw [hzq hO hP hq]; exact ⟨⟨_, rfl⟩, rfl⟩
        · obtain ⟨h1, h2⟩ := hnf hO hP (by omega)
          refine ⟨?_, h2⟩
          rcases hr : (productService.AddProductToOrder f s O P q).1 with e | u
          · exact ⟨e, rfl⟩
          · rw [hr] at h1; simp [failsWith] at h1
  exact ⟨hall.1, hall.2, hz, hzp, hzq, fun hO hP hq => (hnf hO hP hq).1⟩

/-- Witness of C8: order 5 does not exist in the example store; the call for
it fails with "order not found" and changes nothing. -/
theorem addProductToOrder_missing_witness :
    (orderRepository.GetByID noFaults exampleStore 5).1 = .error .recordNotFound ∧
    failsWith ServiceError.isNotFound
      (productService.AddProductToOrder noFaults exampleStore 5 1 4).1 = true ∧
    (productService.AddProductToOrder noFaults exampleStore 5 1 4).2.db = exampleStore.db ∧
    (productService.AddProductToOrder noFaults exampleStore 5 1 4).1 =
      .error (.orderNotFound .recordNotFound) :=
  ⟨rfl,
   (addProductToOrder_missing noFaults exampleStore 5 1 4 (.inl rfl)).2.2.2.2.2
     (by decide) (by decide) (by decide),
   (addProductToOrder_missing noFaults exampleStore 5 1 4 (.inl rfl)).2.1, rfl⟩

/-! ### `RemoveProductFromOrder` -/

theorem remove_eq {f : Faults} {s : Store} {O P : Nat} (hO : O ≠ 0) (hP : P ≠ 0)
    (hf : f .productRemoveProductFromOrder = false) :
    productService.RemoveProductFromOrder f s O P =
      (.ok (),
        { db := s.db.unlink O P, calls := s.calls ++ [.productRemoveProductFromOrder] }) := by
  simp [productService.RemoveProductFromOrder, productRepository.RemoveProductFromOrder, hO, hP,
    hf, Store.record, Store.withDB, DB.unlink]

theorem unlink_not_linked {d : DB} {O P : Nat} (h : ¬ d.linked O P) : d.unlink O P = d := by
  have hl : d.orderProducts.filter (fun a => !(a.OrderID == O && a.ProductID == P)) =
      d.orderProducts := by
    rw [List.filter_eq_self]
    intro a ha
    simp only [Bool.not_eq_true', Bool.and_eq_false_imp, beq_iff_eq, beq_eq_false_iff_ne]
    intro h1 h2
    exact h ⟨a, ha, h1, h2⟩
  unfold DB.unlink
  rw [hl]

/-- C9: in a reachable store, for every order `O` and product `P` that have a
join row, `RemoveProductFromOrder(O, P)` (the store not failing) returns no
error, leaves in `order_products` exactly the rows whose key is not `(O, P)`,
and leaves the products table, hence every stock, as it was. -/
theorem removeProductFromOrder_linked (s : Store) (O P : Nat) (hs : Reachable s)
    (h : s.db.linked O P) :
    (productService.RemoveProductFromOrder noFaults s O P).1 = .ok () ∧
    (∀ a, a ∈ (productService.RemoveProductFromOrder noFaults s O P).2.db.orderProducts ↔
      a ∈ s.db.orderProducts ∧ ¬ (a.OrderID = O ∧ a.ProductID = P)) ∧
    (productService.RemoveProductFromOrder noFaults s O P).2.db.products = s.db.products := by
  have hinv := Inv_of_reachable hs
  obtain ⟨a, ha, hk1, hk2⟩ := h
  have hids := hinv.2.2 a ha
  rw [remove_eq (hk1 ▸ hids.1) (hk2 ▸ hids.2) rfl]
  refine ⟨rfl, ?_, rfl⟩
  intro b
  simp only [DB.unlink, List.mem_filter, Bool.not_eq_true', Bool.and_eq_false_iff,
    beq_eq_false_iff_ne, ne_eq, not_and]
  constructor
  · rintro ⟨hb, hk⟩
    exact ⟨hb, fun h1 h2 => by rcases hk with hk | hk <;> contradiction⟩
  · rintro ⟨hb, hk⟩
    refine ⟨hb, ?_⟩
    by_cases h1 : b.OrderID = O
    · exact .inr (hk h1)
    · exact .inl h1

/-- Witness of C9 (scenario 3): after linking 4 units of a stock-10 product,
the removal empties `order_products` and the stock stays 6. -/
theorem removeProductFromOrder_linked_witness :
    ((productService.RemoveProductFromOrder noFaults exampleLinked 1 1).1 = .ok () ∧
     (∀ a, a ∈ (productService.RemoveProductFromOrder noFaults exampleLinked 1 1).2.db.orderProducts
        ↔ a ∈ exampleLinked.db.orderProducts ∧ ¬ (a.OrderID = 1 ∧ a.ProductID = 1)) ∧
     (productService.RemoveProductFromOrder noFaults exampleLinked 1 1).2.db.products =
       exampleLinked.db.products) ∧
    (productService.RemoveProductFromOrder noFaults exampleLinked 1 1).2.db.orderProducts = [] ∧
    stockOf exampleLinked 1 = some 6 ∧
    stockOf (productService.RemoveProductFromOrder noFaults exampleLinked 1 1).2 1 = some 6 :=
  ⟨removeProductFromOrder_linked exampleLinked 1 1 ⟨_, rfl⟩ (by unfold DB.linked; decide),
   by decide, by decide, by decide⟩

/-- C10, as stated, fails: on the empty store, where nothing is linked,
`RemoveProductFromOrder(1, 1)` returns no error. -/
theorem removeProductFromOrder_absent_ok :
    ¬ Store.empty.db.linked 1 1 ∧
    (productService.RemoveProductFromOrder noFaults Store.empty 1 1).1 = .ok () :=
  ⟨by unfold DB.linked; decide, rfl⟩

/-- C10, amended: for every non-zero order id and product id with no join
row between them, `RemoveProductFromOrder` (the store not failing) returns no
error and leaves the tables as they were, and it does so again on every
repeated call: after any number `n` of such calls the next one still returns
no error on unchanged tables. -/
theorem removeProductFromOrder_absent (s : Store) (O P : Nat) (n : Nat)
    (hO : O ≠ 0) (hP : P ≠ 0) (h : ¬ s.db.linked O P) :
    (productService.RemoveProductFromOrder noFaults
      (Nat.iterate (fun t => (productService.RemoveProductFromOrder noFaults t O P).2) n s)
      O P).1 = .ok () ∧
    (productService.RemoveProductFromOrder noFaults
      (Nat.iterate (fun t => (productService.RemoveProductFromOrder noFaults t O P).2) n s)
      O P).2.db = s.db := by
  have key : ∀ t : Store, t.db = s.db →
      (productService.RemoveProductFromOrder noFaults t O P).1 = .ok () ∧
      (productService.RemoveProductFromOrder noFaults t O P).2.db = s.db := by
    intro t ht
    rw [remove_eq hO hP rfl]
    refine ⟨rfl, ?_⟩
    show t.db.unlink O P = s.db
    rw [unlink_not_linked (ht ▸ h)]
    exact ht
  have hiter : ∀ m : Nat,
      (Nat.iterate (fun t => (productService.RemoveProductFromOrder noFaults t O P).2) m s).db
        = s.db := by
    intro m
    induction m with
    | zero => rfl
    | succ k ih =>
      rw [Function.iterate_succ_apply']
      exact (key _ ih).2
  exact key _ (hiter n)

/-- Witness of C10: two earlier calls on the example store, then a third. -/
theorem removeProductFromOrder_absent_witness :
    (productService.RemoveProductFromOrder noFaults
      (Nat.iterate (fun t => (productService.RemoveProductFromOrder noFaults t 1 1).2) 2
        exampleStore) 1 1).1 = .ok () ∧
    (productService.RemoveProductFromOrder noFaults
      (Nat.iterate (fun t => (productService.RemoveProductFromOrder noFaults t 1 1).2) 2
        exampleStore) 1 1).2.db = exampleStore.db :=
  removeProductFromOrder_absent exampleStore 1 1 2 (by decide) (by decide)
    (by unfold DB.linked; decide)


/-! ### Calls one after the other, and calls interleaved -/

theorem runAlone_eq (f : Faults) (c : AddCall) (s : Store) :
    c.runAlone f s =
      (.returned (productService.AddProductToOrder f s c.orderID c.productID c.quantity).1,
        (productService.AddProductToOrder f s c.orderID c.productID c.quantity).2) := by
  unfold AddCall.runAlone productService.AddProductToOrder
  by_cases hO : c.orderID = 0
  · simp [AddCall.step, hO]
  by_cases hP : c.productID = 0
  · simp [AddCall.step, hO, hP]
  by_cases hq : c.quantity ≤ 0
  · simp [AddCall.step, hO, hP, hq]
  rcases h1 : orderRepository.GetByID f s c.orderID with ⟨e | o, s1⟩
  · simp [AddCall.step, hO, hP, hq, h1]
  rcases h2 : productRepository.GetByID f s1 c.productID with ⟨e | product, s2⟩
  · simp [AddCall.step, hO, hP, hq, h1, h2]
  by_cases hst : product.Stock < c.quantity
  · simp [AddCall.step, hO, hP, hq, h1, h2, hst]
  rcases h3 : productRepository.AddProductToOrder f s2 c.orderID c.productID c.quantity
    product.Price with ⟨e | u, s3⟩
  · simp [AddCall.step, hO, hP, hq, h1, h2, hst, h3]
  rcases h4 : productRepository.Update f s3
    { product with Stock := product.Stock - c.quantity } with ⟨e | u, s4⟩
  · simp [AddCall.step, hO, hP, hq, h1, h2, hst, h3, h4]
  · simp [AddCall.step, hO, hP, hq, h1, h2, hst, h3, h4]

theorem add_seq_step {s : Store} {P : Nat} {p : Product} (c : AddCall)
    (hfind : s.db.products.find? (fun x => x.ID == P && !x.Deleted) = some p)
    (hc : c.productID = P) :
    ((productService.AddProductToOrder noFaults s c.orderID c.productID c.quantity).1 = .ok () ∧
      c.orderID ≠ 0 ∧ P ≠ 0 ∧ 0 < c.quantity ∧ c.quantity ≤ p.Stock ∧
      (productService.AddProductToOrder noFaults s c.orderID c.productID c.quantity).2.db =
        (s.db.link c.orderID P c.quantity p.Price).put
          { p with Stock := p.Stock - c.quantity }) ∨
    ((∃ e, (productService.AddProductToOrder noFaults s c.orderID c.productID c.quantity).1 =
        .error e) ∧
      (productService.AddProductToOrder noFaults s c.orderID c.productID c.quantity).2.db =
        s.db) := by
  subst hc
  rcases AddProductToOrder_cases noFaults s c.orderID c.productID c.quantity _ rfl with
    ⟨e, he, hdb⟩ | ⟨product, hfind', hO, hP, hq, hst, -, hcase⟩
  · exact .inr ⟨⟨e, he⟩, hdb⟩
  · rw [hfind] at hfind'
    cases hfind'
    rcases hcase with ⟨-, hok, hdb⟩ | ⟨hfu, -, -⟩
    · exact .inl ⟨hok, hO, hP, hq, hst, hdb⟩
    · cases hfu

theorem seq_main (P : Nat) (calls : List AddCall) :
    ∀ (s : Store) (p : Product), s.db.Inv →
      s.db.products.find? (fun x => x.ID == P && !x.Deleted) = some p →
      (∀ c ∈ calls, c.productID = P) →
      ∃ p', (runAdds noFaults s calls).db.products.find?
            (fun x => x.ID == P && !x.Deleted) = some p' ∧
        p'.Stock = p.Stock - succeededQuantity noFaults s calls ∧
        (runAdds noFaults s calls).db.Inv ∧
        (runAdds noFaults s calls).db.orders = s.db.orders := by
  induction calls with
  | nil =>
    intro s p hinv hfind _
    exact ⟨p, hfind, by simp [succeededQuantity], hinv, rfl⟩
  | cons c rest ih =>
    intro s p hinv hfind hP
    have hc : c.productID = P := hP c (List.mem_cons_self _ _)
    have hrest : ∀ c' ∈ rest, c'.productID = P := fun c' h' => hP c' (List.mem_cons_of_mem _ h')
    have hdel : p.Deleted = false := by
      have h2 := (find_mem hfind).2
      simp only [Bool.and_eq_true, beq_iff_eq, Bool.not_eq_true'] at h2
      exact h2.2
    have hmem := (find_mem hfind).1
    rcases add_seq_step c hfind hc with ⟨hok, hO, hP0, hq, hst, hdb⟩ | ⟨⟨e, he⟩, hdb⟩
    · have hinv' : (productService.AddProductToOrder noFaults s c.orderID c.productID
          c.quantity).2.db.Inv := by
        rw [hdb]
        exact Inv_put (Inv_link hinv hO hP0 _ _) { p with Stock := p.Stock - c.quantity }
          (show (0:Int) ≤ p.Stock - c.quantity by omega) (hinv.1 p hmem).2
      have hfind' : (productService.AddProductToOrder noFaults s c.orderID c.productID
          c.quantity).2.db.products.find? (fun x => x.ID == P && !x.Deleted) =
          some { p with Stock := p.Stock - c.quantity } := by
        rw [hdb]
        exact find_put hfind rfl hdel
      obtain ⟨p', h1, h2, h3, h4⟩ := ih _ _ hinv' hfind' hrest
      refine ⟨p', h1, ?_, h3, ?_⟩
      · rw [h2]
        simp only [succeededQuantity, hok]
        ring
      · show (runAdds noFaults (productService.AddProductToOrder noFaults s c.orderID
          c.productID c.quantity).2 rest).db.orders = s.db.orders
        rw [h4, hdb]
        rfl
    · have hinv' : (productService.AddProductToOrder noFaults s c.orderID c.productID
          c.quantity).2.db.Inv := by
        rw [hdb]; exact hinv
      have hfind' : (productService.AddProductToOrder noFaults s c.orderID c.productID
          c.quantity).2.db.products.find? (fun x => x.ID == P && !x.Deleted) = some p := by
        rw [hdb]; exact hfind
      obtain ⟨p', h1, h2, h3, h4⟩ := ih _ _ hinv' hfind' hrest
      refine ⟨p', h1, ?_, h3, ?_⟩
      · rw [h2]
        simp only [succeededQuantity, he]
        ring
      · show (runAdds noFaults (productService.AddProductToOrder noFaults s c.orderID
          c.productID c.quantity).2 rest).db.orders = s.db.orders
        rw [h4, hdb]

/-- C5, as stated, fails: two calls of 6 units each, served at the same time
against a product with stock 10, can take their statements in turn (both
read stock 10, both insert their join row, both write stock 4).  Then both
return no error, the quantities handed out sum to 12 > 10, and the final
stock is 4. -/
theorem interleaved_oversell :
    stockOf exampleTwoOrders 1 = some 10 ∧
    (interleave noFaults [⟨1, 1, 6⟩, ⟨2, 1, 6⟩] exampleTwoOrders
        [0, 1, 0, 1, 0, 1, 0, 1]).phases = [.returned (.ok ()), .returned (.ok ())] ∧
    ¬ (Flight.succeededQuantity [⟨1, 1, 6⟩, ⟨2, 1, 6⟩]
        (interleave noFaults [⟨1, 1, 6⟩, ⟨2, 1, 6⟩] exampleTwoOrders
          [0, 1, 0, 1, 0, 1, 0, 1]).phases ≤ 10) ∧
    stockOf (interleave noFaults [⟨1, 1, 6⟩, ⟨2, 1, 6⟩] exampleTwoOrders
        [0, 1, 0, 1, 0, 1, 0, 1]).store 1 = some 4 :=
  ⟨by decide, rfl, by decide, by decide⟩

/-- C5, amended: for a product `P` of a reachable store, read with stock `S`,
and any number of `AddProductToOrder` calls on `P` for existing orders that
are executed one at a time (each call returns before the next starts, the
store not failing), the quantities of the calls that succeed sum to at most
`S`, the stock left is `S` minus that sum, and every call that asks for more
than the stock left at its turn returns the "insufficient stock" error. -/
theorem sequential_no_oversell (s : Store) (P : Nat) (p : Product) (calls : List AddCall)
    (hs : Reachable s)
    (hp : (productRepository.GetByID noFaults s P).1 = .ok p)
    (hP : ∀ c ∈ calls, c.productID = P)
    (ho : ∀ c ∈ calls, ∃ o, (orderRepository.GetByID noFaults s c.orderID).1 = .ok o) :
    succeededQuantity noFaults s calls ≤ p.Stock ∧
    stockOf (runAdds noFaults s calls) P =
      some (p.Stock - succeededQuantity noFaults s calls) ∧
    (∀ pre c post, calls = pre ++ c :: post →
      p.Stock - succeededQuantity noFaults s pre < c.quantity →
      (productService.AddProductToOrder noFaults (runAdds noFaults s pre)
          c.orderID c.productID c.quantity).1 =
        .error (.insufficientStock (p.Stock - succeededQuantity noFaults s pre) c.quantity)) := by
  have hinv := Inv_of_reachable hs
  obtain ⟨-, hfind⟩ := productGetByID_ok hp
  obtain ⟨p', h1, h2, h3, -⟩ := seq_main P calls s p hinv hfind hP
  refine ⟨?_, ?_, ?_⟩
  · have := (h3.1 p' (find_mem h1).1).1
    omega
  · rw [stockOf_eq (getByID_of_find rfl h1), h2]
  · intro pre c post hsplit hlt
    have hcmem : c ∈ calls := by rw [hsplit]; simp
    have hPpre : ∀ c' ∈ pre, c'.productID = P := by
      intro c' h'
      exact hP c' (by rw [hsplit]; exact List.mem_append_left _ h')
    obtain ⟨q', g1, g2, g3, g4⟩ := seq_main P pre s p hinv hfind hPpre
    obtain ⟨o, hoc⟩ := ho c hcmem
    obtain ⟨-, hfo⟩ := orderGetByID_ok hoc
    have hfo' : (runAdds noFaults s pre).db.orders.find?
        (fun o => o.ID == c.orderID && !o.Deleted) = some o := by rw [g4]; exact hfo
    have hO : c.orderID ≠ 0 := by
      have hm := find_mem hfo
      have h2 := hm.2
      simp only [Bool.and_eq_true, beq_iff_eq] at h2
      rw [← h2.1]; exact hinv.2.1 o hm.1
    have hmq := find_mem g1
    have hP0 : c.productID ≠ 0 := by
      have h2 := hmq.2
      simp only [Bool.and_eq_true, beq_iff_eq] at h2
      rw [hP c hcmem, ← h2.1]; exact (g3.1 q' hmq.1).2
    have hq0 : 0 ≤ q'.Stock := (g3.1 q' hmq.1).1
    have g1' : (runAdds noFaults s pre).db.products.find?
        (fun x => x.ID == c.productID && !x.Deleted) = some q' := by
      rw [hP c hcmem]; exact g1
    rw [add_insufficient hO hP0 (by omega) rfl hfo' rfl g1' (by omega), g2]

/-- Witness of C5 (scenario 2, the calls one after the other): stock 10 and
two calls of 6 units: the first succeeds, the second returns "insufficient
stock: available 4, requested 6", and the final stock is 4. -/
theorem sequential_no_oversell_witness :
    succeededQuantity noFaults exampleTwoOrders [⟨1, 1, 6⟩, ⟨2, 1, 6⟩] ≤ 10 ∧
    succeededQuantity noFaults exampleTwoOrders [⟨1, 1, 6⟩, ⟨2, 1, 6⟩] = 6 ∧
    stockOf (runAdds noFaults exampleTwoOrders [⟨1, 1, 6⟩, ⟨2, 1, 6⟩]) 1 = some 4 ∧
    (productService.AddProductToOrder noFaults
        (runAdds noFaults exampleTwoOrders [⟨1, 1, 6⟩]) 2 1 6).1 =
      .error (.insufficientStock 4 6) := by
  have h := sequential_no_oversell exampleTwoOrders 1 ⟨1, "P", "", 5, 10, false⟩
    [⟨1, 1, 6⟩, ⟨2, 1, 6⟩] ⟨_, rfl⟩ rfl (by decide)
    (by
      intro c hc
      simp only [List.mem_cons, List.mem_singleton, List.not_mem_nil, or_false] at hc
      rcases hc with rfl | rfl
      · exact ⟨⟨1, "order two", false⟩, rfl⟩
      · exact ⟨⟨2, "order three", false⟩, rfl⟩)
  exact ⟨h.1, by decide, h.2.1, h.2.2 [⟨1, 1, 6⟩] ⟨2, 1, 6⟩ [] rfl (by decide)⟩


/-! ## Queries: the claims on filters and listings -/

theorem mem_findProducts {d : DB} {query : List (Product → Bool)} {p : Product} :
    p ∈ d.findProducts query ↔
      p ∈ d.products ∧ p.Deleted = false ∧ ∀ c ∈ query, c p = true := by
  simp [DB.findProducts, List.mem_filter, List.all_eq_true]

theorem filterProducts_ok (s : Store) (name description : String)
    (minPrice maxPrice : Option Rat) (minStock maxStock : Option Int) :
    ∃ query : List (Product → Bool),
      productService.FilterProducts noFaults s name description minPrice maxPrice minStock
        maxStock = (.ok (s.db.findProducts query), s.record .productFilterProducts) ∧
      ∀ p : Product, (∀ c ∈ query, c p = true) ↔
        ((name ≠ "" → likeContains name p.Name = true) ∧
         (description ≠ "" → likeContains description p.Description = true) ∧
         (∀ m, minPrice = some m → m ≤ p.Price) ∧ (∀ m, maxPrice = some m → p.Price ≤ m) ∧
         (∀ m, minStock = some m → m ≤ p.Stock) ∧ (∀ m, maxStock = some m → p.Stock ≤ m)) := by
  refine ⟨_, rfl, ?_⟩
  intro p
  by_cases hn : name = "" <;> by_cases hd : description = "" <;>
    cases minPrice <;> cases maxPrice <;> cases minStock <;> cases maxStock <;>
    simp [Where, hn, hd]

theorem getAllProducts_ok (s : Store) :
    productService.GetAllProducts noFaults s =
      (.ok (s.db.findProducts []), s.record .productGetAll) := rfl

theorem getProductsByName_ok (s : Store) (pattern : String) :
    productService.GetProductsByName noFaults s pattern =
      (.ok (s.db.findProducts [fun p => likeContains pattern p.Name]),
        s.record .productGetByCondition) := rfl

/-- C11 (filter conjunction): for every store and every combination of
supplied fields, `FilterProducts` (the store not failing) returns a list whose
members are exactly the products of the table that are not soft-deleted and
satisfy the predicate of every supplied field: the `LIKE` match of
`%name%` on the name when `name` is not empty, the same for the description,
`price >= minPrice`, `price <= maxPrice`, `stock >= minStock` and
`stock <= maxStock` for the bounds that are not nil.  A field that is not
supplied imposes nothing. -/
theorem filterProducts_conjunction (s : Store) (name description : String)
    (minPrice maxPrice : Option Rat) (minStock maxStock : Option Int) :
    ∃ l, (productService.FilterProducts noFaults s name description minPrice maxPrice minStock
        maxStock).1 = .ok l ∧
      ∀ p, p ∈ l ↔
        (p ∈ s.db.products ∧ p.Deleted = false ∧
         (name ≠ "" → likeContains name p.Name = true) ∧
         (description ≠ "" → likeContains description p.Description = true) ∧
         (∀ m, minPrice = some m → m ≤ p.Price) ∧ (∀ m, maxPrice = some m → p.Price ≤ m) ∧
         (∀ m, minStock = some m → m ≤ p.Stock) ∧ (∀ m, maxStock = some m → p.Stock ≤ m)) := by
  obtain ⟨query, heq, hq⟩ := filterProducts_ok s name description minPrice maxPrice minStock
    maxStock
  refine ⟨s.db.findProducts query, by rw [heq], ?_⟩
  intro p
  rw [mem_findProducts, hq p]

/-- Witness of C11 (scenario 4): the filter `minPrice 3, maxPrice 10,
minStock 1` over products priced 2, 5 and 7 with stocks 5, 0 and 3 returns
only the third. -/
theorem filterProducts_conjunction_witness :
    (∃ l, (productService.FilterProducts noFaults exampleThreeProducts "" "" (some 3) (some 10)
        (some 1) none).1 = .ok l ∧
      ∀ p, p ∈ l ↔
        (p ∈ exampleThreeProducts.db.products ∧ p.Deleted = false ∧
         (("" : String) ≠ "" → likeContains "" p.Name = true) ∧
         (("" : String) ≠ "" → likeContains "" p.Description = true) ∧
         (∀ m, (some 3 : Option Rat) = some m → m ≤ p.Price) ∧
         (∀ m, (some 10 : Option Rat) = some m → p.Price ≤ m) ∧
         (∀ m, (some 1 : Option Int) = some m → m ≤ p.Stock) ∧
         (∀ m, (none : Option Int) = some m → p.Stock ≤ m))) ∧
    (productService.FilterProducts noFaults exampleThreeProducts "" "" (some 3) (some 10)
        (some 1) none).1 = .ok [⟨3, "C", "", 7, 3, false⟩] :=
  ⟨filterProducts_conjunction exampleThreeProducts "" "" (some 3) (some 10) (some 1) none,
   rfl⟩

/-- C12 (filter identity law): for every store (the store not failing),
`FilterProducts` with no field supplied returns the list `GetAllProducts`
returns, and the `ListProducts` handler answers a query with no field
supplied, like a query that does not bind, with status 200 and that same
list. -/
theorem filterProducts_identity (s : Store) :
    ∃ l, (productService.GetAllProducts noFaults s).1 = .ok l ∧
      (productService.FilterProducts noFaults s "" "" none none none none).1 = .ok l ∧
      (ProductHandler.ListProducts noFaults s
          (some { Name := "", Description := "", MinPrice := none, MaxPrice := none,
                  MinStock := none, MaxStock := none })).1 =
        .json 200 (listProductsResponse l) ∧
      (ProductHandler.ListProducts noFaults s none).1 = .json 200 (listProductsResponse l) :=
  ⟨s.db.findProducts [], rfl, rfl, rfl, rfl⟩

/-! ### `LIKE` and substrings -/

theorem likeTokens_plain (s : List Char)
    (hplain : ∀ c ∈ s, c ≠ '%' ∧ c ≠ '_' ∧ c ≠ likeEscape) :
    likeTokens (s ++ ['%']) = s.map LikeToken.literal ++ [LikeToken.anyRun] := by
  induction s with
  | nil => rfl
  | cons c s ih =>
    have hc := hplain c (List.mem_cons_self _ _)
    have hs : ∀ c' ∈ s, c' ≠ '%' ∧ c' ≠ '_' ∧ c' ≠ likeEscape :=
      fun c' h' => hplain c' (List.mem_cons_of_mem _ h')
    have step : ∀ r : List Char, r ≠ [] →
        likeTokens (c :: r) = LikeToken.literal c :: likeTokens r := by
      intro r hr
      cases r with
      | nil => exact absurd rfl hr
      | cons e rest => rw [likeTokens, if_neg hc.1, if_neg hc.2.1, if_neg hc.2.2]
    rw [List.cons_append, step _ (by simp), ih hs]
    rfl

theorem likeTokens_percent (r : List Char) (hr : r ≠ []) :
    likeTokens ('%' :: r) = LikeToken.anyRun :: likeTokens r := by
  cases r with
  | nil => exact absurd rfl hr
  | cons e rest => rw [likeTokens, if_pos rfl]

theorem tokensMatch_literals (s t : List Char) :
    tokensMatch (s.map LikeToken.literal ++ [LikeToken.anyRun]) t = true ↔ s <+: t := by
  induction s generalizing t with
  | nil =>
    simp only [List.map_nil, List.nil_append, List.nil_prefix, iff_true]
    rw [tokensMatch, List.any_eq_true]
    exact ⟨[], by simp, by rw [tokensMatch]; rfl⟩
  | cons c s ih =>
    cases t with
    | nil =>
      rw [List.map_cons, List.cons_append, tokensMatch]
      simp
    | cons d rest =>
      rw [List.map_cons, List.cons_append, tokensMatch, List.cons_prefix_cons,
        Bool.and_eq_true, beq_iff_eq, ih rest]

theorem likeContains_plain (s t : String)
    (hplain : ∀ c ∈ s.data, c ≠ '%' ∧ c ≠ '_' ∧ c ≠ likeEscape) :
    likeContains s t = true ↔ s.data <:+: t.data := by
  unfold likeContains likeMatch
  rw [likeTokens_percent _ (by simp), likeTokens_plain _ hplain, tokensMatch, List.any_eq_true,
    List.infix_iff_prefix_suffix]
  constructor
  · rintro ⟨r, hr, hm⟩
    exact ⟨r, (tokensMatch_literals s.data r).1 hm, (List.mem_tails _ _).1 hr⟩
  · rintro ⟨r, hp, hr⟩
    exact ⟨r, (List.mem_tails _ _).2 hr, (tokensMatch_literals s.data r).2 hp⟩

/-- C14, as stated, fails: the name filter `_` returns the product named
`abc`, whose name does not contain the character `_`; so does
`GetProductsByName("_")`. -/
theorem nameFilter_wildcard :
    (productService.FilterProducts noFaults exampleNamed "_" "" none none none none).1 =
      .ok [⟨1, "abc", "", 1, 1, false⟩] ∧
    (productService.GetProductsByName noFaults exampleNamed "_").1 =
      .ok [⟨1, "abc", "", 1, 1, false⟩] ∧
    ¬ ("_".data <:+: "abc".data) :=
  ⟨rfl, rfl, by decide⟩

/-- C14, amended: for every non-empty string `s` that contains none of the
characters `%`, `_` and backslash, `FilterProducts` with `name = s` and no
other field, and `GetProductsByName(s)`, return (the store not failing) the
same list, whose members are exactly the products that are not soft-deleted
and whose name contains `s` as a contiguous substring. -/
theorem nameFilter_substring (st : Store) (s : String) (hs : s ≠ "")
    (hplain : ∀ c ∈ s.data, c ≠ '%' ∧ c ≠ '_' ∧ c ≠ likeEscape) :
    ∃ l, (productService.FilterProducts noFaults st s "" none none none none).1 = .ok l ∧
      (productService.GetProductsByName noFaults st s).1 = .ok l ∧
      ∀ p, p ∈ l ↔ (p ∈ st.db.products ∧ p.Deleted = false ∧ s.data <:+: p.Name.data) := by
  refine ⟨st.db.findProducts [fun p => likeContains s p.Name], ?_, ?_, ?_⟩
  · simp [productService.FilterProducts, productRepository.FilterProducts, noFaults, hs, Where]
  · rw [getProductsByName_ok]
  · intro p
    rw [mem_findProducts]
    simp only [List.mem_singleton, forall_eq, likeContains_plain s p.Name hplain]

/-- Witness of C14: the name filter `b` on the store with the product `abc`. -/
theorem nameFilter_substring_witness :
    (∃ l, (productService.FilterProducts noFaults exampleNamed "b" "" none none none none).1 =
        .ok l ∧
      (productService.GetProductsByName noFaults exampleNamed "b").1 = .ok l ∧
      ∀ p, p ∈ l ↔
        (p ∈ exampleNamed.db.products ∧ p.Deleted = false ∧ "b".data <:+: p.Name.data)) ∧
    (productService.FilterProducts noFaults exampleNamed "b" "" none none none none).1 =
      .ok [⟨1, "abc", "", 1, 1, false⟩] :=
  ⟨nameFilter_substring exampleNamed "b" (by decide) (by decide), rfl⟩

/-! ## Identifiers are fresh and unique -/

theorem Fresh_products_map {d : DB} (h : d.Fresh) (g : Product → Product)
    (hg : ∀ p, (g p).ID = p.ID) : ({ d with products := d.products.map g } : DB).Fresh := by
  have hmap : (d.products.map g).map (fun p => p.ID) = d.products.map (fun p => p.ID) := by
    rw [List.map_map]
    exact List.map_congr_left (fun p _ => hg p)
  refine ⟨by rw [hmap]; exact h.1, ?_, h.2.2.1, h.2.2.2⟩
  intro p hp
  obtain ⟨q, hq, rfl⟩ := List.mem_map.1 hp
  rw [hg q]
  exact h.2.1 q hq

theorem Fresh_orders_map {d : DB} (h : d.Fresh) (g : Order → Order)
    (hg : ∀ o, (g o).ID = o.ID) : ({ d with orders := d.orders.map g } : DB).Fresh := by
  have hmap : (d.orders.map g).map (fun o => o.ID) = d.orders.map (fun o => o.ID) := by
    rw [List.map_map]
    exact List.map_congr_left (fun o _ => hg o)
  refine ⟨h.1, h.2.1, by rw [hmap]; exact h.2.2.1, ?_⟩
  intro o ho
  obtain ⟨q, hq, rfl⟩ := List.mem_map.1 ho
  rw [hg q]
  exact h.2.2.2 q hq

theorem Fresh_orderProducts {d : DB} (h : d.Fresh) (l : List OrderProduct) :
    ({ d with orderProducts := l } : DB).Fresh := h

theorem Fresh_product_append {d : DB} (h : d.Fresh) (row : Product)
    (hrow : row.ID = d.productSeq + 1) :
    (d.addProduct row).Fresh := by
  refine ⟨?_, ?_, h.2.2.1, h.2.2.2⟩
  · show List.Pairwise (fun a b => a < b) ((d.products ++ [row]).map (fun p => p.ID))
    rw [List.map_append, List.pairwise_append]
    refine ⟨h.1, by simp, ?_⟩
    intro a ha b hb
    obtain ⟨p, hp, rfl⟩ := List.mem_map.1 ha
    simp only [List.map_cons, List.map_nil, List.mem_singleton] at hb
    have := h.2.1 p hp
    omega
  · intro p hp
    rcases List.mem_append.1 (show p ∈ d.products ++ [row] from hp) with hp | hp
    · have := h.2.1 p hp
      show p.ID ≤ d.productSeq + 1
      omega
    · simp only [List.mem_singleton] at hp
      subst hp
      show p.ID ≤ d.productSeq + 1
      omega

theorem Fresh_product_bump {d : DB} (h : d.Fresh) :
    ({ d with productSeq := d.productSeq + 1 } : DB).Fresh :=
  ⟨h.1, fun p hp => Nat.le_succ_of_le (h.2.1 p hp), h.2.2.1, h.2.2.2⟩

theorem Fresh_order_append {d : DB} (h : d.Fresh) (row : Order)
    (hrow : row.ID = d.orderSeq + 1) :
    (d.addOrder row).Fresh := by
  refine ⟨h.1, h.2.1, ?_, ?_⟩
  · show List.Pairwise (fun a b => a < b) ((d.orders ++ [row]).map (fun o => o.ID))
    rw [List.map_append, List.pairwise_append]
    refine ⟨h.2.2.1, by simp, ?_⟩
    intro a ha b hb
    obtain ⟨p, hp, rfl⟩ := List.mem_map.1 ha
    simp only [List.map_cons, List.map_nil, List.mem_singleton] at hb
    have := h.2.2.2 p hp
    omega
  · intro p hp
    rcases List.mem_append.1 (show p ∈ d.orders ++ [row] from hp) with hp | hp
    · have := h.2.2.2 p hp
      show p.ID ≤ d.orderSeq + 1
      omega
    · simp only [List.mem_singleton] at hp
      subst hp
      show p.ID ≤ d.orderSeq + 1
      omega

theorem Fresh_order_bump {d : DB} (h : d.Fresh) :
    ({ d with orderSeq := d.orderSeq + 1 } : DB).Fresh :=
  ⟨h.1, h.2.1, h.2.2.1, fun o ho => Nat.le_succ_of_le (h.2.2.2 o ho)⟩

theorem product_create_zero (f : Faults) (s : Store) (product : Product)
    (h0 : product.ID = 0) :
    productRepository.Create f s product =
      if f .productCreate then (.error .failure, s.record .productCreate)
      else if s.db.products.any (fun p => p.ID == s.db.productSeq + 1) then
        (.error .duplicateKey,
          { db := { s.db with productSeq := s.db.productSeq + 1 },
            calls := s.calls ++ [.productCreate] })
      else
        (.ok { product with ID := s.db.productSeq + 1 },
          { db := s.db.addProduct { product with ID := s.db.productSeq + 1 },
            calls := s.calls ++ [.productCreate] }) := by
  unfold productRepository.Create
  simp only [h0, if_true, Store.record, Store.withDB, DB.addProduct]

theorem order_create_zero (f : Faults) (s : Store) (order : Order) (h0 : order.ID = 0) :
    orderRepository.Create f s order =
      if f .orderCreate then (.error .failure, s.record .orderCreate)
      else if s.db.orders.any (fun o => o.ID == s.db.orderSeq + 1) then
        (.error .duplicateKey,
          { db := { s.db with orderSeq := s.db.orderSeq + 1 },
            calls := s.calls ++ [.orderCreate] })
      else
        (.ok { order with ID := s.db.orderSeq + 1 },
          { db := s.db.addOrder { order with ID := s.db.orderSeq + 1 },
            calls := s.calls ++ [.orderCreate] }) := by
  unfold orderRepository.Create
  simp only [h0, if_true, Store.record, Store.withDB, DB.addOrder]

theorem Fresh_createProduct (f : Faults) (s : Store) (n d : String) (p : Rat) (k : Int)
    (h : s.db.Fresh) : (productService.CreateProduct f s n d p k).2.db.Fresh := by
  unfold productService.CreateProduct
  rw [product_create_zero f s _ rfl]
  split_ifs
  all_goals first
    | exact h
    | exact Fresh_product_bump h
    | exact Fresh_product_append h
        { ID := s.db.productSeq + 1, Name := n, Description := d, Price := p, Stock := k,
          Deleted := false } rfl

theorem Fresh_createOrder (f : Faults) (s : Store) (d : String)
    (h : s.db.Fresh) : (orderService.CreateOrder f s d).2.db.Fresh := by
  unfold orderService.CreateOrder
  rw [order_create_zero f s _ rfl]
  split_ifs
  all_goals first
    | exact h
    | exact Fresh_order_bump h
    | exact Fresh_order_append h
        { ID := s.db.orderSeq + 1, Description := d, Deleted := false } rfl

theorem Fresh_put {d : DB} (h : d.Fresh) (product : Product) : (d.put product).Fresh := by
  have key : ∀ p : Product, (if p.ID = product.ID then product else p).ID = p.ID := by
    intro p
    split_ifs with hp
    · exact hp.symm
    · rfl
  exact Fresh_products_map h _ key

theorem Fresh_addProductToOrder (f : Faults) (s : Store) (o p : Nat) (q : Int)
    (h : s.db.Fresh) : (productService.AddProductToOrder f s o p q).2.db.Fresh := by
  rcases AddProductToOrder_cases f s o p q _ rfl with ⟨e, -, hdb⟩ | ⟨product, -, -, -, -,
    -, -, hcase⟩
  · rw [hdb]; exact h
  · rcases hcase with ⟨-, -, hdb⟩ | ⟨-, -, hdb⟩
    · rw [hdb]
      exact Fresh_put (Fresh_orderProducts h _) _
    · rw [hdb]
      exact Fresh_orderProducts h _

theorem Fresh_updateProduct (f : Faults) (s : Store) (i : Nat) (n d : String) (p : Rat) (k : Int)
    (h : s.db.Fresh) : (productService.UpdateProduct f s i n d p k).2.db.Fresh := by
  unfold productService.UpdateProduct
  by_cases h1 : i = 0
  · simpa [h1] using h
  by_cases h2 : n = ""
  · simpa [h1, h2] using h
  by_cases h3 : p < 0
  · simpa [h1, h2, h3] using h
  by_cases h4 : k < 0
  · simpa [h1, h2, h3, h4] using h
  simp only [h1, h2, h3, h4, if_false, productGetByID_eq]
  cases hf : f .productGetByID
  swap
  · simpa [Store.record] using h
  cases hfind : s.db.products.find? (fun p => p.ID == i && !p.Deleted) with
  | none => simpa [Store.record] using h
  | some product =>
    simp only [Bool.false_eq_true, if_false]
    have hmem := find_mem hfind
    have hany : s.db.products.any (fun p => p.ID == product.ID) = true := by
      rw [List.any_eq_true]
      exact ⟨product, hmem.1, by simp⟩
    unfold productRepository.Update
    cases hfu : f .productUpdate
    · simp only [Bool.false_eq_true, if_false, Store.withDB, Store.record, hany, if_true]
      exact Fresh_put h { product with Name := n, Description := d, Price := p, Stock := k }
    · simpa [Store.record] using h

theorem Fresh_deleteProduct (f : Faults) (s : Store) (i : Nat)
    (h : s.db.Fresh) : (productService.DeleteProduct f s i).2.db.Fresh := by
  unfold productService.DeleteProduct productRepository.Delete
  dsimp only [Store.record, Store.withDB]
  split_ifs
  · exact h
  · exact h
  · apply Fresh_products_map h
    intro p
    split_ifs <;> rfl

theorem Fresh_removeProductFromOrder (f : Faults) (s : Store) (o p : Nat)
    (h : s.db.Fresh) : (productService.RemoveProductFromOrder f s o p).2.db.Fresh := by
  unfold productService.RemoveProductFromOrder productRepository.RemoveProductFromOrder
  dsimp only [Store.record, Store.withDB]
  split_ifs
  · exact h
  · exact h
  · exact h
  · exact Fresh_orderProducts h _

theorem Fresh_updateOrder (f : Faults) (s : Store) (i : Nat) (d : String)
    (h : s.db.Fresh) : (orderService.UpdateOrder f s i d).2.db.Fresh := by
  unfold orderService.UpdateOrder
  by_cases h1 : i = 0
  · simpa [h1] using h
  by_cases h2 : d = ""
  · simpa [h1, h2] using h
  simp only [h1, h2, if_false, orderGetByID_eq]
  cases hf : f .orderGetByID
  swap
  · simpa [Store.record] using h
  cases hfind : s.db.orders.find? (fun o => o.ID == i && !o.Deleted) with
  | none => simpa [Store.record] using h
  | some order =>
    simp only [Bool.false_eq_true, if_false]
    have hmem := find_mem hfind
    have hany : s.db.orders.any (fun o => o.ID == order.ID) = true := by
      rw [List.any_eq_true]
      exact ⟨order, hmem.1, by simp⟩
    unfold orderRepository.Update
    cases hfu : f .orderUpdate
    · simp only [Bool.false_eq_true, if_false, Store.withDB, Store.record, hany, if_true]
      apply Fresh_orders_map h
      intro o
      split_ifs with ho
      · exact ho.symm
      · rfl
    · simpa [Store.record] using h

theorem Fresh_updateOrderDescription (f : Faults) (s : Store) (i : Nat) (d : String)
    (h : s.db.Fresh) : (orderService.UpdateOrderDescription f s i d).2.db.Fresh := by
  unfold orderService.UpdateOrderDescription orderRepository.UpdateField
  dsimp only [Store.record, Store.withDB]
  split_ifs
  · exact h
  · exact h
  · exact h
  · apply Fresh_orders_map h
    intro o
    split_ifs <;> rfl

theorem Fresh_deleteOrder (f : Faults) (s : Store) (i : Nat)
    (h : s.db.Fresh) : (orderService.DeleteOrder f s i).2.db.Fresh := by
  unfold orderService.DeleteOrder orderRepository.Delete
  dsimp only [Store.record, Store.withDB]
  split_ifs
  · exact h
  · exact h
  · apply Fresh_orders_map h
    intro o
    split_ifs <;> rfl

theorem Fresh_exec (f : Faults) (s : Store) (op : Op) (h : s.db.Fresh) :
    (op.exec f s).db.Fresh := by
  cases op with
  | createProduct n d p k => exact Fresh_createProduct f s n d p k h
  | updateProduct i n d p k => exact Fresh_updateProduct f s i n d p k h
  | deleteProduct i => exact Fresh_deleteProduct f s i h
  | addProductToOrder o p q => exact Fresh_addProductToOrder f s o p q h
  | removeProductFromOrder o p => exact Fresh_removeProductFromOrder f s o p h
  | createOrder d => exact Fresh_createOrder f s d h
  | updateOrder i d => exact Fresh_updateOrder f s i d h
  | updateOrderDescription i d => exact Fresh_updateOrderDescription f s i d h
  | deleteOrder i => exact Fresh_deleteOrder f s i h

theorem Fresh_run (trace : List (Faults × Op)) (s : Store) (h : s.db.Fresh) :
    (run s trace).db.Fresh := by
  induction trace generalizing s with
  | nil => exact h
  | cons x rest ih =>
    obtain ⟨f, op⟩ := x
    exact ih _ (Fresh_exec f s op h)

theorem Fresh_empty : Store.empty.db.Fresh := by
  refine ⟨List.Pairwise.nil, ?_, List.Pairwise.nil, ?_⟩ <;> intro a ha <;> cases ha

theorem Fresh_of_reachable {s : Store} (h : Reachable s) : s.db.Fresh := by
  obtain ⟨trace, rfl⟩ := h
  exact Fresh_run trace _ Fresh_empty

theorem product_unique {d : DB} (h : d.Fresh) {p q : Product} (hp : p ∈ d.products)
    (hq : q ∈ d.products) (hid : p.ID = q.ID) : p = q := by
  have hnd : (d.products.map (fun p => p.ID)).Nodup :=
    h.1.imp (fun hab => Nat.ne_of_lt hab)
  exact List.inj_on_of_nodup_map hnd hp hq hid

theorem order_unique {d : DB} (h : d.Fresh) {p q : Order} (hp : p ∈ d.orders)
    (hq : q ∈ d.orders) (hid : p.ID = q.ID) : p = q := by
  have hnd : (d.orders.map (fun o => o.ID)).Nodup :=
    h.2.2.1.imp (fun hab => Nat.ne_of_lt hab)
  exact List.inj_on_of_nodup_map hnd hp hq hid

/-! ## Product ledger: create, update, delete -/

theorem find_append_new {l : List Product} {row : Product} {id : Nat}
    (hold : ∀ p ∈ l, p.ID ≠ id) (hid : row.ID = id) (hdel : row.Deleted = false) :
    (l ++ [row]).find? (fun p => p.ID == id && !p.Deleted) = some row := by
  rw [List.find?_append]
  have hnone : l.find? (fun p => p.ID == id && !p.Deleted) = none := by
    rw [List.find?_eq_none]
    intro p hp
    simp [hold p hp]
  rw [hnone]
  simp [hid, hdel]

theorem createProduct_valid {s : Store} {name description : String} {price : Rat} {stock : Int}
    (hfresh : s.db.Fresh) (hn : name ≠ "") (hp : ¬ price < 0) (hk : ¬ stock < 0) :
    productService.CreateProduct noFaults s name description price stock =
      (.ok { ID := s.db.productSeq + 1, Name := name, Description := description,
             Price := price, Stock := stock, Deleted := false },
        { db := s.db.addProduct
            { ID := s.db.productSeq + 1, Name := name, Description := description,
              Price := price, Stock := stock, Deleted := false },
          calls := s.calls ++ [.productCreate] }) := by
  have hany : s.db.products.any (fun p => p.ID == s.db.productSeq + 1) = false := by
    rw [Bool.eq_false_iff]
    intro h
    rw [List.any_eq_true] at h
    obtain ⟨p, hp, he⟩ := h
    have := hfresh.2.1 p hp
    simp only [beq_iff_eq] at he
    omega
  unfold productService.CreateProduct
  rw [product_create_zero noFaults s _ rfl]
  simp [hn, hp, hk, noFaults, hany]

/-- C15: in a reachable store, with the store not failing, `CreateProduct`
returns one of its input errors if and only if the name is empty, the price
is below 0 or the stock is below 0; otherwise it returns a product whose
name, description, price and stock are the arguments, whose id no product of
the table had, and which `GetByID` reads back under that id. -/
theorem createProduct_spec (s : Store) (name description : String) (price : Rat) (stock : Int)
    (hs : Reachable s) :
    (failsWith ServiceError.isValidation
        (productService.CreateProduct noFaults s name description price stock).1 = true ↔
      (name = "" ∨ price < 0 ∨ stock < 0)) ∧
    (¬ (name = "" ∨ price < 0 ∨ stock < 0) →
      ∃ product,
        (productService.CreateProduct noFaults s name description price stock).1 = .ok product ∧
        product.Name = name ∧ product.Description = description ∧ product.Price = price ∧
        product.Stock = stock ∧ (∀ p ∈ s.db.products, p.ID ≠ product.ID) ∧
        (productRepository.GetByID noFaults
          (productService.CreateProduct noFaults s name description price stock).2
          product.ID).1 = .ok product) := by
  have hfresh := Fresh_of_reachable hs
  by_cases hn : name = ""
  · refine ⟨⟨fun _ => .inl hn, fun _ => ?_⟩, fun h => absurd (.inl hn) h⟩
    simp [productService.CreateProduct, hn, failsWith, ServiceError.isValidation]
  by_cases hp : price < 0
  · refine ⟨⟨fun _ => .inr (.inl hp), fun _ => ?_⟩, fun h => absurd (.inr (.inl hp)) h⟩
    simp [productService.CreateProduct, hn, hp, failsWith, ServiceError.isValidation]
  by_cases hk : stock < 0
  · refine ⟨⟨fun _ => .inr (.inr hk), fun _ => ?_⟩, fun h => absurd (.inr (.inr hk)) h⟩
    simp [productService.CreateProduct, hn, hp, hk, failsWith, ServiceError.isValidation]
  have hvalid : ¬ (name = "" ∨ price < 0 ∨ stock < 0) := by tauto
  rw [createProduct_valid hfresh hn hp hk]
  refine ⟨⟨fun h => ?_, fun h => absurd h hvalid⟩, fun _ => ⟨_, rfl, rfl, rfl, rfl, rfl, ?_, ?_⟩⟩
  · simp [failsWith] at h
  · intro p hp'
    have := hfresh.2.1 p hp'
    show p.ID ≠ s.db.productSeq + 1
    omega
  · apply getByID_of_find rfl
    show (s.db.products ++ [_]).find? _ = _
    apply find_append_new _ rfl rfl
    intro p hp'
    have := hfresh.2.1 p hp'
    show p.ID ≠ s.db.productSeq + 1
    omega

/-- Witness of C15: a valid product on the example store gets id 2; an empty
name is rejected. -/
theorem createProduct_spec_witness :
    (productService.CreateProduct noFaults exampleStore "Q" "second" 3 7).1 =
      .ok ⟨2, "Q", "second", 3, 7, false⟩ ∧
    failsWith ServiceError.isValidation
      (productService.CreateProduct noFaults exampleStore "" "second" 3 7).1 = true := by
  have h := createProduct_spec exampleStore "" "second" 3 7 ⟨_, rfl⟩
  exact ⟨rfl, h.1.2 (.inl rfl)⟩

theorem updateProduct_valid {f : Faults} {s : Store} {id : Nat} {name description : String}
    {price : Rat} {stock : Int} (hid : id ≠ 0) (hn : name ≠ "") (hp : ¬ price < 0)
    (hk : ¬ stock < 0) :
    productService.UpdateProduct f s id name description price stock =
      match productRepository.GetByID f s id with
      | (.error e, s1) => (.error (.productNotFound e), s1)
      | (.ok product, s1) =>
        match productRepository.Update f s1
            { product with
              Name := name, Description := description, Price := price, Stock := stock } with
        | (.error e, s2) => (.error (.failedToUpdateProduct e), s2)
        | (.ok _, s2) =>
          (.ok { product with
                 Name := name, Description := description, Price := price, Stock := stock },
            s2) := by
  simp [productService.UpdateProduct, hid, hn, hp, hk]

theorem updateProduct_found {s : Store} {id : Nat} {name description : String}
    {price : Rat} {stock : Int} {p : Product} (hid : id ≠ 0) (hn : name ≠ "")
    (hp : ¬ price < 0) (hk : ¬ stock < 0)
    (hfind : s.db.products.find? (fun x => x.ID == id && !x.Deleted) = some p) :
    productService.UpdateProduct noFaults s id name description price stock =
      (.ok { p with Name := name, Description := description, Price := price, Stock := stock },
        { db := s.db.put
            { p with Name := name, Description := description, Price := price, Stock := stock },
          calls := s.calls ++ [.productGetByID] ++ [.productUpdate] }) := by
  have hany : s.db.products.any (fun x => x.ID == p.ID) = true := by
    rw [List.any_eq_true]
    exact ⟨p, (find_mem hfind).1, by simp⟩
  rw [updateProduct_valid hid hn hp hk, productGetByID_eq]
  simp [noFaults, hfind, productRepository.Update, Store.record, Store.withDB, hany, DB.put]

theorem mem_put_other {d : DB} {product x : Product} (hx : x.ID ≠ product.ID) :
    x ∈ (d.put product).products ↔ x ∈ d.products := by
  simp only [DB.put, List.mem_map]
  constructor
  · rintro ⟨y, hy, hxy⟩
    by_cases h : y.ID = product.ID
    · rw [if_pos h] at hxy
      exact absurd (by rw [← hxy]) hx
    · rw [if_neg h] at hxy
      exact hxy ▸ hy
  · intro h
    exact ⟨x, h, if_neg hx⟩

/-- C16, as stated, fails: no product has the id 0, yet `UpdateProduct(0, ...)`
with otherwise valid arguments returns the input error "invalid product ID",
which is not a not-found error. -/
theorem updateProduct_zero_id :
    (productRepository.GetByID noFaults exampleStore 0).1 = .error .recordNotFound ∧
    (productService.UpdateProduct noFaults exampleStore 0 "Q" "" 1 1).1 =
      .error .invalidProductID ∧
    failsWith ServiceError.isNotFound
      (productService.UpdateProduct noFaults exampleStore 0 "Q" "" 1 1).1 = false :=
  ⟨rfl, rfl, rfl⟩

/-- C16, amended: in every store, with the store not failing,
`UpdateProduct` with a non-zero id (id 0 is rejected as invalid) applies the
validation of `CreateProduct`: when the name is empty, the price below 0 or
the stock below 0 it returns what `CreateProduct` returns for these
arguments, an input error, and the store is untouched.  With valid arguments
it returns the "product not found" error, tables unchanged, when no product
has the id; and when `GetByID` reads `p` under the id it returns `p` with
name, description, price and stock replaced by the arguments (same id), that
row is what `GetByID` reads afterwards, and every row with another id is in
the table exactly as before. -/
theorem updateProduct_spec (s : Store) (id : Nat) (name description : String) (price : Rat)
    (stock : Int) (hid : id ≠ 0) :
    ((name = "" ∨ price < 0 ∨ stock < 0) →
      productService.UpdateProduct noFaults s id name description price stock =
        productService.CreateProduct noFaults s name description price stock ∧
      failsWith ServiceError.isValidation
        (productService.UpdateProduct noFaults s id name description price stock).1 = true ∧
      (productService.UpdateProduct noFaults s id name description price stock).2 = s) ∧
    (¬ (name = "" ∨ price < 0 ∨ stock < 0) →
      ((productRepository.GetByID noFaults s id).1 = .error .recordNotFound →
        (productService.UpdateProduct noFaults s id name description price stock).1 =
          .error (.productNotFound .recordNotFound) ∧
        (productService.UpdateProduct noFaults s id name description price stock).2.db = s.db) ∧
      (∀ p, (productRepository.GetByID noFaults s id).1 = .ok p →
        (productService.UpdateProduct noFaults s id name description price stock).1 =
          .ok { p with Name := name, Description := description, Price := price,
                       Stock := stock } ∧
        p.ID = id ∧
        (productRepository.GetByID noFaults
          (productService.UpdateProduct noFaults s id name description price stock).2 id).1 =
          .ok { p with Name := name, Description := description, Price := price,
                       Stock := stock } ∧
        (∀ x : Product, x.ID ≠ id →
          (x ∈ (productService.UpdateProduct noFaults s id name description price
              stock).2.db.products ↔ x ∈ s.db.products)))) := by
  constructor
  · intro hbad
    by_cases hn : name = ""
    · simp [productService.UpdateProduct, productService.CreateProduct, hid, hn, failsWith,
        ServiceError.isValidation]
    by_cases hp : price < 0
    · simp [productService.UpdateProduct, productService.CreateProduct, hid, hn, hp, failsWith,
        ServiceError.isValidation]
    have hk : stock < 0 := by tauto
    simp [productService.UpdateProduct, productService.CreateProduct, hid, hn, hp, hk, failsWith,
      ServiceError.isValidation]
  · intro hgood
    have hn : name ≠ "" := fun h => hgood (.inl h)
    have hp : ¬ price < 0 := fun h => hgood (.inr (.inl h))
    have hk : ¬ stock < 0 := fun h => hgood (.inr (.inr h))
    constructor
    · intro hmiss
      have hnone := (productGetByID_missing rfl hmiss).2
      rw [updateProduct_valid hid hn hp hk, productGetByID_eq]
      simp [noFaults, hnone, Store.record]
    · intro p hget
      obtain ⟨-, hfind⟩ := productGetByID_ok hget
      have hm := find_mem hfind
      have hpid : p.ID = id := by
        have h2 := hm.2
        simp only [Bool.and_eq_true, beq_iff_eq] at h2
        exact h2.1
      have hdel : p.Deleted = false := by
        have h2 := hm.2
        simp only [Bool.and_eq_true, beq_iff_eq, Bool.not_eq_true'] at h2
        exact h2.2
      rw [updateProduct_found hid hn hp hk hfind]
      refine ⟨rfl, hpid, ?_, ?_⟩
      · apply getByID_of_find rfl
        exact find_put hfind rfl hdel
      · intro x hx
        exact mem_put_other (by rw [hpid]; exact hx)

/-- Witness of C16: on the example store, updating product 1 replaces its
four fields; an empty name is rejected as by `CreateProduct`; product 9 is
not found. -/
theorem updateProduct_spec_witness :
    (productService.UpdateProduct noFaults exampleStore 1 "R" "new" 8 2).1 =
      .ok ⟨1, "R", "new", 8, 2, false⟩ ∧
    productService.UpdateProduct noFaults exampleStore 1 "" "new" 8 2 =
      productService.CreateProduct noFaults exampleStore "" "new" 8 2 ∧
    (productService.UpdateProduct noFaults exampleStore 9 "R" "new" 8 2).1 =
      .error (.productNotFound .recordNotFound) := by
  have h1 := updateProduct_spec exampleStore 1 "R" "new" 8 2 (by decide)
  have h2 := updateProduct_spec exampleStore 1 "" "new" 8 2 (by decide)
  have h3 := updateProduct_spec exampleStore 9 "R" "new" 8 2 (by decide)
  exact ⟨((h1.2 (by decide)).2 ⟨1, "P", "", 5, 10, false⟩ rfl).1, (h2.1 (.inl rfl)).1,
    ((h3.2 (by decide)).1 rfl).1⟩

/-- C18: for each of the nine mutating service operations, under every plan
of store failures, a malformed input (an empty product name or order
description, a negative price or stock, a non-positive quantity, an id 0)
makes the operation return one of the input errors and hand back the store
it was given, call log included: nothing was read or written. -/
theorem malformed_rejected (f : Faults) (s : Store) (op : Op) (h : op.malformed) :
    (op.err f s).any ServiceError.isValidation = true ∧ op.exec f s = s := by
  cases op with
  | createProduct n d p k =>
    simp only [Op.malformed] at h
    by_cases h1 : n = ""
    · simp [Op.err, Op.exec, productService.CreateProduct, h1, errorOf,
        ServiceError.isValidation]
    by_cases h2 : p < 0
    · simp [Op.err, Op.exec, productService.CreateProduct, h1, h2, errorOf,
        ServiceError.isValidation]
    have h3 : k < 0 := by tauto
    simp [Op.err, Op.exec, productService.CreateProduct, h1, h2, h3, errorOf,
      ServiceError.isValidation]
  | updateProduct i n d p k =>
    simp only [Op.malformed] at h
    by_cases h0 : i = 0
    · simp [Op.err, Op.exec, productService.UpdateProduct, h0, errorOf,
        ServiceError.isValidation]
    by_cases h1 : n = ""
    · simp [Op.err, Op.exec, productService.UpdateProduct, h0, h1, errorOf,
        ServiceError.isValidation]
    by_cases h2 : p < 0
    · simp [Op.err, Op.exec, productService.UpdateProduct, h0, h1, h2, errorOf,
        ServiceError.isValidation]
    have h3 : k < 0 := by tauto
    simp [Op.err, Op.exec, productService.UpdateProduct, h0, h1, h2, h3, errorOf,
      ServiceError.isValidation]
  | deleteProduct i =>
    simp only [Op.malformed] at h
    simp [Op.err, Op.exec, productService.DeleteProduct, h, errorOf, ServiceError.isValidation]
  | addProductToOrder o p q =>
    simp only [Op.malformed] at h
    obtain ⟨e, he, heq⟩ := add_invalid f s o p q h
    simp [Op.err, Op.exec, heq, errorOf, he]
  | removeProductFromOrder o p =>
    simp only [Op.malformed] at h
    by_cases h0 : o = 0
    · simp [Op.err, Op.exec, productService.RemoveProductFromOrder, h0, errorOf,
        ServiceError.isValidation]
    have h1 : p = 0 := by tauto
    simp [Op.err, Op.exec, productService.RemoveProductFromOrder, h0, h1, errorOf,
      ServiceError.isValidation]
  | createOrder d =>
    simp only [Op.malformed] at h
    simp [Op.err, Op.exec, orderService.CreateOrder, h, errorOf, ServiceError.isValidation]
  | updateOrder i d =>
    simp only [Op.malformed] at h
    by_cases h0 : i = 0
    · simp [Op.err, Op.exec, orderService.UpdateOrder, h0, errorOf, ServiceError.isValidation]
    have h1 : d = "" := by tauto
    simp [Op.err, Op.exec, orderService.UpdateOrder, h0, h1, errorOf,
      ServiceError.isValidation]
  | updateOrderDescription i d =>
    simp only [Op.malformed] at h
    by_cases h0 : i = 0
    · simp [Op.err, Op.exec, orderService.UpdateOrderDescription, h0, errorOf,
        ServiceError.isValidation]
    have h1 : d = "" := by tauto
    simp [Op.err, Op.exec, orderService.UpdateOrderDescription, h0, h1, errorOf,
      ServiceError.isValidation]
  | deleteOrder i =>
    simp only [Op.malformed] at h
    simp [Op.err, Op.exec, orderService.DeleteOrder, h, errorOf, ServiceError.isValidation]

/-- Witness of C18: `UpdateProduct` with a negative stock on the example
store. -/
theorem malformed_rejected_witness :
    (Op.err noFaults exampleStore (.updateProduct 1 "P" "" 5 (-1))).any
        ServiceError.isValidation = true ∧
    Op.exec noFaults exampleStore (.updateProduct 1 "P" "" 5 (-1)) = exampleStore :=
  malformed_rejected noFaults exampleStore (.updateProduct 1 "P" "" 5 (-1))
    (.inr (.inr (.inr (by decide))))

theorem deleteProduct_eq {f : Faults} {s : Store} {id : Nat} (hid : id ≠ 0)
    (hf : f .productDelete = false) :
    productService.DeleteProduct f s id =
      (.ok (), { db := s.db.tombstoneProduct id, calls := s.calls ++ [.productDelete] }) := by
  simp [productService.DeleteProduct, productRepository.Delete, hid, hf, Store.record,
    Store.withDB, DB.tombstoneProduct]

theorem find_tombstone (l : List Product) (id : Nat) :
    (l.map (fun p => if p.ID = id ∧ p.Deleted = false then { p with Deleted := true } else p)).find?
      (fun p => p.ID == id && !p.Deleted) = none := by
  rw [List.find?_eq_none]
  intro x hx
  obtain ⟨y, -, rfl⟩ := List.mem_map.1 hx
  by_cases h : y.ID = id ∧ y.Deleted = false
  · simp [h]
  · rw [if_neg h]
    simp only [Bool.and_eq_true, beq_iff_eq, Bool.not_eq_true', not_and, Bool.not_eq_false]
    intro h1
    by_contra h2
    exact h ⟨h1, by simpa using h2⟩

theorem tombstone_missing {d : DB} {id : Nat}
    (h : d.products.find? (fun p => p.ID == id && !p.Deleted) = none) :
    d.tombstoneProduct id = d := by
  have hl : d.products.map
      (fun p => if p.ID = id ∧ p.Deleted = false then { p with Deleted := true } else p) =
      d.products := by
    have hc : d.products.map
        (fun p => if p.ID = id ∧ p.Deleted = false then { p with Deleted := true } else p) =
        d.products.map (fun p => p) := by
      apply List.map_congr_left
      intro p hp
      rw [List.find?_eq_none] at h
      have := h p hp
      simp only [Bool.and_eq_true, beq_iff_eq, Bool.not_eq_true', not_and] at this
      rw [if_neg]
      rintro ⟨h1, h2⟩
      exact this h1 (by simpa using h2)
    rw [hc, List.map_id_fun']
    rfl
  unfold DB.tombstoneProduct
  rw [hl]

/-- C20, as stated, fails: `DeleteProduct(7)` on a store without a product 7
returns no error, and so does a second `DeleteProduct(1)` after product 1 was
deleted. -/
theorem deleteProduct_absent_ok :
    (productRepository.GetByID noFaults exampleStore 7).1 = .error .recordNotFound ∧
    (productService.DeleteProduct noFaults exampleStore 7).1 = .ok () ∧
    (productService.DeleteProduct noFaults
      (productService.DeleteProduct noFaults exampleStore 1).2 1).1 = .ok () :=
  ⟨rfl, rfl, rfl⟩

/-- C20, amended: for every non-zero id, with the store not failing,
`DeleteProduct(id)` returns no error.  A product `p` that `GetByID` read under
the id stays in the table as the row `p` marked deleted (the table keeps its
length) and is no longer found by `GetByID`.  When no live product has the
id, the tables are left as they were; so a second delete of the same id
returns no error either and changes nothing. -/
theorem deleteProduct_spec (s : Store) (id : Nat) (hid : id ≠ 0) :
    (productService.DeleteProduct noFaults s id).1 = .ok () ∧
    (∀ p, (productRepository.GetByID noFaults s id).1 = .ok p →
      ({ p with Deleted := true } : Product) ∈
        (productService.DeleteProduct noFaults s id).2.db.products) ∧
    (productService.DeleteProduct noFaults s id).2.db.products.length =
      s.db.products.length ∧
    (productRepository.GetByID noFaults (productService.DeleteProduct noFaults s id).2 id).1 =
      .error .recordNotFound ∧
    ((productRepository.GetByID noFaults s id).1 = .error .recordNotFound →
      (productService.DeleteProduct noFaults s id).2.db = s.db) ∧
    (productService.DeleteProduct noFaults
      (productService.DeleteProduct noFaults s id).2 id).1 = .ok () ∧
    (productService.DeleteProduct noFaults
      (productService.DeleteProduct noFaults s id).2 id).2.db =
      (productService.DeleteProduct noFaults s id).2.db := by
  rw [deleteProduct_eq hid rfl]
  have hgone : (s.db.tombstoneProduct id).products.find?
      (fun p => p.ID == id && !p.Deleted) = none := find_tombstone s.db.products id
  refine ⟨rfl, ?_, ?_, ?_, ?_, ?_, ?_⟩
  · intro p hget
    obtain ⟨-, hfind⟩ := productGetByID_ok hget
    have hm := find_mem hfind
    have h2 := hm.2
    simp only [Bool.and_eq_true, beq_iff_eq, Bool.not_eq_true'] at h2
    show _ ∈ List.map _ s.db.products
    rw [List.mem_map]
    exact ⟨p, hm.1, by rw [if_pos h2]⟩
  · show (List.map _ s.db.products).length = _
    rw [List.length_map]
  · rw [productGetByID_eq]
    simp only [noFaults, Bool.false_eq_true, if_false]
    rw [hgone]
  · intro hmiss
    exact tombstone_missing (productGetByID_missing rfl hmiss).2
  · rw [deleteProduct_eq hid rfl]
  · rw [deleteProduct_eq hid rfl]
    exact tombstone_missing hgone

/-- Witness of C20: deleting product 1 of the example store keeps its row,
marked deleted. -/
theorem deleteProduct_spec_witness :
    (productService.DeleteProduct noFaults exampleStore 1).1 = .ok () ∧
    (productService.DeleteProduct noFaults exampleStore 1).2.db.products =
      [⟨1, "P", "", 5, 10, true⟩] ∧
    (productRepository.GetByID noFaults
      (productService.DeleteProduct noFaults exampleStore 1).2 1).1 = .error .recordNotFound := by
  have h := deleteProduct_spec exampleStore 1 (by decide)
  exact ⟨h.1, by decide, h.2.2.2.1⟩

/-! ## Order ledger: the description rule -/

theorem orderRequest_invalid {d : String} (h : d = "" ∨ d.length < 3 ∨ 255 < d.length) :
    OrderRequest.valid { Description := d } = false := by
  unfold OrderRequest.valid
  rcases h with h | h | h
  · subst h; rfl
  · have h3 : decide (3 ≤ d.length) = false := by simp; omega
    simp [h3]
  · have h3 : decide (d.length ≤ 255) = false := by simp; omega
    simp [h3]

/-- C17, as stated, fails: the services accept the two-character description
`ab`: `CreateOrder("ab")` returns the new order and stores it, and
`UpdateOrder(1, "ab")` returns the updated order. -/
theorem order_short_description_accepted :
    "ab".length = 2 ∧
    (orderService.CreateOrder noFaults Store.empty "ab").1 = .ok ⟨1, "ab", false⟩ ∧
    (orderService.CreateOrder noFaults Store.empty "ab").2.db.orders = [⟨1, "ab", false⟩] ∧
    (orderService.UpdateOrder noFaults exampleStore 1 "ab").1 = .ok ⟨1, "ab", false⟩ ∧
    (orderService.UpdateOrder noFaults exampleStore 1 "ab").2.db.orders = [⟨1, "ab", false⟩] :=
  ⟨by decide, rfl, by decide, rfl, by decide⟩

/-- C17, amended: the services `CreateOrder` and `UpdateOrder` reject the
empty description with an input error and leave the store untouched; the
bounds on the length are the binding rule `required,min=3,max=255` of the
request: for every description that is empty or whose length is outside
3..255, under every plan of store failures, the handlers `CreateOrder` and
`UpdateOrder` answer status 400 "Invalid request body" without calling the
service, so nothing is stored. -/
theorem order_description_rejected (f : Faults) (s : Store) (id : Nat) (d : String)
    (h : d = "" ∨ d.length < 3 ∨ 255 < d.length) :
    OrderHandler.CreateOrder f s (some { Description := d }) =
      (.error 400 "Invalid request body" none, s) ∧
    OrderHandler.UpdateOrder f s (some id) (some { Description := d }) =
      (.error 400 "Invalid request body" none, s) ∧
    (d = "" →
      failsWith ServiceError.isValidation (orderService.CreateOrder f s d).1 = true ∧
      (orderService.CreateOrder f s d).2 = s ∧
      failsWith ServiceError.isValidation (orderService.UpdateOrder f s id d).1 = true ∧
      (orderService.UpdateOrder f s id d).2 = s) := by
  have hv := orderRequest_invalid h
  refine ⟨?_, ?_, ?_⟩
  · simp [OrderHandler.CreateOrder, shouldBind, hv]
  · simp [OrderHandler.UpdateOrder, shouldBind, hv]
  · intro hd
    by_cases hid : id = 0
    · simp [orderService.CreateOrder, orderService.UpdateOrder, hd, hid, failsWith,
        ServiceError.isValidation]
    · simp [orderService.CreateOrder, orderService.UpdateOrder, hd, hid, failsWith,
        ServiceError.isValidation]

/-- Witness of C17: the description `ab` in a request body. -/
theorem order_description_rejected_witness :
    OrderHandler.CreateOrder noFaults exampleStore (some { Description := "ab" }) =
      (.error 400 "Invalid request body" none, exampleStore) ∧
    OrderHandler.UpdateOrder noFaults exampleStore (some 1) (some { Description := "ab" }) =
      (.error 400 "Invalid request body" none, exampleStore) := by
  have h := order_description_rejected noFaults exampleStore 1 "ab" (.inr (.inl (by decide)))
  exact ⟨h.1, h.2.1⟩

/-! ## Join queries and the order listing -/

theorem mem_ordersOf {d : DB} (hf : d.Fresh) {P : Nat} {o : Order} :
    o ∈ d.ordersOf P ↔ (o ∈ d.orders ∧ o.Deleted = false ∧ d.linked o.ID P) := by
  unfold DB.ordersOf
  rw [List.mem_filterMap]
  constructor
  · rintro ⟨a, ha, hfind⟩
    rw [List.mem_filter] at ha
    have hm := find_mem hfind
    have h2 := hm.2
    simp only [Bool.and_eq_true, beq_iff_eq, Bool.not_eq_true'] at h2
    have hP : a.ProductID = P := by simpa using ha.2
    exact ⟨hm.1, h2.2, a, ha.1, h2.1.symm, hP⟩
  · rintro ⟨ho, hdel, a, ha, hk1, hk2⟩
    refine ⟨a, List.mem_filter.2 ⟨ha, by simp [hk2]⟩, ?_⟩
    cases hfind : d.orders.find? (fun x => x.ID == a.OrderID && !x.Deleted) with
    | none =>
      rw [List.find?_eq_none] at hfind
      exact absurd (by simp [hk1, hdel]) (hfind o ho)
    | some o' =>
      have hm := find_mem hfind
      have h2 := hm.2
      simp only [Bool.and_eq_true, beq_iff_eq] at h2
      rw [order_unique hf hm.1 ho (by rw [h2.1, hk1])]

theorem mem_findOrders {d : DB} {query : List (Order → Bool)} {o : Order} :
    o ∈ d.findOrders query ↔
      o ∈ d.orders ∧ o.Deleted = false ∧ ∀ c ∈ query, c o = true := by
  simp [DB.findOrders, List.mem_filter, List.all_eq_true]

/-- C13, as stated, fails: both orders hold product 1; a request with the
description `alpha` and the product id 1 is answered with both orders,
although the description of the second, `beta`, does not match `alpha`. -/
theorem listOrders_description_ignored :
    (OrderHandler.ListOrders noFaults exampleTwoLinked (some ⟨"alpha", some 1, false⟩)).1 =
      .json 200 { Orders := [⟨1, "alpha", []⟩, ⟨2, "beta", []⟩], Count := 2 } ∧
    likeContains "alpha" "beta" = false :=
  ⟨rfl, by decide⟩

/-- C13, amended: a request that supplies a product id above 0 is answered
from the product id alone: whatever description it carries, under every plan
of store failures, `ListOrders` replies as it does to the same request
without a description.  With the store not failing, that reply is, in a
reachable store in which the product exists, the list of exactly the orders
that are not soft-deleted and hold the product, and, when no product that is
not soft-deleted has the id, the error reply 500 "Failed to fetch orders".
The description is applied only when no product id (or the id 0) is supplied,
and then the reply lists exactly the orders that are not soft-deleted and
whose description matches `%description%`. -/
theorem listOrders_dispatch (f : Faults) (s : Store) (d : String) (P : Nat) (w : Bool)
    (hP : 0 < P) :
    OrderHandler.ListOrders f s (some ⟨d, some P, w⟩) =
      OrderHandler.ListOrders f s (some ⟨"", some P, w⟩) ∧
    (∀ p, Reachable s → (productRepository.GetByID noFaults s P).1 = .ok p →
      ∃ l : List Order,
        (OrderHandler.ListOrders noFaults s (some ⟨d, some P, w⟩)).1 =
          .json 200 (listOrdersResponse (l.map (fun o => orderResponse o []))) ∧
        ∀ o, o ∈ l ↔ (o ∈ s.db.orders ∧ o.Deleted = false ∧ s.db.linked o.ID P)) ∧
    ((productRepository.GetByID noFaults s P).1 = .error .recordNotFound →
      (OrderHandler.ListOrders noFaults s (some ⟨d, some P, w⟩)).1 =
        .error 500 "Failed to fetch orders"
          (some (.failedToGetOrdersByProductID .recordNotFound))) ∧
    (d ≠ "" →
      ∃ l : List Order,
        (OrderHandler.ListOrders noFaults s (some ⟨d, none, w⟩)).1 =
          .json 200 (listOrdersResponse (l.map (fun o => orderResponse o []))) ∧
        (OrderHandler.ListOrders noFaults s (some ⟨d, some 0, w⟩)).1 =
          .json 200 (listOrdersResponse (l.map (fun o => orderResponse o []))) ∧
        ∀ o, o ∈ l ↔
          (o ∈ s.db.orders ∧ o.Deleted = false ∧ likeContains d o.Description = true)) := by
  have hpos : decide (P > 0) = true := by simpa using hP
  have hP0 : P ≠ 0 := by omega
  refine ⟨?_, ?_, ?_, ?_⟩
  · simp [OrderHandler.ListOrders, Option.filter, hpos]
  · intro p hs hget
    have hfresh := Fresh_of_reachable hs
    obtain ⟨-, hfind⟩ := productGetByID_ok hget
    refine ⟨s.db.ordersOf P, ?_, fun o => mem_ordersOf hfresh⟩
    simp [OrderHandler.ListOrders, Option.filter, hpos, orderService.GetOrdersByProductID, hP0,
      orderRepository.GetOrdersByProductID, noFaults, hfind]
  · intro hmiss
    have hnone := (productGetByID_missing rfl hmiss).2
    simp [OrderHandler.ListOrders, Option.filter, hpos, orderService.GetOrdersByProductID, hP0,
      orderRepository.GetOrdersByProductID, noFaults, hnone]
  · intro hd
    refine ⟨s.db.findOrders [fun o => likeContains d o.Description], ?_, ?_, ?_⟩
    · simp [OrderHandler.ListOrders, Option.filter, hd, orderService.GetOrdersByDescription,
        orderRepository.GetByCondition, noFaults, Where]
    · simp [OrderHandler.ListOrders, Option.filter, hd, orderService.GetOrdersByDescription,
        orderRepository.GetByCondition, noFaults, Where]
    · intro o
      rw [mem_findOrders]
      simp only [List.mem_singleton, forall_eq]

/-- Witness of C13: on the store with orders `alpha` and `beta` both holding
product 1, the description `alpha` next to product id 1 changes nothing, and
alone it selects the first order; once product 1 is soft-deleted, the request
for product id 1 is answered with 500. -/
theorem listOrders_dispatch_witness :
    OrderHandler.ListOrders noFaults exampleTwoLinked (some ⟨"alpha", some 1, false⟩) =
      OrderHandler.ListOrders noFaults exampleTwoLinked (some ⟨"", some 1, false⟩) ∧
    (OrderHandler.ListOrders noFaults exampleTwoLinked (some ⟨"alpha", none, false⟩)).1 =
      .json 200 { Orders := [⟨1, "alpha", []⟩], Count := 1 } ∧
    (OrderHandler.ListOrders noFaults (productService.DeleteProduct noFaults exampleTwoLinked 1).2
        (some ⟨"alpha", some 1, false⟩)).1 =
      .error 500 "Failed to fetch orders"
        (some (.failedToGetOrdersByProductID .recordNotFound)) :=
  ⟨(listOrders_dispatch noFaults exampleTwoLinked "alpha" 1 false (by decide)).1, rfl,
   (listOrders_dispatch noFaults (productService.DeleteProduct noFaults exampleTwoLinked 1).2
      "alpha" 1 false (by decide)).2.2.1 rfl⟩

/-- C19, as stated, fails: no order 9 exists in the example store, yet
`GetOrderProducts(9)` returns the empty list and no error. -/
theorem getOrderProducts_missing_order :
    (orderRepository.GetByID noFaults exampleStore 9).1 = .error .recordNotFound ∧
    (productService.GetOrderProducts noFaults exampleStore 9).1 = .ok [] :=
  ⟨rfl, rfl⟩

/-- C19, amended: with the store not failing, `GetOrderProducts(orderID)`
returns "invalid order ID" for the id 0 and, for a non-zero id, the empty list
without error whenever no join row carries the order id, whether or not an
order with that id exists.  `GetOrdersByProductID(productID)` returns "invalid
product ID" for the id 0; for a non-zero id it returns the empty list without
error when the product exists and no join row carries its id, and the error
"failed to get orders by product ID" around the repository's record-not-found
error when no product has that id.  Neither the service's classification of
not-found errors nor `errors.IsNotFound` accepts that error. -/
theorem joins_without_links (s : Store) (orderID productID : Nat) :
    (orderID = 0 →
      productService.GetOrderProducts noFaults s orderID = (.error .invalidOrderID, s)) ∧
    (orderID ≠ 0 → (∀ a ∈ s.db.orderProducts, a.OrderID ≠ orderID) →
      (productService.GetOrderProducts noFaults s orderID).1 = .ok []) ∧
    (productID = 0 →
      orderService.GetOrdersByProductID noFaults s productID = (.error .invalidProductID, s)) ∧
    (productID ≠ 0 → ∀ p, (productRepository.GetByID noFaults s productID).1 = .ok p →
      (∀ a ∈ s.db.orderProducts, a.ProductID ≠ productID) →
      (orderService.GetOrdersByProductID noFaults s productID).1 = .ok []) ∧
    (productID ≠ 0 →
      (productRepository.GetByID noFaults s productID).1 = .error .recordNotFound →
      (orderService.GetOrdersByProductID noFaults s productID).1 =
        .error (.failedToGetOrdersByProductID .recordNotFound)) ∧
    ServiceError.isNotFound (.failedToGetOrdersByProductID .recordNotFound) = false ∧
    errors.IsNotFound (.failedToGetOrdersByProductID .recordNotFound) = false := by
  refine ⟨?_, ?_, ?_, ?_, ?_, rfl, rfl⟩
  · intro hO
    unfold productService.GetOrderProducts
    rw [if_pos hO]
  · intro hO hno
    have hfil : ∀ p : Product, s.db.orderProducts.filter
        (fun a => a.ProductID == p.ID && a.OrderID == orderID) = [] := by
      intro p
      rw [List.filter_eq_nil_iff]
      intro a ha
      simp [hno a ha]
    simp [productService.GetOrderProducts, hO, productRepository.GetProductsByOrderID, noFaults,
      hfil]
  · intro hP
    unfold orderService.GetOrdersByProductID
    rw [if_pos hP]
  · intro hP p hget hno
    obtain ⟨-, hfind⟩ := productGetByID_ok hget
    have hfil : s.db.orderProducts.filter (fun a => a.ProductID == productID) = [] := by
      rw [List.filter_eq_nil_iff]
      intro a ha
      simp [hno a ha]
    simp [orderService.GetOrdersByProductID, hP, orderRepository.GetOrdersByProductID, noFaults,
      hfind, DB.ordersOf, hfil]
  · intro hP hmiss
    have hnone := (productGetByID_missing rfl hmiss).2
    simp [orderService.GetOrdersByProductID, hP, orderRepository.GetOrdersByProductID, noFaults,
      hnone]

/-- Witness of C19: in the example store order 1 and product 1 exist and
nothing is linked; product 9 does not exist. -/
theorem joins_without_links_witness :
    (productService.GetOrderProducts noFaults exampleStore 1).1 = .ok [] ∧
    (orderService.GetOrdersByProductID noFaults exampleStore 1).1 = .ok [] ∧
    (orderService.GetOrdersByProductID noFaults exampleStore 9).1 =
      .error (.failedToGetOrdersByProductID .recordNotFound) ∧
    (orderService.GetOrdersByProductID noFaults exampleStore 0).1 =
      .error .invalidProductID := by
  have h1 := joins_without_links exampleStore 1 1
  have h9 := joins_without_links exampleStore 1 9
  exact ⟨h1.2.1 (by decide) (by decide),
    h1.2.2.2.1 (by decide) ⟨1, "P", "", 5, 10, false⟩ rfl (by decide),
    h9.2.2.2.2.1 (by decide) rfl, rfl⟩

/-! ## Frames: what the operations leave alone -/

theorem repo_links (f : Faults) (s : Store) :
    (∀ x, (productRepository.Create f s x).2.db.orderProducts = s.db.orderProducts) ∧
    (∀ x, (productRepository.GetByID f s x).2.db.orderProducts = s.db.orderProducts) ∧
    (∀ x, (productRepository.Update f s x).2.db.orderProducts = s.db.orderProducts) ∧
    (∀ x, (productRepository.Delete f s x).2.db.orderProducts = s.db.orderProducts) ∧
    (∀ x, (orderRepository.Create f s x).2.db.orderProducts = s.db.orderProducts) ∧
    (∀ x, (orderRepository.GetByID f s x).2.db.orderProducts = s.db.orderProducts) ∧
    (∀ x, (orderRepository.Update f s x).2.db.orderProducts = s.db.orderProducts) ∧
    (∀ x d, (orderRepository.UpdateField f s x d).2.db.orderProducts = s.db.orderProducts) ∧
    (∀ x, (orderRepository.Delete f s x).2.db.orderProducts = s.db.orderProducts) := by
  refine ⟨?_, ?_, ?_, ?_, ?_, ?_, ?_, ?_, ?_⟩
  · intro x; unfold productRepository.Create; simp only [Store.withDB, Store.record]
    split_ifs <;> rfl
  · intro x; rw [productGetByID_eq]; rfl
  · intro x; unfold productRepository.Update; simp only [Store.withDB, Store.record]
    split_ifs <;> rfl
  · intro x; unfold productRepository.Delete; simp only [Store.withDB, Store.record]
    split_ifs <;> rfl
  · intro x; unfold orderRepository.Create; simp only [Store.withDB, Store.record]
    split_ifs <;> rfl
  · intro x; rw [orderGetByID_eq]; rfl
  · intro x; unfold orderRepository.Update; simp only [Store.withDB, Store.record]
    split_ifs <;> rfl
  · intro x d; unfold orderRepository.UpdateField; simp only [Store.withDB, Store.record]
    split_ifs <;> rfl
  · intro x; unfold orderRepository.Delete; simp only [Store.withDB, Store.record]
    split_ifs <;> rfl

theorem exec_links (f : Faults) (s : Store) (op : Op) (h : op.isLinkCall = false) :
    (op.exec f s).db.orderProducts = s.db.orderProducts := by
  obtain ⟨h1, h2, h3, h4, h5, h6, h7, h8, h9⟩ := repo_links f s
  cases op <;> simp only [Op.isLinkCall, reduceCtorEq] at h <;> simp only [Op.exec]
  · rename_i n d p k
    unfold productService.CreateProduct
    split_ifs <;> try rfl
    have := h1 ⟨0, n, d, p, k, false⟩
    rcases hc : productRepository.Create f s ⟨0, n, d, p, k, false⟩ with ⟨e | x, s1⟩ <;>
      rw [hc] at this <;> exact this
  · rename_i i n d p k
    unfold productService.UpdateProduct
    split_ifs <;> try rfl
    have hg := h2 i
    rcases hc : productRepository.GetByID f s i with ⟨e | x, s1⟩ <;> rw [hc] at hg
    · exact hg
    · have hu := (repo_links f s1).2.2.1 ⟨x.ID, n, d, p, k, x.Deleted⟩
      simp only
      rcases hc2 : productRepository.Update f s1 ⟨x.ID, n, d, p, k, x.Deleted⟩ with
        ⟨e | y, s2⟩ <;> rw [hc2] at hu <;> exact hu.trans hg
  · rename_i i
    unfold productService.DeleteProduct
    split_ifs <;> try rfl
    have := h4 i
    rcases hc : productRepository.Delete f s i with ⟨e | x, s1⟩ <;>
      rw [hc] at this <;> exact this
  · rename_i d
    unfold orderService.CreateOrder
    split_ifs <;> try rfl
    have := h5 ⟨0, d, false⟩
    rcases hc : orderRepository.Create f s ⟨0, d, false⟩ with ⟨e | x, s1⟩ <;>
      rw [hc] at this <;> exact this
  · rename_i i d
    unfold orderService.UpdateOrder
    split_ifs <;> try rfl
    have hg := h6 i
    rcases hc : orderRepository.GetByID f s i with ⟨e | x, s1⟩ <;> rw [hc] at hg
    · exact hg
    · have hu := (repo_links f s1).2.2.2.2.2.2.1 ⟨x.ID, d, x.Deleted⟩
      simp only
      rcases hc2 : orderRepository.Update f s1 ⟨x.ID, d, x.Deleted⟩ with
        ⟨e | y, s2⟩ <;> rw [hc2] at hu <;> exact hu.trans hg
  · rename_i i d
    unfold orderService.UpdateOrderDescription
    split_ifs <;> try rfl
    have := h8 i d
    rcases hc : orderRepository.UpdateField f s i d with ⟨e | x, s1⟩ <;>
      rw [hc] at this <;> exact this
  · rename_i i
    unfold orderService.DeleteOrder
    split_ifs <;> try rfl
    have := h9 i
    rcases hc : orderRepository.Delete f s i with ⟨e | x, s1⟩ <;>
      rw [hc] at this <;> exact this

theorem run_links (trace : List (Faults × Op)) :
    ∀ s : Store, (∀ x ∈ trace, x.2.isLinkCall = false) →
      (run s trace).db.orderProducts = s.db.orderProducts := by
  induction trace with
  | nil => intro s _; rfl
  | cons x rest ih =>
    intro s h
    obtain ⟨f, op⟩ := x
    show (run (op.exec f s) rest).db.orderProducts = s.db.orderProducts
    rw [ih (op.exec f s) (fun y hy => h y (List.mem_cons_of_mem _ hy))]
    exact exec_links f s op (h (f, op) (List.mem_cons_self _ _))

theorem add_success (f : Faults) (s : Store) (O P : Nat) (q : Int)
    (hok : (productService.AddProductToOrder f s O P q).1 = .ok ()) :
    ∃ p, s.db.products.find? (fun x => x.ID == P && !x.Deleted) = some p ∧
      O ≠ 0 ∧ P ≠ 0 ∧ 0 < q ∧ q ≤ p.Stock ∧
      s.db.orderProducts.any (fun a => a.OrderID == O && a.ProductID == P) = false ∧
      (productService.AddProductToOrder f s O P q).2.db =
        (s.db.link O P q p.Price).put { p with Stock := p.Stock - q } := by
  rcases AddProductToOrder_cases f s O P q _ rfl with ⟨e, he, _⟩ | ⟨p, hp, hO, hP, hq, hst, hany, h⟩
  · rw [hok] at he; cases he
  · rcases h with ⟨_, _, hdb⟩ | ⟨_, he, _⟩
    · exact ⟨p, hp, hO, hP, hq, hst, hany, hdb⟩
    · rw [hok] at he; cases he

/-- C21 (frame of the ledger operations): `CreateProduct`, `UpdateProduct`,
`DeleteProduct`, `CreateOrder`, `UpdateOrder`, `UpdateOrderDescription` and
`DeleteOrder` leave the association table exactly as it was, for every store
state, all arguments and every plan of store failures; in particular deleting
an order or a product does not delete its associations. -/
theorem ledger_operations_keep_associations (f : Faults) (s : Store) :
    (∀ n d p k, (productService.CreateProduct f s n d p k).2.db.orderProducts
      = s.db.orderProducts) ∧
    (∀ i n d p k, (productService.UpdateProduct f s i n d p k).2.db.orderProducts
      = s.db.orderProducts) ∧
    (∀ i, (productService.DeleteProduct f s i).2.db.orderProducts = s.db.orderProducts) ∧
    (∀ d, (orderService.CreateOrder f s d).2.db.orderProducts = s.db.orderProducts) ∧
    (∀ i d, (orderService.UpdateOrder f s i d).2.db.orderProducts = s.db.orderProducts) ∧
    (∀ i d, (orderService.UpdateOrderDescription f s i d).2.db.orderProducts
      = s.db.orderProducts) ∧
    (∀ i, (orderService.DeleteOrder f s i).2.db.orderProducts = s.db.orderProducts) :=
  ⟨fun n d p k => exec_links f s (.createProduct n d p k) rfl,
   fun i n d p k => exec_links f s (.updateProduct i n d p k) rfl,
   fun i => exec_links f s (.deleteProduct i) rfl,
   fun d => exec_links f s (.createOrder d) rfl,
   fun i d => exec_links f s (.updateOrder i d) rfl,
   fun i d => exec_links f s (.updateOrderDescription i d) rfl,
   fun i => exec_links f s (.deleteOrder i) rfl⟩

/-- C22 (price snapshot): when `AddProductToOrder(O, P, q)` succeeds, the
association table is the old one followed by the row `(O, P, q, price)` with
the price the product had at that moment, and it stays so through every later
sequence of calls other than `AddProductToOrder` and `RemoveProductFromOrder`,
`UpdateProduct` with a new price among them: every association of the pair
`(O, P)` still carries the price and the quantity of the moment of the call. -/
theorem price_snapshot (f : Faults) (s : Store) (O P : Nat) (q : Int)
    (hok : (productService.AddProductToOrder f s O P q).1 = .ok ())
    (later : List (Faults × Op)) (hl : ∀ x ∈ later, x.2.isLinkCall = false) :
    ∃ p, (productRepository.GetByID noFaults s P).1 = .ok p ∧
      (run (productService.AddProductToOrder f s O P q).2 later).db.orderProducts =
        s.db.orderProducts ++ [⟨O, P, q, p.Price⟩] ∧
      ∀ a ∈ (run (productService.AddProductToOrder f s O P q).2 later).db.orderProducts,
        a.OrderID = O → a.ProductID = P → a.Price = p.Price ∧ a.Quantity = q := by
  obtain ⟨p, hp, _, _, _, _, hany, hdb⟩ := add_success f s O P q hok
  have hlinks : (run (productService.AddProductToOrder f s O P q).2 later).db.orderProducts =
      s.db.orderProducts ++ [⟨O, P, q, p.Price⟩] := by
    rw [run_links later _ hl, hdb]; rfl
  refine ⟨p, getByID_of_find rfl hp, hlinks, ?_⟩
  intro a ha hO hP
  rw [hlinks, List.mem_append] at ha
  rcases ha with ha | ha
  · exfalso
    have : s.db.orderProducts.any (fun a => a.OrderID == O && a.ProductID == P) = true := by
      rw [List.any_eq_true]
      exact ⟨a, ha, by simp [hO, hP]⟩
    rw [hany] at this; cases this
  · rw [List.mem_singleton] at ha
    subst ha
    exact ⟨rfl, rfl⟩

/-- Witness of C22: product `P` is added to order 1 at price 5 and then
updated to price 9; the association still carries price 5. -/
theorem price_snapshot_witness :
    (productService.AddProductToOrder noFaults exampleStore 1 1 4).1 = .ok () ∧
    ∃ p, (productRepository.GetByID noFaults exampleStore 1).1 = .ok p ∧
      (run (productService.AddProductToOrder noFaults exampleStore 1 1 4).2
        [(noFaults, .updateProduct 1 "P" "" 9 6)]).db.orderProducts =
        exampleStore.db.orderProducts ++ [⟨1, 1, 4, p.Price⟩] ∧
      ∀ a ∈ (run (productService.AddProductToOrder noFaults exampleStore 1 1 4).2
          [(noFaults, .updateProduct 1 "P" "" 9 6)]).db.orderProducts,
        a.OrderID = 1 → a.ProductID = 1 → a.Price = p.Price ∧ a.Quantity = 4 :=
  ⟨rfl, price_snapshot noFaults exampleStore 1 1 4 rfl [(noFaults, .updateProduct 1 "P" "" 9 6)]
    (by simp [Op.isLinkCall])⟩

/-- C28 (frame of a successful `AddProductToOrder(O, P, q)`): of the product
only the stock changes (the product read back is the one read before with
stock lowered by `q`: id, name, description and price are the same), the rows
of every other product are the same, the orders table is the same, and the
associations of every pair other than `(O, P)` are the same. -/
theorem addProductToOrder_frame (f : Faults) (s : Store) (O P : Nat) (q : Int)
    (hok : (productService.AddProductToOrder f s O P q).1 = .ok ()) :
    ∃ p, (productRepository.GetByID noFaults s P).1 = .ok p ∧
      (productRepository.GetByID noFaults (productService.AddProductToOrder f s O P q).2 P).1 =
        .ok { p with Stock := p.Stock - q } ∧
      (∀ x : Product, x.ID ≠ P →
        (x ∈ (productService.AddProductToOrder f s O P q).2.db.products ↔ x ∈ s.db.products)) ∧
      (productService.AddProductToOrder f s O P q).2.db.products.map (fun x => x.ID) =
        s.db.products.map (fun x => x.ID) ∧
      (productService.AddProductToOrder f s O P q).2.db.orders = s.db.orders ∧
      (∀ a : OrderProduct, ¬ (a.OrderID = O ∧ a.ProductID = P) →
        (a ∈ (productService.AddProductToOrder f s O P q).2.db.orderProducts ↔
          a ∈ s.db.orderProducts)) := by
  obtain ⟨p, hp, _, _, _, _, _, hdb⟩ := add_success f s O P q hok
  have hpid : p.ID = P := by
    have := (find_mem hp).2
    simp only [Bool.and_eq_true, beq_iff_eq] at this
    exact this.1
  have hpdel : p.Deleted = false := by
    have := (find_mem hp).2
    simp only [Bool.and_eq_true, Bool.not_eq_true', beq_iff_eq] at this
    exact this.2
  refine ⟨p, getByID_of_find rfl hp, ?_, ?_, ?_, ?_, ?_⟩
  · apply getByID_of_find rfl
    rw [hdb]
    exact find_put hp rfl hpdel
  · intro x hx
    rw [hdb]
    have hx2 : x.ID ≠ ({ p with Stock := p.Stock - q } : Product).ID := by
      show x.ID ≠ p.ID
      rw [hpid]; exact hx
    exact mem_put_other hx2
  · rw [hdb]
    show (s.db.products.map _).map _ = _
    rw [List.map_map]
    apply List.map_congr_left
    intro x _
    show (if x.ID = p.ID then _ else x).ID = x.ID
    split_ifs with h
    · exact h.symm
    · rfl
  · rw [hdb]; rfl
  · intro a ha
    rw [hdb]
    show a ∈ s.db.orderProducts ++ [_] ↔ _
    rw [List.mem_append, List.mem_singleton]
    constructor
    · rintro (h | h)
      · exact h
      · exfalso; apply ha; subst h; exact ⟨rfl, rfl⟩
    · intro h; exact Or.inl h

/-- Witness of C28: `AddProductToOrder(1, 1, 4)` on the example store. -/
theorem addProductToOrder_frame_witness :
    (productService.AddProductToOrder noFaults exampleStore 1 1 4).1 = .ok () ∧
    ∃ p, (productRepository.GetByID noFaults exampleStore 1).1 = .ok p ∧
      (productRepository.GetByID noFaults
        (productService.AddProductToOrder noFaults exampleStore 1 1 4).2 1).1 =
        .ok { p with Stock := p.Stock - 4 } ∧
      (∀ x : Product, x.ID ≠ 1 →
        (x ∈ (productService.AddProductToOrder noFaults exampleStore 1 1 4).2.db.products ↔
          x ∈ exampleStore.db.products)) ∧
      (productService.AddProductToOrder noFaults exampleStore 1 1 4).2.db.products.map
          (fun x => x.ID) = exampleStore.db.products.map (fun x => x.ID) ∧
      (productService.AddProductToOrder noFaults exampleStore 1 1 4).2.db.orders =
        exampleStore.db.orders ∧
      (∀ a : OrderProduct, ¬ (a.OrderID = 1 ∧ a.ProductID = 1) →
        (a ∈ (productService.AddProductToOrder noFaults exampleStore 1 1 4).2.db.orderProducts ↔
          a ∈ exampleStore.db.orderProducts)) :=
  ⟨rfl, addProductToOrder_frame noFaults exampleStore 1 1 4 rfl⟩

/-! ## Errors of the repositories reach the caller -/

theorem query_error_wrapped (f : Faults) (s : Store) (q : Query) (e : StoreError)
    (h : q.repoError f s = some e) : ∃ se, q.err f s = some se ∧ se.cause = some e := by
  cases q <;> simp only [Query.repoError] at h <;>
    simp only [Query.err, productService.GetProductByID, productService.GetAllProducts,
      productService.GetProductsByName, productService.GetOrderProducts,
      productService.FilterProducts, productService.GetProductsWithOrders,
      orderService.GetOrderByID, orderService.GetAllOrders, orderService.GetOrdersByDescription,
      orderService.GetOrdersByProductID, orderService.GetOrdersWithProducts,
      orderService.GetOrderByIDWithProducts]
  all_goals (try split_ifs at h ⊢)
  all_goals
    (split <;> rename_i heq <;> rw [heq] at h <;>
      simp only [storeErrorOf, reduceCtorEq, Option.some.injEq] at h)
  all_goals (subst h; exact ⟨_, rfl, rfl⟩)

theorem op_error_wrapped (f : Faults) (s : Store) (op : Op) (e : StoreError)
    (h : op.repoError f s = some e) : ∃ se, op.err f s = some se ∧ se.cause = some e := by
  cases op with
  | createProduct n d p k =>
    simp only [Op.repoError] at h
    simp only [Op.err, productService.CreateProduct]
    split_ifs at h ⊢ <;> try (exfalso; tauto)
    split <;> rename_i heq <;> rw [heq] at h <;>
      simp only [storeErrorOf, reduceCtorEq, Option.some.injEq] at h
    subst h; exact ⟨_, rfl, rfl⟩
  | updateProduct i n d p k =>
    simp only [Op.repoError] at h
    simp only [Op.err, productService.UpdateProduct]
    split_ifs at h ⊢ <;> try (exfalso; tauto)
    rcases hc : productRepository.GetByID f s i with ⟨c | x, s1⟩ <;> rw [hc] at h <;>
      simp only at h ⊢
    · simp only [Option.some.injEq] at h
      subst h; exact ⟨_, rfl, rfl⟩
    · split <;> rename_i heq <;> rw [heq] at h <;>
        simp only [storeErrorOf, reduceCtorEq, Option.some.injEq] at h
      subst h; exact ⟨_, rfl, rfl⟩
  | deleteProduct i =>
    simp only [Op.repoError] at h
    simp only [Op.err, productService.DeleteProduct]
    split_ifs at h ⊢
    split <;> rename_i heq <;> rw [heq] at h <;>
      simp only [storeErrorOf, reduceCtorEq, Option.some.injEq] at h
    subst h; exact ⟨_, rfl, rfl⟩
  | addProductToOrder o p q =>
    simp only [Op.repoError] at h
    simp only [Op.err, productService.AddProductToOrder]
    split_ifs at h ⊢ <;> try (exfalso; tauto)
    rcases hc : orderRepository.GetByID f s o with ⟨c | x, s1⟩ <;> rw [hc] at h <;>
      simp only at h ⊢
    · simp only [Option.some.injEq] at h
      subst h; exact ⟨_, rfl, rfl⟩
    · rcases hc2 : productRepository.GetByID f s1 p with ⟨c | y, s2⟩ <;> rw [hc2] at h <;>
        simp only at h ⊢
      · simp only [Option.some.injEq] at h
        subst h; exact ⟨_, rfl, rfl⟩
      · split_ifs at h ⊢
        rcases hc3 : productRepository.AddProductToOrder f s2 o p q y.Price with
          ⟨c | z, s3⟩ <;> rw [hc3] at h <;> simp only at h ⊢
        · simp only [Option.some.injEq] at h
          subst h; exact ⟨_, rfl, rfl⟩
        · split <;> rename_i heq <;> rw [heq] at h <;>
            simp only [storeErrorOf, reduceCtorEq, Option.some.injEq] at h
          subst h; exact ⟨_, rfl, rfl⟩
  | removeProductFromOrder o p =>
    simp only [Op.repoError] at h
    simp only [Op.err, productService.RemoveProductFromOrder]
    split_ifs at h ⊢ <;> try (exfalso; tauto)
    split <;> rename_i heq <;> rw [heq] at h <;>
      simp only [storeErrorOf, reduceCtorEq, Option.some.injEq] at h
    subst h; exact ⟨_, rfl, rfl⟩
  | createOrder d =>
    simp only [Op.repoError] at h
    simp only [Op.err, orderService.CreateOrder]
    split_ifs at h ⊢
    split <;> rename_i heq <;> rw [heq] at h <;>
      simp only [storeErrorOf, reduceCtorEq, Option.some.injEq] at h
    subst h; exact ⟨_, rfl, rfl⟩
  | updateOrder i d =>
    simp only [Op.repoError] at h
    simp only [Op.err, orderService.UpdateOrder]
    split_ifs at h ⊢ <;> try (exfalso; tauto)
    rcases hc : orderRepository.GetByID f s i with ⟨c | x, s1⟩ <;> rw [hc] at h <;>
      simp only at h ⊢
    · simp only [Option.some.injEq] at h
      subst h; exact ⟨_, rfl, rfl⟩
    · split <;> rename_i heq <;> rw [heq] at h <;>
        simp only [storeErrorOf, reduceCtorEq, Option.some.injEq] at h
      subst h; exact ⟨_, rfl, rfl⟩
  | updateOrderDescription i d =>
    simp only [Op.repoError] at h
    simp only [Op.err, orderService.UpdateOrderDescription]
    split_ifs at h ⊢ <;> try (exfalso; tauto)
    split <;> rename_i heq <;> rw [heq] at h <;>
      simp only [storeErrorOf, reduceCtorEq, Option.some.injEq] at h
    subst h; exact ⟨_, rfl, rfl⟩
  | deleteOrder i =>
    simp only [Op.repoError] at h
    simp only [Op.err, orderService.DeleteOrder]
    split_ifs at h ⊢
    split <;> rename_i heq <;> rw [heq] at h <;>
      simp only [storeErrorOf, reduceCtorEq, Option.some.injEq] at h
    subst h; exact ⟨_, rfl, rfl⟩

/-- C23 (no error swallowed): for every operation of the product service and
of the order service, every store and every plan of store failures, when a
repository call the operation makes returns an error, the operation returns
an error, and that error wraps the repository's error. -/
theorem no_error_swallowed (f : Faults) (s : Store) (call : Call) (e : StoreError)
    (h : call.repoError f s = some e) : ∃ se, call.err f s = some se ∧ se.cause = some e := by
  cases call with
  | write op => exact op_error_wrapped f s op e h
  | read q => exact query_error_wrapped f s q e h

/-- Witness of C23: when the write of the stock fails, `AddProductToOrder`
returns "failed to update product stock" around the store's error; when no
order has id 9, `GetOrderByID(9)` returns "failed to get order" around the
record-not-found error. -/
theorem no_error_swallowed_witness :
    (Call.write (.addProductToOrder 1 1 4)).repoError stockWriteFails exampleStore
      = some .failure ∧
    (∃ se, (Call.write (.addProductToOrder 1 1 4)).err stockWriteFails exampleStore = some se ∧
      se.cause = some .failure) ∧
    (Call.write (.addProductToOrder 1 1 4)).err stockWriteFails exampleStore
      = some (.failedToUpdateProductStock .failure) ∧
    (Call.read (.getOrderByID 9)).repoError noFaults exampleStore = some .recordNotFound ∧
    (∃ se, (Call.read (.getOrderByID 9)).err noFaults exampleStore = some se ∧
      se.cause = some .recordNotFound) :=
  ⟨rfl,
   no_error_swallowed stockWriteFails exampleStore (.write (.addProductToOrder 1 1 4)) .failure
     rfl,
   rfl, rfl,
   no_error_swallowed noFaults exampleStore (.read (.getOrderByID 9)) .recordNotFound rfl⟩

/-! ## The `GetOrder` handler and `MagnifySlice` -/

/-- C24: the `GetOrder` handler never answers 404.  For id 9 in a store whose
only order is order 1, `GetOrderByID` returns "failed to get order" around the
store's record-not-found error, `IsNotFound` does not accept it, and the
handler answers 500 "Failed to fetch order". -/
theorem getOrder_missing_answers_500 :
    (orderService.GetOrderByID noFaults exampleStore 9).1 =
      .error (.failedToGetOrder .recordNotFound) ∧
    errors.IsNotFound (.failedToGetOrder .recordNotFound) = false ∧
    (OrderHandler.GetOrder noFaults exampleStore (some 9)).1 =
      .error 500 "Failed to fetch order" (some (.failedToGetOrder .recordNotFound)) ∧
    ∀ (f : Faults) (s : Store) (id : Option Nat),
      (OrderHandler.GetOrder f s id).1 ≠ .error 404 "Order not found" none := by
  refine ⟨rfl, rfl, rfl, ?_⟩
  intro f s id
  cases id with
  | none => simp [OrderHandler.GetOrder]
  | some i =>
    unfold OrderHandler.GetOrder
    simp only
    rcases hg : orderService.GetOrderByID f s i with ⟨e | o, s1⟩
    · simp [errors.IsNotFound, errors.asAPIError]
    · simp

/-- C26: `MagnifySlice` returns the empty slice for every input.  For
`[1, 2, 3]` and multiplier 2 it returns `[]`, of length 0, where its comment
announces `[1, 1, 2, 2, 3, 3]`, of length 6. -/
theorem magnifySlice_returns_empty :
    (∀ (slice : List Int) (multiplier : Int), Demo3.MagnifySlice slice multiplier = []) ∧
    Demo3.MagnifySlice [1, 2, 3] 2 = [] ∧
    Demo3.MagnifySlice [1, 2, 3] 2 ≠ [1, 1, 2, 2, 3, 3] ∧
    (Demo3.MagnifySlice [1, 2, 3] 2).length ≠ [1, 2, 3].length * 2 := by
  refine ⟨fun _ _ => rfl, rfl, ?_, ?_⟩
  · simp [Demo3.MagnifySlice]
  · simp [Demo3.MagnifySlice]

/-! ## Filters that ask for more -/

theorem filtered_ok (s : Store) (r : FilterProductsRequest) :
    ∃ query : List (Product → Bool),
      filtered s r = .ok (s.db.findProducts query) ∧
      ∀ p : Product, (∀ c ∈ query, c p = true) ↔
        ((r.Name ≠ "" → likeContains r.Name p.Name = true) ∧
         (r.Description ≠ "" → likeContains r.Description p.Description = true) ∧
         (∀ m, r.MinPrice = some m → m ≤ p.Price) ∧ (∀ m, r.MaxPrice = some m → p.Price ≤ m) ∧
         (∀ m, r.MinStock = some m → m ≤ p.Stock) ∧ (∀ m, r.MaxStock = some m → p.Stock ≤ m)) := by
  obtain ⟨query, heq, hq⟩ := filterProducts_ok s r.Name r.Description r.MinPrice r.MaxPrice
    r.MinStock r.MaxStock
  exact ⟨query, by unfold filtered; rw [heq], hq⟩

theorem findProducts_sublist (d : DB) (qg qf : List (Product → Bool))
    (h : ∀ p : Product, (∀ c ∈ qg, c p = true) → ∀ c ∈ qf, c p = true) :
    (d.findProducts qg).Sublist (d.findProducts qf) := by
  unfold DB.findProducts
  apply List.monotone_filter_right
  intro p hp
  simp only [Bool.and_eq_true, Bool.not_eq_true', List.all_eq_true] at hp ⊢
  exact ⟨hp.1, h p hp.2⟩

theorem findProducts_nil (d : DB) (q : List (Product → Bool))
    (h : ∀ p : Product, ¬ ∀ c ∈ q, c p = true) : d.findProducts q = [] := by
  unfold DB.findProducts
  rw [List.filter_eq_nil_iff]
  intro p _ hp
  simp only [Bool.and_eq_true, Bool.not_eq_true', List.all_eq_true] at hp
  exact h p hp.2

/-- C29 (filter monotonicity): for every store, the store not failing, when
filter `g` supplies every field that filter `f` supplies, with the same value,
and possibly more, the list `FilterProducts` returns for `g` is a sub-list of
the list it returns for `f`; and a filter whose `minPrice` exceeds its
`maxPrice`, or whose `minStock` exceeds its `maxStock`, returns the empty
list. -/
theorem filter_monotone (s : Store) (f g : FilterProductsRequest) (h : g.refines f) :
    (∃ lf lg, filtered s f = .ok lf ∧ filtered s g = .ok lg ∧ lg.Sublist lf) ∧
    (((∃ a b, g.MinPrice = some a ∧ g.MaxPrice = some b ∧ b < a) ∨
      (∃ a b, g.MinStock = some a ∧ g.MaxStock = some b ∧ b < a)) →
      filtered s g = .ok []) := by
  obtain ⟨qf, hef, hqf⟩ := filtered_ok s f
  obtain ⟨qg, heg, hqg⟩ := filtered_ok s g
  obtain ⟨h1, h2, h3, h4, h5, h6⟩ := h
  constructor
  · refine ⟨_, _, hef, heg, findProducts_sublist s.db qg qf ?_⟩
    intro p hp
    obtain ⟨g1, g2, g3, g4, g5, g6⟩ := (hqg p).mp hp
    apply (hqf p).mpr
    refine ⟨?_, ?_, ?_, ?_, ?_, ?_⟩
    · intro hn
      have hgn := h1 hn
      rw [← hgn]; exact g1 (by rw [hgn]; exact hn)
    · intro hn
      have hgn := h2 hn
      rw [← hgn]; exact g2 (by rw [hgn]; exact hn)
    · intro m hm
      exact g3 m ((h3 (by rw [hm]; simp)).trans hm)
    · intro m hm
      exact g4 m ((h4 (by rw [hm]; simp)).trans hm)
    · intro m hm
      exact g5 m ((h5 (by rw [hm]; simp)).trans hm)
    · intro m hm
      exact g6 m ((h6 (by rw [hm]; simp)).trans hm)
  · intro hbad
    rw [heg, findProducts_nil]
    intro p hp
    obtain ⟨_, _, g3, g4, g5, g6⟩ := (hqg p).mp hp
    rcases hbad with ⟨a, b, ha, hb, hlt⟩ | ⟨a, b, ha, hb, hlt⟩
    · exact absurd (le_trans (g3 a ha) (g4 b hb)) (not_le.mpr hlt)
    · exact absurd (le_trans (g5 a ha) (g6 b hb)) (not_le.mpr hlt)

/-- Witness of C29: over products priced 2, 5 and 7, the filter with
`minPrice 3` returns the second and third, the filter with `minPrice 3` and
`maxPrice 5` returns the second only, and the filter with `minPrice 7` and
`maxPrice 3` returns nothing. -/
theorem filter_monotone_witness :
    FilterProductsRequest.refines ⟨"", "", some 3, some 5, none, none⟩
      ⟨"", "", some 3, none, none, none⟩ ∧
    ((∃ lf lg, filtered exampleThreeProducts ⟨"", "", some 3, none, none, none⟩ = .ok lf ∧
        filtered exampleThreeProducts ⟨"", "", some 3, some 5, none, none⟩ = .ok lg ∧
        lg.Sublist lf) ∧
     (((∃ a b, (⟨"", "", some 3, some 5, none, none⟩ : FilterProductsRequest).MinPrice = some a ∧
          (⟨"", "", some 3, some 5, none, none⟩ : FilterProductsRequest).MaxPrice = some b ∧
          b < a) ∨
       (∃ a b, (⟨"", "", some 3, some 5, none, none⟩ : FilterProductsRequest).MinStock = some a ∧
          (⟨"", "", some 3, some 5, none, none⟩ : FilterProductsRequest).MaxStock = some b ∧
          b < a)) →
      filtered exampleThreeProducts ⟨"", "", some 3, some 5, none, none⟩ = .ok [])) ∧
    filtered exampleThreeProducts ⟨"", "", some 3, none, none, none⟩ =
      .ok [⟨2, "B", "", 5, 0, false⟩, ⟨3, "C", "", 7, 3, false⟩] ∧
    filtered exampleThreeProducts ⟨"", "", some 3, some 5, none, none⟩ =
      .ok [⟨2, "B", "", 5, 0, false⟩] ∧
    filtered exampleThreeProducts ⟨"", "", some 7, some 3, none, none⟩ = .ok [] :=
  ⟨by simp [FilterProductsRequest.refines],
   filter_monotone exampleThreeProducts ⟨"", "", some 3, none, none, none⟩
     ⟨"", "", some 3, some 5, none, none⟩ (by simp [FilterProductsRequest.refines]),
   rfl, rfl, rfl⟩

/-! ## The stock ledger over calls run one at a time -/

theorem find_put_other {l : List Product} {P : Nat} {p' : Product} (hid : p'.ID ≠ P) :
    (l.map (fun x => if x.ID = p'.ID then p' else x)).find?
      (fun x => x.ID == P && !x.Deleted) = l.find? (fun x => x.ID == P && !x.Deleted) := by
  induction l with
  | nil => rfl
  | cons x xs ih =>
    rw [List.map_cons, List.find?_cons, List.find?_cons, ih]
    by_cases hx : x.ID = p'.ID
    · have h1 : (p'.ID == P) = false := by simp [hid]
      have h2 : (x.ID == P) = false := by simp [hx, hid]
      simp only [hx, if_true, h1, h2, Bool.false_and]
    · simp only [hx, if_false]

theorem link_call_step (s : Store) (P : Nat) (p : Product) (op : Op)
    (hop : op.isLinkCall = true)
    (hfind : s.db.products.find? (fun x => x.ID == P && !x.Deleted) = some p) :
    ∃ p', (op.exec noFaults s).db.products.find? (fun x => x.ID == P && !x.Deleted) = some p' ∧
      p'.Stock = p.Stock - addedQuantity s P [op] := by
  cases op <;> simp only [Op.isLinkCall, reduceCtorEq] at hop
  · rename_i o pid q
    simp only [Op.exec, addedQuantity, add_zero]
    have herr : Op.err noFaults s (.addProductToOrder o pid q) =
        errorOf (productService.AddProductToOrder noFaults s o pid q).1 := rfl
    rcases AddProductToOrder_cases noFaults s o pid q _ rfl with
      ⟨e, he, hdb⟩ | ⟨product, hp, _, _, _, _, _, h⟩
    · have hno : ¬ (pid = P ∧ Op.err noFaults s (.addProductToOrder o pid q) = none) := by
        rintro ⟨_, h⟩
        rw [herr, he] at h
        simp [errorOf] at h
      rw [if_neg hno, hdb, sub_zero]
      exact ⟨p, hfind, rfl⟩
    · rcases h with ⟨_, hok, hdb⟩ | ⟨hbad, _, _⟩
      · have hnone : Op.err noFaults s (.addProductToOrder o pid q) = none := by
          rw [herr, hok]; rfl
        rw [hdb]
        by_cases hpid : pid = P
        · rw [if_pos ⟨hpid, hnone⟩]
          subst hpid
          rw [hfind] at hp
          simp only [Option.some.injEq] at hp
          subst hp
          have hdel : p.Deleted = false := by
            have := (find_mem hfind).2
            simp only [Bool.and_eq_true, Bool.not_eq_true', beq_iff_eq] at this
            exact this.2
          exact ⟨{ p with Stock := p.Stock - q }, find_put hfind rfl hdel, rfl⟩
        · rw [if_neg (fun hh => hpid hh.1), sub_zero]
          have hid : ({ product with Stock := product.Stock - q } : Product).ID ≠ P := by
            have := (find_mem hp).2
            simp only [Bool.and_eq_true, beq_iff_eq] at this
            show product.ID ≠ P
            rw [this.1]; exact hpid
          refine ⟨p, ?_, rfl⟩
          show ((s.db.products.map _).find? _) = _
          rw [find_put_other hid]; exact hfind
      · simp [noFaults] at hbad
  · rename_i o pid
    simp only [Op.exec, addedQuantity, add_zero, sub_zero]
    refine ⟨p, ?_, rfl⟩
    unfold productService.RemoveProductFromOrder
    split_ifs
    · exact hfind
    · exact hfind
    · exact hfind

theorem stock_ledger (P : Nat) (ops : List Op) :
    ∀ (s : Store) (p : Product),
      s.db.products.find? (fun x => x.ID == P && !x.Deleted) = some p →
      (∀ op ∈ ops, op.isLinkCall = true) →
      ∃ p', (runAll s ops).db.products.find? (fun x => x.ID == P && !x.Deleted) = some p' ∧
        p'.Stock = p.Stock - addedQuantity s P ops := by
  induction ops with
  | nil => intro s p h _; exact ⟨p, h, by simp [addedQuantity]⟩
  | cons op rest ih =>
    intro s p h hops
    obtain ⟨p1, h1, hs1⟩ := link_call_step s P p op (hops op (List.mem_cons_self _ _)) h
    obtain ⟨p2, h2, hs2⟩ := ih (op.exec noFaults s) p1 h1
      (fun x hx => hops x (List.mem_cons_of_mem _ hx))
    refine ⟨p2, h2, ?_⟩
    rw [hs2, hs1]
    have hsplit : addedQuantity s P (op :: rest) =
        addedQuantity s P [op] + addedQuantity (op.exec noFaults s) P rest := by
      simp only [addedQuantity, add_zero]
    rw [hsplit]
    ring

/-- C27 (stock conservation): for a product whose stock reads `s0` (as it
does once the product is created with stock `s0`), after every sequence of
`AddProductToOrder` and `RemoveProductFromOrder` calls, on any orders and
products, run one at a time on a store that does not fail, the product's stock
reads `s0` minus the sum of the quantities of the `AddProductToOrder` calls on
it that returned no error. -/
theorem stock_conservation (s : Store) (P : Nat) (s0 : Int) (hs : stockOf s P = some s0)
    (ops : List Op) (hops : ∀ op ∈ ops, op.isLinkCall = true) :
    stockOf (runAll s ops) P = some (s0 - addedQuantity s P ops) := by
  unfold stockOf at hs
  rcases hg : (productRepository.GetByID noFaults s P).1 with e | p
  · rw [hg] at hs; cases hs
  · rw [hg] at hs
    simp only [Option.some.injEq] at hs
    obtain ⟨_, hfind⟩ := productGetByID_ok hg
    obtain ⟨p', hf', hst⟩ := stock_ledger P ops s p hfind hops
    rw [stockOf_eq (getByID_of_find rfl hf'), hst, hs]

/-- Witness of C27: a product created with stock 10; the calls add 4 to order
1 (succeeds), add 7 (fails: 6 left), remove the link, add 5 (succeeds): the
stock reads 10 - (4 + 5) = 1. -/
theorem stock_conservation_witness :
    stockOf exampleStore 1 = some 10 ∧
    (∀ op ∈ [Op.addProductToOrder 1 1 4, Op.addProductToOrder 1 1 7,
        Op.removeProductFromOrder 1 1, Op.addProductToOrder 1 1 5], op.isLinkCall = true) ∧
    stockOf (runAll exampleStore [Op.addProductToOrder 1 1 4, Op.addProductToOrder 1 1 7,
        Op.removeProductFromOrder 1 1, Op.addProductToOrder 1 1 5]) 1 =
      some (10 - addedQuantity exampleStore 1 [Op.addProductToOrder 1 1 4,
        Op.addProductToOrder 1 1 7, Op.removeProductFromOrder 1 1,
        Op.addProductToOrder 1 1 5]) ∧
    addedQuantity exampleStore 1 [Op.addProductToOrder 1 1 4, Op.addProductToOrder 1 1 7,
        Op.removeProductFromOrder 1 1, Op.addProductToOrder 1 1 5] = 9 ∧
    stockOf (runAll exampleStore [Op.addProductToOrder 1 1 4, Op.addProductToOrder 1 1 7,
        Op.removeProductFromOrder 1 1, Op.addProductToOrder 1 1 5]) 1 = some 1 :=
  ⟨rfl, by simp [Op.isLinkCall],
   stock_conservation exampleStore 1 10 rfl _ (by simp [Op.isLinkCall]), by decide, rfl⟩

/-! ## The two ways to update an order -/

theorem updateOrder_found {s : Store} {id : Nat} {d : String} {o : Order} (hid : id ≠ 0)
    (hd : d ≠ "")
    (hf : s.db.orders.find? (fun o => o.ID == id && !o.Deleted) = some o) :
    orderService.UpdateOrder noFaults s id d =
      (.ok { o with Description := d },
        { db := s.db.putOrder { o with Description := d },
          calls := s.calls ++ [.orderGetByID] ++ [.orderUpdate] }) := by
  have hmem := (find_mem hf).1
  have hany : s.db.orders.any (fun x => x.ID == o.ID) = true := by
    rw [List.any_eq_true]; exact ⟨o, hmem, by simp⟩
  unfold orderService.UpdateOrder
  rw [if_neg hid, if_neg hd, orderGetByID_eq, hf]
  simp only [noFaults, Bool.false_eq_true, if_false]
  unfold orderRepository.Update
  simp only [noFaults, Bool.false_eq_true, if_false, Store.withDB, Store.record]
  rw [if_pos hany]
  rfl

theorem updateOrder_missing {s : Store} {id : Nat} {d : String} (hid : id ≠ 0) (hd : d ≠ "")
    (hf : s.db.orders.find? (fun o => o.ID == id && !o.Deleted) = none) :
    orderService.UpdateOrder noFaults s id d =
      (.error (.orderNotFound .recordNotFound), s.record .orderGetByID) := by
  unfold orderService.UpdateOrder
  rw [if_neg hid, if_neg hd, orderGetByID_eq, hf]
  rfl

theorem updateOrderDescription_eq {s : Store} {id : Nat} {d : String} (hid : id ≠ 0)
    (hd : d ≠ "") :
    orderService.UpdateOrderDescription noFaults s id d =
      (.ok (), { db := s.db.describeOrder id d, calls := s.calls ++ [.orderUpdateField] }) := by
  unfold orderService.UpdateOrderDescription
  rw [if_neg hid, if_neg hd]
  rfl

theorem describeOrder_missing {d : DB} {id : Nat} {text : String}
    (h : d.orders.find? (fun o => o.ID == id && !o.Deleted) = none) :
    d.describeOrder id text = d := by
  have hmap : d.orders.map
      (fun o => if o.ID = id ∧ o.Deleted = false then { o with Description := text } else o)
      = d.orders := by
    have hc : d.orders.map
        (fun o => if o.ID = id ∧ o.Deleted = false then { o with Description := text } else o)
        = d.orders.map (fun o => o) := by
      apply List.map_congr_left
      intro o ho
      have := List.find?_eq_none.mp h o ho
      simp only [Bool.and_eq_true, beq_iff_eq, Bool.not_eq_true', not_and,
        Bool.not_eq_false] at this
      rw [if_neg]
      rintro ⟨h1, h2⟩
      have := this h1
      rw [h2] at this; cases this
    rw [hc, List.map_id_fun']
    rfl
  unfold DB.describeOrder
  rw [hmap]

theorem describeOrder_found {d : DB} (hfresh : d.Fresh) {id : Nat} {text : String} {o : Order}
    (h : d.orders.find? (fun o => o.ID == id && !o.Deleted) = some o) :
    d.describeOrder id text = d.putOrder { o with Description := text } := by
  obtain ⟨hmem, hq⟩ := find_mem h
  simp only [Bool.and_eq_true, beq_iff_eq, Bool.not_eq_true'] at hq
  unfold DB.describeOrder DB.putOrder
  congr 1
  apply List.map_congr_left
  intro x hx
  show (if x.ID = id ∧ x.Deleted = false then _ else x) = if x.ID = o.ID then _ else x
  by_cases hxid : x.ID = id
  · have hxo : x = o := order_unique hfresh hx hmem (hxid.trans hq.1.symm)
    subst hxo
    rw [if_pos ⟨hxid, hq.2⟩, if_pos rfl]
  · rw [if_neg (fun hh => hxid hh.1), if_neg (fun hh => hxid (hh.trans hq.1))]

theorem find_putOrder {l : List Order} {O : Nat} {o o' : Order}
    (h : l.find? (fun x => x.ID == O && !x.Deleted) = some o) (hid : o'.ID = o.ID)
    (hdel : o'.Deleted = false) :
    (l.map (fun x => if x.ID = o'.ID then o' else x)).find?
      (fun x => x.ID == O && !x.Deleted) = some o' := by
  have hO : o.ID = O := by
    have := (find_mem h).2
    simp only [Bool.and_eq_true, beq_iff_eq] at this
    exact this.1
  induction l with
  | nil => simp at h
  | cons x xs ih =>
    rw [List.map_cons, List.find?_cons]
    by_cases hx : x.ID = o'.ID
    · simp [hx, hid, hO, hdel]
    · have hx' : ¬ x.ID = O := by rw [← hO, ← hid]; exact hx
      have hb : (x.ID == O) = false := by simp [hx']
      rw [List.find?_cons] at h
      simp only [hx, if_false, hb, Bool.false_and] at h ⊢
      exact ih h

theorem orderGetByID_of_find {f : Faults} {s : Store} {id : Nat} {o : Order}
    (hf : f .orderGetByID = false)
    (h : s.db.orders.find? (fun x => x.ID == id && !x.Deleted) = some o) :
    (orderRepository.GetByID f s id).1 = .ok o := by
  rw [orderGetByID_eq, hf, h]
  rfl

/-- C30, as stated, fails when no order has the id: in a store whose only
order is order 1, `UpdateOrder(9, "new text")` returns the not-found error
while `UpdateOrderDescription(9, "new text")` returns no error. -/
theorem updateOrder_paths_disagree :
    (orderService.UpdateOrder noFaults exampleStore 9 "new text").1 =
      .error (.orderNotFound .recordNotFound) ∧
    (orderService.UpdateOrderDescription noFaults exampleStore 9 "new text").1 = .ok () ∧
    (orderRepository.GetByID noFaults exampleStore 9).1 = .error .recordNotFound :=
  ⟨rfl, rfl, rfl⟩

/-- C30 (the two update paths): in every reachable store, the store not
failing, `UpdateOrder(id, d)` and `UpdateOrderDescription(id, d)` with a
non-empty description leave the tables in the same state.  With id 0 both
return the error "invalid order ID".  When an order has the id both succeed,
and the order is read back with the new description.  When no order has the
(non-zero) id the tables are unchanged, `UpdateOrder` returns the not-found
error and `UpdateOrderDescription` returns no error. -/
theorem updateOrder_paths (s : Store) (hr : Reachable s) (id : Nat) (d : String)
    (hd : d ≠ "") :
    (orderService.UpdateOrder noFaults s id d).2.db =
      (orderService.UpdateOrderDescription noFaults s id d).2.db ∧
    (id = 0 →
      (orderService.UpdateOrder noFaults s id d).1 = .error .invalidOrderID ∧
      (orderService.UpdateOrderDescription noFaults s id d).1 = .error .invalidOrderID) ∧
    (∀ o, (orderRepository.GetByID noFaults s id).1 = .ok o →
      (orderService.UpdateOrder noFaults s id d).1 = .ok { o with Description := d } ∧
      (orderService.UpdateOrderDescription noFaults s id d).1 = .ok () ∧
      (orderRepository.GetByID noFaults
        (orderService.UpdateOrderDescription noFaults s id d).2 id).1 =
        .ok { o with Description := d }) ∧
    (id ≠ 0 → (orderRepository.GetByID noFaults s id).1 = .error .recordNotFound →
      (orderService.UpdateOrder noFaults s id d).1 = .error (.orderNotFound .recordNotFound) ∧
      (orderService.UpdateOrderDescription noFaults s id d).1 = .ok () ∧
      (orderService.UpdateOrder noFaults s id d).2.db = s.db) := by
  have hinv := Inv_of_reachable hr
  have hfresh := Fresh_of_reachable hr
  refine ⟨?_, ?_, ?_, ?_⟩
  · by_cases hid : id = 0
    · subst hid; rfl
    · rw [updateOrderDescription_eq hid hd]
      cases hf : s.db.orders.find? (fun o => o.ID == id && !o.Deleted) with
      | none =>
        rw [updateOrder_missing hid hd hf]
        show s.db = s.db.describeOrder id d
        rw [describeOrder_missing hf]
      | some o =>
        rw [updateOrder_found hid hd hf]
        show s.db.putOrder _ = s.db.describeOrder id d
        rw [describeOrder_found hfresh hf]
  · intro hid; subst hid; exact ⟨rfl, rfl⟩
  · intro o ho
    obtain ⟨_, hf⟩ := orderGetByID_ok ho
    obtain ⟨hmem, hq⟩ := find_mem hf
    simp only [Bool.and_eq_true, beq_iff_eq, Bool.not_eq_true'] at hq
    have hid : id ≠ 0 := by
      rw [← hq.1]; exact hinv.2.1 o hmem
    rw [updateOrder_found hid hd hf, updateOrderDescription_eq hid hd]
    refine ⟨rfl, rfl, ?_⟩
    apply orderGetByID_of_find rfl
    show (s.db.describeOrder id d).orders.find? (fun o => o.ID == id && !o.Deleted) = _
    rw [describeOrder_found hfresh hf]
    exact find_putOrder hf rfl hq.2
  · intro hid hg
    have hf := (orderGetByID_missing rfl hg).2
    rw [updateOrder_missing hid hd hf, updateOrderDescription_eq hid hd]
    exact ⟨rfl, rfl, rfl⟩

/-- Witness of C30: both paths give order 1 the description "new text". -/
theorem updateOrder_paths_witness :
    ("new text" ≠ "") ∧
    ((orderService.UpdateOrder noFaults exampleStore 1 "new text").2.db =
      (orderService.UpdateOrderDescription noFaults exampleStore 1 "new text").2.db ∧
    (1 = 0 →
      (orderService.UpdateOrder noFaults exampleStore 1 "new text").1 = .error .invalidOrderID ∧
      (orderService.UpdateOrderDescription noFaults exampleStore 1 "new text").1 =
        .error .invalidOrderID) ∧
    (∀ o, (orderRepository.GetByID noFaults exampleStore 1).1 = .ok o →
      (orderService.UpdateOrder noFaults exampleStore 1 "new text").1 =
        .ok { o with Description := "new text" } ∧
      (orderService.UpdateOrderDescription noFaults exampleStore 1 "new text").1 = .ok () ∧
      (orderRepository.GetByID noFaults
        (orderService.UpdateOrderDescription noFaults exampleStore 1 "new text").2 1).1 =
        .ok { o with Description := "new text" }) ∧
    (1 ≠ 0 → (orderRepository.GetByID noFaults exampleStore 1).1 = .error .recordNotFound →
      (orderService.UpdateOrder noFaults exampleStore 1 "new text").1 =
        .error (.orderNotFound .recordNotFound) ∧
      (orderService.UpdateOrderDescription noFaults exampleStore 1 "new text").1 = .ok () ∧
      (orderService.UpdateOrder noFaults exampleStore 1 "new text").2.db = exampleStore.db)) :=
  ⟨by decide, updateOrder_paths exampleStore ⟨_, rfl⟩ 1 "new text" (by decide)⟩

end PostgresCrud
